import Mathlib

/-!
# luit: charset registry (charset.c) and option parsing (luit.c)

A shallow embedding of the charset registry of luit (`charset.c`): the
normalized name comparison, the fontenc recode/reverse functions, the charset
cache, the lookups by designation and by name and the locale resolver; and of
the function `parseOptions` of `luit.c`.

C strings are modelled by `String` (the characters before the terminating
NUL), `unsigned` values by `Nat` reduced modulo `2^32`, `int` values by `Int`,
and pointers to heap objects by the number of the allocation that made them.
-/

namespace Luit

/-! ## Characters and the normalized comparison -/

/-- The `isspace` of `<ctype.h>` (C locale): space, and the controls
    `\t \n \v \f \r` (codes 9 to 13). -/
def isspace (c : Char) : Bool :=
  c.toNat == 32 || (9 ≤ c.toNat && c.toNat ≤ 13)

/-- The `tolower` of `<ctype.h>` (C locale): `A..Z` are moved to `a..z`,
    every other character is left as it is. -/
def tolower (c : Char) : Char :=
  if 65 ≤ c.toNat ∧ c.toNat ≤ 90 then Char.ofNat (c.toNat + 32) else c

/-- The test `isspace(UChar(*s)) || *s == '-' || *s == '_'` used by `compare`
    and `compare1` on a character that is present. -/
def isSkip (c : Char) : Bool :=
  isspace c || c.toNat == 45 || c.toNat == 95

/-- The loop of `compare`, one iteration per unit of fuel.  `s.head?` is `*s`
    (absent at the terminating NUL), `s.tail` is `s++`. -/
def compareLoop : Nat → List Char → List Char → Int
  | 0, s, t => if s.head?.isSome || t.head?.isSome then 1 else 0
  | fuel + 1, s, t =>
    if s.head?.isSome || t.head?.isSome then
      if s.head?.any isSkip then
        compareLoop fuel s.tail t
      else if t.head?.any isSkip then
        compareLoop fuel s t.tail
      else if (match s.head?, t.head? with
               | some c, some d => tolower c == tolower d
               | _, _ => false) then
        compareLoop fuel s.tail t.tail
      else
        1
    else
      0

/-- The function `compare(s, t)` of charset.c.  Every iteration of its loop
    consumes a character of `s` or of `t`, so `|s| + |t|` iterations are
    enough. -/
def compare (s t : String) : Int :=
  compareLoop (s.length + t.length) s.toList t.toList

/-- The normal form the specification gives to a name: every whitespace, `-`
    and `_` character is deleted and the remaining characters are
    lower-cased. -/
def normalize (s : String) : List Char :=
  (s.toList.filter (fun c => !isSkip c)).map tolower

/-- The normal form on character lists. -/
def normList (l : List Char) : List Char :=
  (l.filter (fun c => !isSkip c)).map tolower

/-! ## Type tags and records -/

/-- Modelled from the spec: the header charset.h, which defines the charset
    type tags, is not among the sources.  The spec names the eight tags; they
    are numbered as in luit's charset.h, where `T_FAILED` is 0 (the value that
    `getCharsetByName` passes as the type of a lookup by name). -/
def T_FAILED : Int := 0

/-- Modelled from the spec: tag of a 94-character set (see `T_FAILED`). -/
def T_94 : Int := 1

/-- Modelled from the spec: tag of a 96-character set (see `T_FAILED`). -/
def T_96 : Int := 2

/-- Modelled from the spec: tag of a 128-character set (see `T_FAILED`). -/
def T_128 : Int := 3

/-- Modelled from the spec: tag of a 94x94 set (see `T_FAILED`). -/
def T_9494 : Int := 4

/-- Modelled from the spec: tag of a 96x96 set (see `T_FAILED`). -/
def T_9696 : Int := 5

/-- Modelled from the spec: tag of a 94x192 set, Big 5 (see `T_FAILED`). -/
def T_94192 : Int := 6

/-- Modelled from the spec: tag of a non-ISO-2022 codec (see `T_FAILED`). -/
def T_OTHER : Int := 7

/-- Handle of a forward map of the external encoding provider (`FontMapPtr`). -/
abbrev FontMapPtr := Nat

/-- Handle of a reverse map of the external provider (`FontMapReversePtr`). -/
abbrev FontMapReversePtr := Nat

/-- The struct `FontencCharsetRec`: a row of the fontenc table.  A NULL
    `mapping` or `reverse` is `none`. -/
structure FontencCharsetRec where
  name : String
  type : Int
  final : Nat
  xlfd : String
  shift : Nat
  mapping : Option FontMapPtr
  reverse : Option FontMapReversePtr
  deriving DecidableEq, Repr

/-- The struct `OtherCharsetRec`: a row of the table of multibyte codecs.  The
    four functions live in other.c and are named, not modelled. -/
structure OtherCharsetRec where
  name : String
  init : String
  mapping : String
  reverse : String
  stack : String
  deriving DecidableEq, Repr

/-- The values the function pointer `recode` of a charset takes in charset.c. -/
inductive RecodeFn where
  | null
  | IdentityRecode
  | FontencCharsetRecode
  deriving DecidableEq, Repr

/-- The values the function pointer `reverse` of a charset takes in charset.c. -/
inductive ReverseFn where
  | null
  | NullReverse
  | FontencCharsetReverse
  deriving DecidableEq, Repr

/-- The values of the `data` pointer of a charset: NULL, a row of
    `fontencCharsets` or a row of `otherCharsets` (by index). -/
inductive DataPtr where
  | null
  | fontenc (row : Nat)
  | other (row : Nat)
  deriving DecidableEq, Repr

/-- Modelled from the spec: the struct `CharsetRec` is declared in charset.h,
    which is not among the sources.  Its fields are those of the spec's data
    model, in the order of the initializers of the sentinels of charset.c;
    the last field, `next`, is the link of the cache list and is carried by
    the list itself. -/
structure CharsetRec where
  name : String
  type : Int
  final : Nat
  recode : RecodeFn
  reverse : ReverseFn
  data : DataPtr
  other_recode : Option String
  other_reverse : Option String
  other_stack : Option String
  other_aux : Option Nat
  deriving DecidableEq, Repr

/-- A pointer to a charset (`const CharsetRec *`): the address of one of the
    four static sentinels, or the address of a heap object together with the
    object found there (a cached charset is never written after it is
    cached). -/
inductive CharsetPtr where
  | Unknown94
  | Unknown96
  | Unknown9494
  | Unknown9696
  | heap (addr : Nat) (c : CharsetRec)
  deriving DecidableEq, Repr

/-- The external collaborators of charset.c: the allocator, the encoding
    provider and the `init` functions of the multibyte codecs. -/
structure Env where
  /-- Whether the allocation number `k` of the run (`TypeCalloc`) succeeds. -/
  calloc : Nat → Bool
  /-- The function `LookupMapping(xlfd)`; `none` is NULL. -/
  LookupMapping : String → Option FontMapPtr
  /-- The function `LookupReverse(mapping)`; `none` is NULL. -/
  LookupReverse : FontMapPtr → Option FontMapReversePtr
  /-- The function `MapCodeValue(code, mapping)`. -/
  MapCodeValue : Nat → FontMapPtr → Nat
  /-- The call `reverse->reverse(i, reverse->data)` of a reverse map. -/
  reverse : FontMapReversePtr → Nat → Nat
  /-- The result of the codec function `init` of that name (non-zero or 0). -/
  init : String → Bool

/-- The mutable globals of charset.c: the fontenc table (its rows are
    written by `getFontencCharset`), the cache list (head first, each entry
    with its address), and the number of allocations made so far. -/
structure Registry where
  fontencCharsets : List FontencCharsetRec
  cachedCharsets : List (Nat × CharsetRec)
  brk : Nat
  deriving DecidableEq, Repr

/-! ## Sentinels and tables -/

/-- The function `IdentityRecode`. -/
def IdentityRecode (n : Nat) : Nat := n

/-- The function `NullReverse`. -/
def NullReverse (_n : Nat) : Int := -1

def Unknown94Charset : CharsetRec :=
  ⟨"Unknown (94)", T_94, 0, .IdentityRecode, .NullReverse, .null, none, none, none, none⟩

def Unknown96Charset : CharsetRec :=
  ⟨"Unknown (96)", T_96, 0, .IdentityRecode, .NullReverse, .null, none, none, none, none⟩

def Unknown9494Charset : CharsetRec :=
  ⟨"Unknown (94x94)", T_9494, 0, .IdentityRecode, .NullReverse, .null, none, none, none, none⟩

def Unknown9696Charset : CharsetRec :=
  ⟨"Unknown (96x96)", T_9696, 0, .IdentityRecode, .NullReverse, .null, none, none, none, none⟩

/-- The object a charset pointer points to. -/
def CharsetPtr.deref : CharsetPtr → CharsetRec
  | .Unknown94 => Unknown94Charset
  | .Unknown96 => Unknown96Charset
  | .Unknown9494 => Unknown9494Charset
  | .Unknown9696 => Unknown9696Charset
  | .heap _ c => c

/-- Whether a pointer is the address of one of the four sentinels. -/
def CharsetPtr.isUnknown : CharsetPtr → Bool
  | .heap _ _ => false
  | _ => true

/-- The table `fontencCharsets` as charset.c initializes it (the row of
    zeros that ends it is the end of the list). -/
def fontencCharsets : List FontencCharsetRec :=
  [ ⟨"ISO 646 (1973)", T_94, '@'.toNat, "iso646.1973-0", 0x00, none, none⟩,
    ⟨"ASCII", T_94, 'B'.toNat, "iso8859-1", 0x00, none, none⟩,
    ⟨"JIS X 0201:GL", T_94, 'J'.toNat, "jisx0201.1976-0", 0x00, none, none⟩,
    ⟨"JIS X 0201:GR", T_94, 'I'.toNat, "jisx0201.1976-0", 0x80, none, none⟩,
    ⟨"DEC Special", T_94, '0'.toNat, "dec-special", 0x00, none, none⟩,
    ⟨"DEC Technical", T_94, '>'.toNat, "dec-dectech", 0x00, none, none⟩,
    ⟨"ISO 8859-1", T_96, 'A'.toNat, "iso8859-1", 0x80, none, none⟩,
    ⟨"ISO 8859-2", T_96, 'B'.toNat, "iso8859-2", 0x80, none, none⟩,
    ⟨"ISO 8859-3", T_96, 'C'.toNat, "iso8859-3", 0x80, none, none⟩,
    ⟨"ISO 8859-4", T_96, 'D'.toNat, "iso8859-4", 0x80, none, none⟩,
    ⟨"ISO 8859-5", T_96, 'L'.toNat, "iso8859-5", 0x80, none, none⟩,
    ⟨"ISO 8859-6", T_96, 'G'.toNat, "iso8859-6", 0x80, none, none⟩,
    ⟨"ISO 8859-7", T_96, 'F'.toNat, "iso8859-7", 0x80, none, none⟩,
    ⟨"ISO 8859-8", T_96, 'H'.toNat, "iso8859-8", 0x80, none, none⟩,
    ⟨"ISO 8859-9", T_96, 'M'.toNat, "iso8859-9", 0x80, none, none⟩,
    ⟨"ISO 8859-10", T_96, 'V'.toNat, "iso8859-10", 0x80, none, none⟩,
    ⟨"ISO 8859-11", T_96, 'T'.toNat, "iso8859-11", 0x80, none, none⟩,
    ⟨"TIS 620", T_96, 'T'.toNat, "iso8859-11", 0x80, none, none⟩,
    ⟨"ISO 8859-13", T_96, 'Y'.toNat, "iso8859-13", 0x80, none, none⟩,
    ⟨"ISO 8859-14", T_96, '_'.toNat, "iso8859-14", 0x80, none, none⟩,
    ⟨"ISO 8859-15", T_96, 'b'.toNat, "iso8859-15", 0x80, none, none⟩,
    ⟨"ISO 8859-16", T_96, 'f'.toNat, "iso8859-16", 0x80, none, none⟩,
    ⟨"KOI8-E", T_96, '@'.toNat, "koi8-e", 0x80, none, none⟩,
    ⟨"TCVN", T_96, 'Z'.toNat, "tcvn-0", 0x80, none, none⟩,
    ⟨"GB 2312", T_9494, 'A'.toNat, "gb2312.1980-0", 0x0000, none, none⟩,
    ⟨"JIS X 0208", T_9494, 'B'.toNat, "jisx0208.1990-0", 0x0000, none, none⟩,
    ⟨"KSC 5601", T_9494, 'C'.toNat, "ksc5601.1987-0", 0x0000, none, none⟩,
    ⟨"JIS X 0212", T_9494, 'D'.toNat, "jisx0212.1990-0", 0x0000, none, none⟩,
    ⟨"GB 2312", T_9696, 'A'.toNat, "gb2312.1980-0", 0x0000, none, none⟩,
    ⟨"JIS X 0208", T_9696, 'B'.toNat, "jisx0208.1990-0", 0x0000, none, none⟩,
    ⟨"KSC 5601", T_9696, 'C'.toNat, "ksc5601.1987-0", 0x0000, none, none⟩,
    ⟨"JIS X 0212", T_9696, 'D'.toNat, "jisx0212.1990-0", 0x0000, none, none⟩,
    ⟨"KOI8-R", T_128, 0, "koi8-r", 0x80, none, none⟩,
    ⟨"KOI8-U", T_128, 0, "koi8-u", 0x80, none, none⟩,
    ⟨"KOI8-RU", T_128, 0, "koi8-ru", 0x80, none, none⟩,
    ⟨"CP 1252", T_128, 0, "microsoft-cp1252", 0x80, none, none⟩,
    ⟨"CP 1251", T_128, 0, "microsoft-cp1251", 0x80, none, none⟩,
    ⟨"CP 1250", T_128, 0, "microsoft-cp1250", 0x80, none, none⟩,
    ⟨"CP 437", T_128, 0, "ibm-cp437", 0x80, none, none⟩,
    ⟨"CP 850", T_128, 0, "ibm-cp850", 0x80, none, none⟩,
    ⟨"CP 852", T_128, 0, "ibm-cp852", 0x80, none, none⟩,
    ⟨"CP 866", T_128, 0, "ibm-cp866", 0x80, none, none⟩,
    ⟨"Big 5", T_94192, 0, "big5.eten-0", 0x8000, none, none⟩ ]

/-- The constant table `otherCharsets`. -/
def otherCharsets : List OtherCharsetRec :=
  [ ⟨"GBK", "init_gbk", "mapping_gbk", "reverse_gbk", "stack_gbk"⟩,
    ⟨"UTF-8", "init_utf8", "mapping_utf8", "reverse_utf8", "stack_utf8"⟩,
    ⟨"SJIS", "init_sjis", "mapping_sjis", "reverse_sjis", "stack_sjis"⟩,
    ⟨"BIG5-HKSCS", "init_hkscs", "mapping_hkscs", "reverse_hkscs", "stack_hkscs"⟩,
    ⟨"GB18030", "init_gb18030", "mapping_gb18030", "reverse_gb18030", "stack_gb18030"⟩ ]

/-- The state of the globals when the program starts: the table as
    initialized, `cachedCharsets = NULL`, nothing allocated. -/
def Registry.initial : Registry :=
  ⟨Luit.fontencCharsets, [], 0⟩

/-! ## Recoding through a fontenc charset -/

/-- The conversion `(int) n` of an `unsigned` value. -/
def toInt (n : Nat) : Int :=
  if n % 2 ^ 32 < 2 ^ 31 then ((n % 2 ^ 32 : Nat) : Int) else ((n % 2 ^ 32 : Nat) : Int) - 2 ^ 32

/-- The macro `IS_GL(n)`. -/
def IS_GL (n : Nat) : Bool :=
  n ≥ 0x20 && n < 0x80

/-- The function `FontencCharsetRecode(n, self)`, with `fc` the row that
    `self->data` points to.  `none` is a crash on a NULL `fc->mapping`. -/
def FontencCharsetRecode (env : Env) (n : Nat) (fc : FontencCharsetRec) : Option Nat :=
  match fc.mapping with
  | none => none
  | some mapping => some (env.MapCodeValue ((n + fc.shift) % 2 ^ 32) mapping % 2 ^ 32)

/-- The function `FontencCharsetReverse(i, self)`, with `fc` the row that
    `self->data` points to.  `none` is the end of the process: the `abort()`
    of the `default` case, or a crash on a NULL `fc->reverse`. -/
def FontencCharsetReverse (env : Env) (i : Nat) (self : CharsetRec)
    (fc : FontencCharsetRec) : Option Int :=
  match fc.reverse with
  | none => none
  | some reverse =>
    let n := env.reverse reverse i % 2 ^ 32
    if n ≠ 0 ∧ n ≥ fc.shift then
      let n := n - fc.shift
      if self.type = T_94 ∨ self.type = T_96 then
        if IS_GL n then some (toInt n) else some (-1)
      else if self.type = T_128 then
        if n < 0x80 then some (toInt n) else some (-1)
      else if self.type = T_9494 ∨ self.type = T_9696 then
        if IS_GL (n >>> 8) && IS_GL (n &&& 0xFF) then some (toInt n) else some (-1)
      else if self.type = T_94192 then
        if IS_GL (n >>> 8) && IS_GL (n &&& 0x7F) then some (toInt n) else some (-1)
      else
        none
    else
      some (-1)

/-! ## The cache and the lookups -/

/-- The first element of a table that satisfies `p`, with its index: the scan
    `while (fc->name) { if (...) break; fc++; }`. -/
def findRow {α : Type} (p : α → Bool) : List α → Option (Nat × α)
  | [] => none
  | x :: xs =>
    if p x then some (0, x)
    else match findRow p xs with
      | none => none
      | some (i, y) => some (i + 1, y)

/-- The test `name && !compare(cname, name)` of the three lookups. -/
def nameMatches (cname : String) (name : Option String) : Bool :=
  match name with
  | none => false
  | some n => compare cname n == 0

/-- The condition under which `getCachedCharset` returns the entry `c`. -/
def cachedMatch (final : Nat) (type : Int) (name : Option String) (c : CharsetRec) : Bool :=
  ((c.type == type && c.final == final) || nameMatches c.name name) && (c.type != T_FAILED)

/-- The function `getCachedCharset(final, type, name)`: the first entry of
    the cache list that matches, with its address. -/
def getCachedCharset (st : Registry) (final : Nat) (type : Int) (name : Option String) :
    Option (Nat × CharsetRec) :=
  st.cachedCharsets.find? (fun e => cachedMatch final type name e.2)

/-- The function `cacheCharset(c)` for the object `c` at address `addr`: it
    becomes the head of the cache list. -/
def cacheCharset (st : Registry) (addr : Nat) (c : CharsetRec) : Registry :=
  { st with cachedCharsets := (addr, c) :: st.cachedCharsets }

/-- The condition under which the scan of `getFontencCharset` stops at the
    row `fc`. -/
def fontencMatch (final : Nat) (type : Int) (name : Option String) (fc : FontencCharsetRec) :
    Bool :=
  ((fc.type == type && fc.final == final) || nameMatches fc.name name) && (fc.type != T_FAILED)

/-- The charset object that `getFontencCharset` fills in for the row `fc`
    at index `row` of the table: the assignments `c->name = fc->name` to
    `c->data = fc` on a zeroed `CharsetRec`. -/
def fontencCharsetOf (fc : FontencCharsetRec) (row : Nat) : CharsetRec :=
  { name := fc.name, type := fc.type, final := fc.final,
    recode := .FontencCharsetRecode, reverse := .FontencCharsetReverse,
    data := .fontenc row,
    other_recode := none, other_reverse := none, other_stack := none,
    other_aux := none }

/-- The state after a failed lookup of a map for the row `fc` at index
    `row`: `fc->type = T_FAILED`, and one allocation made (and freed). -/
def markFailed (st : Registry) (row : Nat) (fc : FontencCharsetRec) : Registry :=
  { st with brk := st.brk + 1,
            fontencCharsets := st.fontencCharsets.set row { fc with type := T_FAILED } }

/-- The function `getFontencCharset(final, type, name)`.  The result is the
    new charset (its address and contents) or `none` for NULL, and the state
    of the globals after the call.  The object `c` is the allocation number
    `st.brk`; it is freed again on the failure paths. -/
def getFontencCharset (env : Env) (st : Registry) (final : Nat) (type : Int)
    (name : Option String) : Option (Nat × CharsetRec) × Registry :=
  match findRow (fontencMatch final type name) st.fontencCharsets with
  | none => (none, st)
  | some (row, fc) =>
    if env.calloc st.brk = false then
      (none, { st with brk := st.brk + 1 })
    else
      match env.LookupMapping fc.xlfd with
      | none => (none, markFailed st row fc)
      | some mapping =>
        match env.LookupReverse mapping with
        | none => (none, markFailed st row fc)
        | some reverse =>
          let st1 : Registry :=
            { st with brk := st.brk + 1,
                      fontencCharsets := st.fontencCharsets.set row
                        { fc with mapping := some mapping, reverse := some reverse } }
          (some (st.brk, fontencCharsetOf fc row),
            cacheCharset st1 st.brk (fontencCharsetOf fc row))

/-- The charset object that `getOtherCharset` fills in for the row `fc` at
    index `row` of `otherCharsets`, with the codec state at address `aux`. -/
def otherCharsetOf (fc : OtherCharsetRec) (row : Nat) (aux : Nat) : CharsetRec :=
  { name := fc.name, type := T_OTHER, final := 0,
    recode := .null, reverse := .null,
    data := .other row,
    other_recode := some fc.mapping, other_reverse := some fc.reverse,
    other_stack := some fc.stack, other_aux := some aux }

/-- The function `getOtherCharset(name)`.  The object `c` is the allocation
    number `st.brk` and the codec state `s` the next one; `c->type = T_FAILED`
    on a failed `init` is written to `c`, which is then freed. -/
def getOtherCharset (env : Env) (st : Registry) (name : Option String) :
    Option (Nat × CharsetRec) × Registry :=
  match findRow (fun fc => nameMatches fc.name name) otherCharsets with
  | none => (none, st)
  | some (row, fc) =>
    if env.calloc st.brk = false then
      (none, { st with brk := st.brk + 1 })
    else if env.calloc (st.brk + 1) = false then
      (none, { st with brk := st.brk + 2 })
    else if env.init fc.init = false then
      (none, { st with brk := st.brk + 2 })
    else
      (some (st.brk, otherCharsetOf fc row (st.brk + 1)),
        cacheCharset { st with brk := st.brk + 2 } st.brk (otherCharsetOf fc row (st.brk + 1)))

/-- The function `getUnknownCharset(type)`. -/
def getUnknownCharset (type : Int) : CharsetPtr :=
  if type = T_94 then .Unknown94
  else if type = T_96 then .Unknown96
  else if type = T_9494 then .Unknown9494
  else if type = T_9696 then .Unknown9696
  else .Unknown94

/-- The function `getCharset(final, type)`. -/
def getCharset (env : Env) (st : Registry) (final : Nat) (type : Int) :
    CharsetPtr × Registry :=
  match getCachedCharset st final type none with
  | some (addr, c) => (.heap addr c, st)
  | none =>
    match getFontencCharset env st final type none with
    | (some (addr, c), st1) => (.heap addr c, st1)
    | (none, st1) => (getUnknownCharset type, st1)

/-- The function `getCharsetByName(name)`; `none` is a NULL name. -/
def getCharsetByName (env : Env) (st : Registry) (name : Option String) :
    CharsetPtr × Registry :=
  match name with
  | none => (getUnknownCharset T_94, st)
  | some n =>
    match getCachedCharset st 0 0 (some n) with
    | some (addr, c) => (.heap addr c, st)
    | none =>
      match getFontencCharset env st 0 0 (some n) with
      | (some (addr, c), st1) => (.heap addr c, st1)
      | (none, st1) =>
        match getOtherCharset env st1 (some n) with
        | (some (addr, c), st2) => (.heap addr c, st2)
        | (none, st2) => (getUnknownCharset T_94, st2)

/-! ## Sequences of lookups -/

/-- A call of one of the two lookup functions that charset.c exports. -/
inductive Lookup where
  | getCharset (final : Nat) (type : Int)
  | getCharsetByName (name : Option String)
  deriving DecidableEq, Repr

/-- The call `op` made in the state `st`: the pointer it returns and the
    state after it. -/
def Lookup.run (env : Env) (st : Registry) : Lookup → CharsetPtr × Registry
  | .getCharset final type => Luit.getCharset env st final type
  | .getCharsetByName name => Luit.getCharsetByName env st name

/-- Whether two calls are calls of the same function. -/
def Lookup.sameKind : Lookup → Lookup → Bool
  | .getCharset _ _, .getCharset _ _ => true
  | .getCharsetByName _, .getCharsetByName _ => true
  | _, _ => false

/-- The calls `ops` made one after the other from the state `st`: the
    pointers they return, in order, and the final state. -/
def runLookups (env : Env) (st : Registry) : List Lookup → List CharsetPtr × Registry
  | [] => ([], st)
  | op :: ops =>
    let r := op.run env st
    let rest := runLookups env r.2 ops
    (r.1 :: rest.1, rest.2)

/-- The condition under which the cache scan of the call `op` returns the
    entry `c`: `getCharset(final, type)` scans with a NULL name,
    `getCharsetByName(name)` with final 0 and type 0. -/
def Lookup.matches : Lookup → CharsetRec → Bool
  | .getCharset final type, c => cachedMatch final type none c
  | .getCharsetByName name, c => cachedMatch 0 0 name c

/-! ## Sample collaborators -/

/-- A provider in which every allocation and every lookup succeeds, every
    map is the identity and every codec initializes. -/
def Env.identity : Env :=
  ⟨fun _ => true, fun _ => some 1, fun _ => some 1, fun c _ => c, fun _ i => i, fun _ => true⟩

/-- The Big 5 row of the fontenc table once it is instantiated with the maps
    of `Env.identity`. -/
def big5Row : FontencCharsetRec :=
  ⟨"Big 5", T_94192, 0, "big5.eten-0", 0x8000, some 1, some 1⟩

/-- The charset that `getFontencCharset` builds from the Big 5 row (row 42). -/
def big5Charset : CharsetRec :=
  fontencCharsetOf big5Row 42

/-- The ISO 8859-1 row of the fontenc table once it is instantiated with the
    maps of `Env.identity`. -/
def latin1Row : FontencCharsetRec :=
  ⟨"ISO 8859-1", T_96, 'A'.toNat, "iso8859-1", 0x80, some 1, some 1⟩

/-- The charset that `getFontencCharset` builds from the ISO 8859-1 row
    (row 6). -/
def latin1Charset : CharsetRec :=
  fontencCharsetOf latin1Row 6

/-- The charset made from the row "ISO 8859-11" (row 16) of the table. -/
def iso885911Charset : CharsetRec :=
  fontencCharsetOf ⟨"ISO 8859-11", T_96, 'T'.toNat, "iso8859-11", 0x80, none, none⟩ 16

/-- The charset made from the row "TIS 620" (row 17) of the table. -/
def tis620Charset : CharsetRec :=
  fontencCharsetOf ⟨"TIS 620", T_96, 'T'.toNat, "iso8859-11", 0x80, none, none⟩ 17

/-- The T_9494 row "GB 2312" (row 24) of the table as initialized. -/
def gb2312Row9494 : FontencCharsetRec :=
  ⟨"GB 2312", T_9494, 'A'.toNat, "gb2312.1980-0", 0x0000, none, none⟩

/-- The T_9696 row "GB 2312" (row 28) of the table as initialized. -/
def gb2312Row9696 : FontencCharsetRec :=
  ⟨"GB 2312", T_9696, 'A'.toNat, "gb2312.1980-0", 0x0000, none, none⟩

/-- The T_9494 row "JIS X 0208" (row 25) of the table as initialized. -/
def jisx0208Row9494 : FontencCharsetRec :=
  ⟨"JIS X 0208", T_9494, 'B'.toNat, "jisx0208.1990-0", 0x0000, none, none⟩

/-- A provider like `Env.identity` in which the encoding `koi8-r` is
    missing: `LookupMapping("koi8-r")` returns NULL. -/
def Env.withoutKoi8r : Env :=
  ⟨fun _ => true, fun x => if x = "koi8-r" then none else some 1, fun _ => some 1,
    fun c _ => c, fun _ i => i, fun _ => true⟩

/-- The row "KOI8-R" (row 32) of the table as initialized. -/
def koi8rRow : FontencCharsetRec :=
  ⟨"KOI8-R", T_128, 0, "koi8-r", 0x80, none, none⟩

/-! ## The locale table and its resolver -/

/-- Modelled from the spec: the struct `LocaleCharsetRec` is declared in
    charset.h, which is not among the sources.  Its fields are those that
    `getLocaleState` reads, in the order of the initializers of
    `localeCharsets`; a NULL name is `none`. -/
structure LocaleCharsetRec where
  name : String
  gl : Int
  gr : Int
  g0 : Option String
  g1 : Option String
  g2 : Option String
  g3 : Option String
  other : Option String
  deriving DecidableEq, Repr

/-- The constant table `localeCharsets` (the row of zeros that ends it is
    the end of the list). -/
def localeCharsets : List LocaleCharsetRec :=
  [ ⟨"C", 0, 2, some "ASCII", none, some "ISO 8859-1", none, none⟩,
    ⟨"POSIX", 0, 2, some "ASCII", none, some "ISO 8859-1", none, none⟩,
    ⟨"US-ASCII", 0, 2, some "ASCII", none, some "ISO 8859-1", none, none⟩,
    ⟨"ISO8859-1", 0, 2, some "ASCII", none, some "ISO 8859-1", none, none⟩,
    ⟨"ISO8859-2", 0, 2, some "ASCII", none, some "ISO 8859-2", none, none⟩,
    ⟨"ISO8859-3", 0, 2, some "ASCII", none, some "ISO 8859-3", none, none⟩,
    ⟨"ISO8859-4", 0, 2, some "ASCII", none, some "ISO 8859-4", none, none⟩,
    ⟨"ISO8859-5", 0, 2, some "ASCII", none, some "ISO 8859-5", none, none⟩,
    ⟨"ISO8859-6", 0, 2, some "ASCII", none, some "ISO 8859-6", none, none⟩,
    ⟨"ISO8859-7", 0, 2, some "ASCII", none, some "ISO 8859-7", none, none⟩,
    ⟨"ISO8859-8", 0, 2, some "ASCII", none, some "ISO 8859-8", none, none⟩,
    ⟨"ISO8859-9", 0, 2, some "ASCII", none, some "ISO 8859-9", none, none⟩,
    ⟨"ISO8859-10", 0, 2, some "ASCII", none, some "ISO 8859-10", none, none⟩,
    ⟨"ISO8859-11", 0, 2, some "ASCII", none, some "ISO 8859-11", none, none⟩,
    ⟨"TIS620", 0, 2, some "ASCII", none, some "ISO 8859-11", none, none⟩,
    ⟨"ISO8859-13", 0, 2, some "ASCII", none, some "ISO 8859-13", none, none⟩,
    ⟨"ISO8859-14", 0, 2, some "ASCII", none, some "ISO 8859-14", none, none⟩,
    ⟨"ISO8859-15", 0, 2, some "ASCII", none, some "ISO 8859-15", none, none⟩,
    ⟨"ISO8859-16", 0, 2, some "ASCII", none, some "ISO 8859-16", none, none⟩,
    ⟨"KOI8-R", 0, 2, some "ASCII", none, some "KOI8-R", none, none⟩,
    ⟨"KOI8-U", 0, 2, some "ASCII", none, some "KOI8-U", none, none⟩,
    ⟨"KOI8-RU", 0, 2, some "ASCII", none, some "KOI8-RU", none, none⟩,
    ⟨"CP1250", 0, 2, some "ASCII", none, some "CP 1250", none, none⟩,
    ⟨"CP1251", 0, 2, some "ASCII", none, some "CP 1251", none, none⟩,
    ⟨"CP1252", 0, 2, some "ASCII", none, some "CP 1252", none, none⟩,
    ⟨"CP437", 0, 2, some "ASCII", none, some "CP 437", none, none⟩,
    ⟨"CP850", 0, 2, some "ASCII", none, some "CP 850", none, none⟩,
    ⟨"CP852", 0, 2, some "ASCII", none, some "CP 852", none, none⟩,
    ⟨"CP866", 0, 2, some "ASCII", none, some "CP 866", none, none⟩,
    ⟨"TCVN", 0, 2, some "ASCII", none, some "TCVN", none, none⟩,
    ⟨"eucCN", 0, 1, some "ASCII", some "GB 2312", none, none, none⟩,
    ⟨"GB2312", 0, 1, some "ASCII", some "GB 2312", none, none, none⟩,
    ⟨"eucJP", 0, 1, some "ASCII", some "JIS X 0208", some "JIS X 0201:GR", some "JIS X 0212",
      none⟩,
    ⟨"eucKR", 0, 1, some "ASCII", some "KSC 5601", none, none, none⟩,
    ⟨"eucCN", 0, 1, some "ASCII", some "GB 2312", none, none, none⟩,
    ⟨"Big5", 0, 1, some "ASCII", some "Big 5", none, none, none⟩,
    ⟨"gbk", 0, 1, none, none, none, none, some "GBK"⟩,
    ⟨"UTF-8", 0, 1, none, none, none, none, some "UTF-8"⟩,
    ⟨"SJIS", 0, 1, none, none, none, none, some "SJIS"⟩,
    ⟨"Big5-HKSCS", 0, 1, none, none, none, none, some "BIG5-HKSCS"⟩,
    ⟨"gb18030", 0, 1, none, none, none, none, some "GB18030"⟩ ]

/-- Modelled from the spec: the macro `MAX_KEYWORD_LENGTH` is defined in
    parser.h, which is not among the sources; it is the size of the buffer
    `source` of `matchLocaleCharset` (the spec's keyword length limit), 80
    in luit's parser.h. -/
def MAX_KEYWORD_LENGTH : Nat := 80

/-- The function `findLocaleCharset(charset)`: the first row of
    `localeCharsets` whose name compares equal, with its index, or `none`
    for the null pointer. -/
def findLocaleCharset (charset : String) : Option (Nat × LocaleCharsetRec) :=
  findRow (fun p => compare p.name charset == 0) localeCharsets

/-- The loop of `compare1`: at most `n` iterations, each as in `compare`. -/
def compare1Loop : Nat → List Char → List Char → Int
  | 0, _, _ => 0
  | n + 1, s, t =>
    if s.head?.isSome || t.head?.isSome then
      if s.head?.any isSkip then
        compare1Loop n s.tail t
      else if t.head?.any isSkip then
        compare1Loop n s t.tail
      else if (match s.head?, t.head? with
               | some c, some d => tolower c == tolower d
               | _, _ => false) then
        compare1Loop n s.tail t.tail
      else
        1
    else
      0

/-- The function `compare1(s, t, n)` of charset.c. -/
def compare1 (s t : String) (n : Nat) : Int :=
  compare1Loop n s.toList t.toList

/-- The function `strrchr(s, c)` for a character `c` other than NUL: the
    index of the last occurrence of `c` in `s`, or `none` for NULL. -/
def strrchr (c : Char) : List Char → Option Nat
  | [] => none
  | x :: xs =>
    match strrchr c xs with
    | some k => some (k + 1)
    | none => if x = c then some 0 else none

/-- The contents of `source` after the lines
    `if ((euro = strrchr(source, '@')) != 0 && !strcmp(euro, "@euro")) *euro = 0;`. -/
def stripEuro (source : String) : String :=
  match strrchr '@' source.toList with
  | some k =>
    if source.toList.drop k = "@euro".toList then String.mk (source.toList.take k)
    else source
  | none => source

/-- An entry of the table `prefixes` of `matchLocaleCharset`. -/
structure PrefixRec where
  source : String
  target : String
  source_len : Nat
  target_len : Nat
  deriving DecidableEq, Repr

/-- The macro `DATA(source, target)` of `matchLocaleCharset`. -/
def PrefixRec.DATA (source target : String) : PrefixRec :=
  ⟨source, target, source.length, target.length⟩

/-- The table `prefixes` of `matchLocaleCharset`. -/
def prefixes : List PrefixRec :=
  [ PrefixRec.DATA "ISO-" "ISO ",
    PrefixRec.DATA "IBM" "CP ",
    PrefixRec.DATA "CP-" "CP ",
    PrefixRec.DATA "ANSI" "CP " ]

/-- The loop `for (n = 0; n < SizeOf(prefixes); ++n)` of
    `matchLocaleCharset` over the entries that are left, with `source` the
    stripped label: the value of `p` when the loop ends.  The buffer `target`
    receives the target prefix followed by `source + source_len`. -/
def tryPrefixes (source : String) : List PrefixRec → Option (Nat × LocaleCharsetRec)
  | [] => none
  | d :: rest =>
    if source.length > d.source_len && source.length < MAX_KEYWORD_LENGTH
        && compare1 source d.source d.source_len == 0 then
      match findLocaleCharset
          (String.mk (d.target.toList.take d.target_len ++ source.toList.drop d.source_len)) with
      | some p => some p
      | none => tryPrefixes source rest
    else
      tryPrefixes source rest

/-- The function `matchLocaleCharset(charset)`.  The outer `none` is the
    undefined behaviour of `strcpy(source, charset)` when the label does not
    fit the buffer `source[MAX_KEYWORD_LENGTH]`; the inner `none` is the null
    pointer (no match).  The `Warning` about the euro writes to stderr only
    and is left out. -/
def matchLocaleCharset (charset : String) : Option (Option (Nat × LocaleCharsetRec)) :=
  if charset.toList.head?.isSome then
    if charset.length ≥ MAX_KEYWORD_LENGTH then
      none
    else
      match findLocaleCharset (stripEuro charset) with
      | some p => some (some p)
      | none => some (tryPrefixes (stripEuro charset) prefixes)
  else
    some none

/-- The objects that the seven result pointers of `getLocaleState` point
    to: two `int` and five charset pointers (`none` is NULL). -/
structure LocaleOut where
  gl : Int
  gr : Int
  g0 : Option CharsetPtr
  g1 : Option CharsetPtr
  g2 : Option CharsetPtr
  g3 : Option CharsetPtr
  other : Option CharsetPtr
  deriving DecidableEq, Repr

/-- The label that `getLocaleState` takes from a resolved locale: what
    follows the last `.`, or all of it when there is none. -/
def afterLastDot (resolved : String) : String :=
  match strrchr '.' resolved.toList with
  | some k => String.mk (resolved.toList.drop (k + 1))
  | none => resolved

/-- The function `getLocaleState(locale, charset, ...)`, with `out` the
    contents of the seven result objects before the call and
    `resolveLocale` the function of that name of parser.c (`none` is NULL).
    The result is `none` when `matchLocaleCharset` runs over its buffer, and
    else the value returned, the result objects and the registry after the
    call. -/
def getLocaleState (resolveLocale : String → Option String) (env : Env) (st : Registry)
    (out : LocaleOut) (locale : String) (charset : Option String) :
    Option (Int × LocaleOut × Registry) :=
  match (match charset with
         | some c => some c
         | none => (resolveLocale locale).map afterLastDot) with
  | none => some (-1, out, st)
  | some label =>
    match matchLocaleCharset label with
    | none => none
    | some none => some (-1, out, st)
    | some (some (_, p)) =>
      let r0 := getCharsetByName env st p.g0
      let r1 := getCharsetByName env r0.2 p.g1
      let r2 := getCharsetByName env r1.2 p.g2
      let r3 := getCharsetByName env r2.2 p.g3
      match p.other with
      | some o =>
        let r4 := getCharsetByName env r3.2 (some o)
        some (0, ⟨p.gl, p.gr, some r0.1, some r1.1, some r2.1, some r3.1, some r4.1⟩, r4.2)
      | none =>
        some (0, ⟨p.gl, p.gr, some r0.1, some r1.1, some r2.1, some r3.1, none⟩, r3.2)

/-- The assumption that every external collaborator succeeds: every
    allocation, every forward and reverse map lookup and every codec
    `init`. -/
def Env.allSucceed (env : Env) : Prop :=
  (∀ k, env.calloc k = true) ∧ (∀ x, ∃ m, env.LookupMapping x = some m) ∧
  (∀ m, ∃ r, env.LookupReverse m = some r) ∧ (∀ i, env.init i = true)

/-- Whether the name `nm` is defined by the tables of charset.c: it compares
    equal to the name of a fontenc row (as initialized) or of an "other"
    codec. -/
def nameDefined (nm : String) : Bool :=
  fontencCharsets.any (fun fc => fc.type != T_FAILED && compare fc.name nm == 0) ||
  otherCharsets.any (fun oc => compare oc.name nm == 0)

/-- The element `g[i]` of the banks that `getLocaleState` has filled in. -/
def LocaleOut.g (o : LocaleOut) (i : Int) : Option CharsetPtr :=
  if i = 0 then o.g0 else if i = 1 then o.g1 else if i = 2 then o.g2
  else if i = 3 then o.g3 else none

/-- The row "eucJP" (row 32) of the locale table. -/
def eucJPRow : LocaleCharsetRec :=
  ⟨"eucJP", 0, 1, some "ASCII", some "JIS X 0208", some "JIS X 0201:GR", some "JIS X 0212",
    none⟩

/-- The row "CP850" (row 26) of the locale table. -/
def cp850Row : LocaleCharsetRec :=
  ⟨"CP850", 0, 2, some "ASCII", none, some "CP 850", none, none⟩

/-- The row "CP1251" (row 23) of the locale table. -/
def cp1251Row : LocaleCharsetRec :=
  ⟨"CP1251", 0, 2, some "ASCII", none, some "CP 1251", none, none⟩
/-- The invariant of the cache in the states the lookups reach: every
    cached charset was built from a row of the fontenc table (and has the
    name of a row of that table) or from a row of `otherCharsets`. -/
def Registry.cacheFromTables (st : Registry) : Prop :=
  ∀ e ∈ st.cachedCharsets,
    (∃ row fc, e.2 = fontencCharsetOf fc row ∧
      fc.name ∈ Luit.fontencCharsets.map (fun r => r.name)) ∨
    (∃ row oc aux, otherCharsets[row]? = some oc ∧ e.2 = otherCharsetOf oc row aux)

/-- A provider like `Env.identity` in which every codec `init` fails. -/
def Env.initFails : Env :=
  ⟨fun _ => true, fun _ => some 1, fun _ => some 1, fun c _ => c, fun _ i => i, fun _ => false⟩

/-- The row "UTF-8" (row 37) of the locale table. -/
def utf8Row : LocaleCharsetRec :=
  ⟨"UTF-8", 0, 1, none, none, none, none, some "UTF-8"⟩
/-- The call `self->recode(n, self)` through the function pointer of a
    charset, with `tbl` the fontenc table that `self->data` may point into.
    `none` is a crash (a NULL pointer). -/
def CharsetRec.callRecode (env : Env) (tbl : List FontencCharsetRec) (self : CharsetRec)
    (n : Nat) : Option Nat :=
  match self.recode with
  | .null => none
  | .IdentityRecode => some (IdentityRecode n)
  | .FontencCharsetRecode =>
    match self.data with
    | .fontenc row =>
      match tbl[row]? with
      | some fc => FontencCharsetRecode env n fc
      | none => none
    | _ => none

/-- The call `self->reverse(n, self)` through the function pointer of a
    charset.  `none` is a crash or the `abort()` of `FontencCharsetReverse`. -/
def CharsetRec.callReverse (env : Env) (tbl : List FontencCharsetRec) (self : CharsetRec)
    (n : Nat) : Option Int :=
  match self.reverse with
  | .null => none
  | .NullReverse => some (NullReverse n)
  | .FontencCharsetReverse =>
    match self.data with
    | .fontenc row =>
      match tbl[row]? with
      | some fc => FontencCharsetReverse env n self fc
      | none => none
    | _ => none

/-! ## Option parsing (luit.c) -/

/-- Modelled from the spec: the output flag `OF_SS` is defined in iso2022.h,
    which is not among the sources.  The flags of one direction are distinct
    single bits, numbered as in luit's iso2022.h. -/
def OF_SS : Nat := 1

/-- Modelled from the spec: output flag for locking shifts (see `OF_SS`). -/
def OF_LS : Nat := 2

/-- Modelled from the spec: output flag for charset selection (see `OF_SS`). -/
def OF_SELECT : Nat := 4

/-- Modelled from the spec: output flag for pass-through (see `OF_SS`). -/
def OF_PASSTHRU : Nat := 8

/-- Modelled from the spec: input flag for single shifts (see `OF_SS`). -/
def IF_SS : Nat := 1

/-- Modelled from the spec: input flag for locking shifts (see `OF_SS`). -/
def IF_LS : Nat := 2

/-- Modelled from the spec: input flag for 8-bit input (see `OF_SS`). -/
def IF_EIGHTBIT : Nat := 4

/-- Modelled from the spec: input flag for single shifts into GR (see
    `OF_SS`). -/
def IF_SSGR : Nat := 8

/-- The value of `flags & ~mask` on 32-bit flags. -/
def clearFlag (flags mask : Nat) : Nat :=
  flags &&& (0xFFFFFFFF ^^^ mask)

/-- Modelled from the spec: the struct behind `Iso2022Ptr` is declared in
    iso2022.h, which is not among the sources.  These are the fields that
    `parseOptions` writes: the four banks `g[0..3]` (`none` is NULL), the
    pointers `glp` and `grp` (the index `k` of the bank `&g[k]` they point
    to, `none` for any other value), and the two flag words. -/
structure Iso2022Rec where
  g0 : Option CharsetPtr
  g1 : Option CharsetPtr
  g2 : Option CharsetPtr
  g3 : Option CharsetPtr
  glp : Option Nat
  grp : Option Nat
  inputFlags : Nat
  outputFlags : Nat
  deriving DecidableEq, Repr

/-- The globals of luit.c that `parseOptions` reads or writes, with the two
    ISO 2022 states that `inputState` and `outputState` point to and the
    globals of charset.c. -/
structure Globals where
  verbose : Int
  fill_fontenc : Int
  child_argv0 : Option String
  exitOnChild : Int
  converter : Int
  ilog : Int
  olog : Int
  locale_alias : String
  locale_name : Option String
  ignore_locale : Int
  pipe_option : Int
  testonly : Int
  inputState : Iso2022Rec
  outputState : Iso2022Rec
  registry : Registry
  deriving DecidableEq, Repr

/-- What one iteration of the loop of `parseOptions` ends with: the loop
    goes on with a new `i`, the loop is left by `break`, or the program ends
    in `ExitProgram(status)`. -/
inductive Step where
  | next (i : Nat) (s : Globals)
  | stop (i : Nat) (s : Globals)
  | exit (status : Int) (s : Globals)
  deriving DecidableEq, Repr

/-- The value `EXIT_FAILURE` of `<stdlib.h>`. -/
def EXIT_FAILURE : Int := 1

/-- The computation of `j` from the argument of `-gl`, `-gr`, `-kgl` and
    `-kgr`: -1 unless the argument has two characters and starts with `g`,
    else the second character minus `'0'`. -/
def bankIndex (arg : String) : Int :=
  match arg.toList with
  | [c0, c1] => if c0 ≠ 'g' then -1 else (c1.toNat : Int) - ('0'.toNat : Int)
  | _ => -1

/-- The body of the loop of `parseOptions` for `i < argc`: the chain of
    `if ... else if` on `argv[i]`.  `openLog` is the call
    `open(name, O_WRONLY | O_CREAT | O_TRUNC, 0777)`.  A missing argument is
    `FatalError`, which ends in `ExitProgram(1)`; an unknown option is
    `help(argv[0], 1)`, which ends in `ExitProgram(EXIT_FAILURE)`.  What is
    printed is left out. -/
def parseStep (env : Env) (openLog : String → Int) (argv : List String) (i : Nat)
    (s : Globals) : Step :=
  let a := argv.getD i ""
  let arg := argv[i + 1]?
  if a.toList.head? ≠ some '-' ∧ a.toList.head? ≠ some '+' then .stop i s
  else if a = "--" then .stop (i + 1) s
  else if a = "-v" then .next (i + 1) { s with verbose := s.verbose + 1 }
  else if a = "-V" then .exit 0 s
  else if a = "-h" then .exit 0 s
  else if a = "-list" then .exit 0 s
  else if a = "-fill-fontenc" then .next (i + 1) { s with fill_fontenc := 1 }
  else if a = "-show-fontenc" then
    match arg with
    | none => .exit 1 s
    | some _ => .exit 0 s
  else if a = "-show-iconv" then
    match arg with
    | none => .exit 1 s
    | some _ => .exit 0 s
  else if a = "-list-fontenc" then .exit 0 s
  else if a = "-list-iconv" then .exit 0 s
  else if a = "+oss" then
    .next (i + 1) { s with outputState :=
      { s.outputState with outputFlags := clearFlag s.outputState.outputFlags OF_SS } }
  else if a = "+ols" then
    .next (i + 1) { s with outputState :=
      { s.outputState with outputFlags := clearFlag s.outputState.outputFlags OF_LS } }
  else if a = "+osl" then
    .next (i + 1) { s with outputState :=
      { s.outputState with outputFlags := clearFlag s.outputState.outputFlags OF_SELECT } }
  else if a = "+ot" then
    .next (i + 1) { s with outputState := { s.outputState with outputFlags := OF_PASSTHRU } }
  else if a = "-k7" then
    .next (i + 1) { s with inputState :=
      { s.inputState with inputFlags := clearFlag s.inputState.inputFlags IF_EIGHTBIT } }
  else if a = "+kss" then
    .next (i + 1) { s with inputState :=
      { s.inputState with inputFlags := clearFlag s.inputState.inputFlags IF_SS } }
  else if argv.getD 1 "" = "+kssgr" then
    .next (i + 1) { s with inputState :=
      { s.inputState with inputFlags := clearFlag s.inputState.inputFlags IF_SSGR } }
  else if a = "-kls" then
    .next (i + 1) { s with inputState :=
      { s.inputState with inputFlags := s.inputState.inputFlags ||| IF_LS } }
  else if a = "-g0" then
    match arg with
    | none => .exit 1 s
    | some x =>
      let r := getCharsetByName env s.registry (some x)
      .next (i + 2) { s with outputState := { s.outputState with g0 := some r.1 },
                             registry := r.2 }
  else if a = "-g1" then
    match arg with
    | none => .exit 1 s
    | some x =>
      let r := getCharsetByName env s.registry (some x)
      .next (i + 2) { s with outputState := { s.outputState with g1 := some r.1 },
                             registry := r.2 }
  else if a = "-g2" then
    match arg with
    | none => .exit 1 s
    | some x =>
      let r := getCharsetByName env s.registry (some x)
      .next (i + 2) { s with outputState := { s.outputState with g2 := some r.1 },
                             registry := r.2 }
  else if a = "-g3" then
    match arg with
    | none => .exit 1 s
    | some x =>
      let r := getCharsetByName env s.registry (some x)
      .next (i + 2) { s with outputState := { s.outputState with g3 := some r.1 },
                             registry := r.2 }
  else if a = "-gl" then
    match arg with
    | none => .exit 1 s
    | some x =>
      if bankIndex x < 0 ∨ bankIndex x > 3 then .exit 1 s
      else .next (i + 2) { s with outputState :=
        { s.outputState with glp := some (bankIndex x).toNat } }
  else if a = "-gr" then
    match arg with
    | none => .exit 1 s
    | some x =>
      if bankIndex x < 0 ∨ bankIndex x > 3 then .exit 1 s
      else .next (i + 2) { s with outputState :=
        { s.outputState with grp := some (bankIndex x).toNat } }
  else if a = "-kg0" then
    match arg with
    | none => .exit 1 s
    | some x =>
      let r := getCharsetByName env s.registry (some x)
      .next (i + 2) { s with inputState := { s.inputState with g0 := some r.1 },
                             registry := r.2 }
  else if a = "-kg1" then
    match arg with
    | none => .exit 1 s
    | some x =>
      let r := getCharsetByName env s.registry (some x)
      .next (i + 2) { s with inputState := { s.inputState with g1 := some r.1 },
                             registry := r.2 }
  else if a = "-kg2" then
    match arg with
    | none => .exit 1 s
    | some x =>
      let r := getCharsetByName env s.registry (some x)
      .next (i + 2) { s with inputState := { s.inputState with g2 := some r.1 },
                             registry := r.2 }
  else if a = "-kg3" then
    match arg with
    | none => .exit 1 s
    | some x =>
      let r := getCharsetByName env s.registry (some x)
      .next (i + 2) { s with inputState := { s.inputState with g3 := some r.1 },
                             registry := r.2 }
  else if a = "-kgl" then
    match arg with
    | none => .exit 1 s
    | some x =>
      if bankIndex x < 0 ∨ bankIndex x > 3 then .exit 1 s
      else .next (i + 2) { s with inputState :=
        { s.inputState with glp := some (bankIndex x).toNat } }
  else if a = "-kgr" then
    match arg with
    | none => .exit 1 s
    | some x =>
      if bankIndex x < 0 ∨ bankIndex x > 3 then .exit 1 s
      else .next (i + 2) { s with inputState :=
        { s.inputState with grp := some (bankIndex x).toNat } }
  else if a = "-argv0" then
    match arg with
    | none => .exit 1 s
    | some x => .next (i + 2) { s with child_argv0 := some x }
  else if a = "-x" then .next (i + 1) { s with exitOnChild := 1 }
  else if a = "-c" then .next (i + 1) { s with converter := 1 }
  else if a = "-ilog" then
    match arg with
    | none => .exit 1 s
    | some x =>
      if openLog x < 0 then .exit 1 { s with ilog := openLog x }
      else .next (i + 2) { s with ilog := openLog x }
  else if a = "-olog" then
    match arg with
    | none => .exit 1 s
    | some x =>
      if openLog x < 0 then .exit 1 { s with olog := openLog x }
      else .next (i + 2) { s with olog := openLog x }
  else if a = "-alias" then
    match arg with
    | none => .exit 1 s
    | some x => .next (i + 2) { s with locale_alias := x }
  else if a = "-encoding" then
    match arg with
    | none => .exit 1 s
    | some x => .next (i + 2) { s with locale_name := some x, ignore_locale := 1 }
  else if a = "-p" then .next (i + 1) { s with pipe_option := 1 }
  else if a = "-t" then .next (i + 1) { s with testonly := s.testonly + 1 }
  else .exit EXIT_FAILURE s

/-- What `parseOptions` ends with: it returns `i`, or the program ends in
    `ExitProgram(status)`; `outOfFuel` stands for a loop that has not ended
    after as many iterations as there are arguments. -/
inductive ParseResult where
  | returns (i : Nat) (s : Globals)
  | exits (status : Int) (s : Globals)
  | outOfFuel
  deriving DecidableEq, Repr

/-- The loop `while (i < argc)` of `parseOptions`, one iteration per unit
    of fuel. -/
def parseLoop (env : Env) (openLog : String → Int) (argv : List String) :
    Nat → Nat → Globals → ParseResult
  | 0, i, s => if i < argv.length then .outOfFuel else .returns i s
  | fuel + 1, i, s =>
    if i < argv.length then
      match parseStep env openLog argv i s with
      | .next i1 s1 => parseLoop env openLog argv fuel i1 s1
      | .stop i1 s1 => .returns i1 s1
      | .exit status s1 => .exits status s1
    else
      .returns i s

/-- The function `parseOptions(argc, argv)` with `argc` the length of
    `argv`: the loop from `i = 1`.  Every iteration that goes on has
    increased `i`, so `argc` iterations are enough. -/
def parseOptions (env : Env) (openLog : String → Int) (argv : List String) (s : Globals) :
    ParseResult :=
  parseLoop env openLog argv argv.length 1 s

/-- A state of the globals when `main` calls `parseOptions`: the registry
    as initialized, the two ISO 2022 states with empty banks and the flags
    `IF_EIGHTBIT | IF_SS | IF_SSGR` and `OF_SS | OF_LS | OF_SELECT`. -/
def Globals.sample : Globals :=
  { verbose := 0, fill_fontenc := 0, child_argv0 := none, exitOnChild := 0, converter := 0,
    ilog := -1, olog := -1, locale_alias := "locale.alias", locale_name := some "C",
    ignore_locale := 0, pipe_option := 0, testonly := 0,
    inputState := ⟨none, none, none, none, none, none, IF_EIGHTBIT ||| IF_SS ||| IF_SSGR, 0⟩,
    outputState := ⟨none, none, none, none, none, none, 0, OF_SS ||| OF_LS ||| OF_SELECT⟩,
    registry := Registry.initial }

/-- The ASCII row (row 1) of the fontenc table once it is instantiated with
    the maps of `Env.identity`. -/
def asciiRow : FontencCharsetRec :=
  ⟨"ASCII", T_94, 'B'.toNat, "iso8859-1", 0x00, some 1, some 1⟩

/-- The charset that `getFontencCharset` builds from the ASCII row. -/
def asciiCharset : CharsetRec :=
  fontencCharsetOf asciiRow 1

/-- The T_9494 row "GB 2312" (row 24) once it is instantiated with the maps
    of `Env.identity`. -/
def gb2312Row : FontencCharsetRec :=
  ⟨"GB 2312", T_9494, 'A'.toNat, "gb2312.1980-0", 0x0000, some 1, some 1⟩

/-- The charset that `getFontencCharset` builds from the T_9494 row
    "GB 2312". -/
def gb2312Charset : CharsetRec :=
  fontencCharsetOf gb2312Row 24

/-- The invariant of the globals in the states the lookups reach: every row
    of the fontenc table has one of the six fontenc types or is marked
    T_FAILED; every cached charset was built from a fontenc row that was not
    marked T_FAILED and that now holds its two maps, or from a row of
    `otherCharsets`; and no two cached charsets have the same `data`. -/
def Registry.rowsOnce (st : Registry) : Prop :=
  (∀ fc ∈ st.fontencCharsets, fc.type = T_FAILED ∨ fc.type = T_94 ∨ fc.type = T_96 ∨
    fc.type = T_128 ∨ fc.type = T_9494 ∨ fc.type = T_9696 ∨ fc.type = T_94192) ∧
  (∀ e ∈ st.cachedCharsets,
    (∃ row fc m r, e.2 = fontencCharsetOf fc row ∧ fc.type ≠ T_FAILED ∧
      st.fontencCharsets[row]? = some { fc with mapping := some m, reverse := some r }) ∨
    (∃ row oc aux, otherCharsets[row]? = some oc ∧ e.2 = otherCharsetOf oc row aux)) ∧
  (st.cachedCharsets.map (fun e => e.2.data)).Nodup

/-- The row "CP1250" (row 22) of the locale table. -/
def cp1250Row : LocaleCharsetRec :=
  ⟨"CP1250", 0, 2, some "ASCII", none, some "CP 1250", none, none⟩

/-- What an iteration of the loop of `parseOptions` does to the index when
    the loop goes on: `i++`, or `i += 2` past an argument that exists. -/
def Step.advances (i argc : Nat) : Step → Prop
  | .next i1 _ => i1 = i + 1 ∨ (i1 = i + 2 ∧ i + 1 < argc)
  | _ => True

/-- Where an iteration of the loop of `parseOptions` breaks: at an argument
    that begins with neither `-` nor `+`, or past an argument `--`; the
    globals are as before. -/
def Step.breaksAt (argv : List String) (i : Nat) (s : Globals) : Step → Prop
  | .stop i1 s1 =>
    s1 = s ∧
    ((i1 = i ∧ (argv.getD i "").toList.head? ≠ some '-' ∧
        (argv.getD i "").toList.head? ≠ some '+') ∨
      (i1 = i + 1 ∧ argv.getD i "" = "--"))
  | _ => True

/-- The pointers `glp` and `grp` of an ISO 2022 state both designate one of
    the four banks `g[0..3]`. -/
def Iso2022Rec.pointsToBanks (r : Iso2022Rec) : Prop :=
  (∃ k, k ≤ 3 ∧ r.glp = some k) ∧ (∃ k, k ≤ 3 ∧ r.grp = some k)

/-- An iteration of the loop of `parseOptions` that does not end the
    program leaves `glp` and `grp` of both states designating banks. -/
def Step.keepsPointers : Step → Prop
  | .next _ s1 => s1.inputState.pointsToBanks ∧ s1.outputState.pointsToBanks
  | .stop _ s1 => s1.inputState.pointsToBanks ∧ s1.outputState.pointsToBanks
  | .exit _ _ => True

theorem normList_nil : normList [] = [] := rfl

theorem normList_cons_skip (c : Char) (l : List Char) (h : isSkip c = true) :
    normList (c :: l) = normList l := by
  simp [normList, h]

theorem normList_cons_keep (c : Char) (l : List Char) (h : isSkip c = false) :
    normList (c :: l) = tolower c :: normList l := by
  simp [normList, h]

theorem compareLoop_zero_or_one (fuel : Nat) :
    ∀ s t : List Char, compareLoop fuel s t = 0 ∨ compareLoop fuel s t = 1 := by
  induction fuel with
  | zero =>
    intro s t
    unfold compareLoop
    split <;> simp
  | succ n ih =>
    intro s t
    unfold compareLoop
    split
    · split
      · exact ih _ _
      · split
        · exact ih _ _
        · split
          · exact ih _ _
          · right; rfl
    · left; rfl

theorem compareLoop_eq_zero_iff (fuel : Nat) :
    ∀ s t : List Char, s.length + t.length ≤ fuel →
      (compareLoop fuel s t = 0 ↔ normList s = normList t) := by
  induction fuel with
  | zero =>
    intro s t h
    have hs : s = [] := List.length_eq_zero.mp (by omega)
    have ht : t = [] := List.length_eq_zero.mp (by omega)
    subst hs; subst ht
    simp [compareLoop]
  | succ n ih =>
    intro s t h
    cases s with
    | nil =>
      cases t with
      | nil => simp [compareLoop]
      | cons d t1 =>
        cases hd : isSkip d with
        | true =>
          have := ih [] t1 (by simp at h ⊢; omega)
          simp [compareLoop, hd, normList_cons_skip d t1 hd, this]
        | false =>
          simp [compareLoop, hd, normList_cons_keep d t1 hd, normList_nil]
    | cons c s1 =>
      cases hc : isSkip c with
      | true =>
        have := ih s1 t (by simp at h ⊢; omega)
        simp [compareLoop, hc, normList_cons_skip c s1 hc, this]
      | false =>
        cases t with
        | nil =>
          simp [compareLoop, hc, normList_cons_keep c s1 hc, normList_nil]
        | cons d t1 =>
          cases hd : isSkip d with
          | true =>
            have := ih (c :: s1) t1 (by simp at h ⊢; omega)
            simp [compareLoop, hc, hd, normList_cons_skip d t1 hd, this]
          | false =>
            have := ih s1 t1 (by simp at h ⊢; omega)
            by_cases hcd : tolower c = tolower d
            · simp [compareLoop, hc, hd, normList_cons_keep c s1 hc,
                normList_cons_keep d t1 hd, hcd, this]
            · simp [compareLoop, hc, hd, normList_cons_keep c s1 hc,
                normList_cons_keep d t1 hd, hcd]

/-- C1: `compare(s, t)` returns 0 exactly when `s` and `t` are equal after
    deleting every whitespace, `-` and `_` character and lower-casing the
    rest, and returns 1 in every other case. -/
theorem compare_eq_zero_iff_normalize_eq (s t : String) :
    (compare s t = 0 ↔ normalize s = normalize t) ∧
    (compare s t ≠ 0 → compare s t = 1) := by
  constructor
  · exact compareLoop_eq_zero_iff _ s.toList t.toList (Nat.le_refl _)
  · intro h
    rcases compareLoop_zero_or_one (s.length + t.length) s.toList t.toList with h0 | h1
    · exact absurd h0 h
    · exact h1

/-! ### Recode and reverse of a fontenc charset -/

theorem and_0xFF (n : Nat) : n &&& 0xFF = n % 256 :=
  Nat.and_pow_two_sub_one_eq_mod n 8

theorem and_0x7F (n : Nat) : n &&& 0x7F = n % 128 :=
  Nat.and_pow_two_sub_one_eq_mod n 7

theorem shr_8 (n : Nat) : n >>> 8 = n / 256 :=
  Nat.shiftRight_eq_div_pow n 8

theorem IS_GL_iff (n : Nat) : IS_GL n = true ↔ 0x20 ≤ n ∧ n < 0x80 := by
  simp [IS_GL]

theorem toInt_small (n : Nat) (h : n < 2 ^ 31) : toInt n = (n : Int) := by
  have h1 : n % 2 ^ 32 = n := Nat.mod_eq_of_lt (by omega)
  unfold toInt
  rw [h1, if_pos h]

theorem FontencCharsetReverse_T94 (env : Env) (i : Nat) (self : CharsetRec)
    (fc : FontencCharsetRec) (rev : FontMapReversePtr) (hr : fc.reverse = some rev)
    (ht : self.type = T_94 ∨ self.type = T_96) :
    FontencCharsetReverse env i self fc =
      if env.reverse rev i % 2 ^ 32 ≠ 0 ∧ env.reverse rev i % 2 ^ 32 ≥ fc.shift then
        (if IS_GL (env.reverse rev i % 2 ^ 32 - fc.shift) then
          some (toInt (env.reverse rev i % 2 ^ 32 - fc.shift)) else some (-1))
      else some (-1) := by
  unfold FontencCharsetReverse
  rw [hr]
  simp only []
  rw [if_pos ht]

theorem FontencCharsetReverse_T128 (env : Env) (i : Nat) (self : CharsetRec)
    (fc : FontencCharsetRec) (rev : FontMapReversePtr) (hr : fc.reverse = some rev)
    (ht : self.type = T_128) :
    FontencCharsetReverse env i self fc =
      if env.reverse rev i % 2 ^ 32 ≠ 0 ∧ env.reverse rev i % 2 ^ 32 ≥ fc.shift then
        (if env.reverse rev i % 2 ^ 32 - fc.shift < 0x80 then
          some (toInt (env.reverse rev i % 2 ^ 32 - fc.shift)) else some (-1))
      else some (-1) := by
  unfold FontencCharsetReverse
  rw [hr]
  simp only []
  rw [ht, if_neg (show ¬(T_128 = T_94 ∨ T_128 = T_96) by decide), if_pos (show T_128 = T_128 from rfl)]

theorem FontencCharsetReverse_T9494 (env : Env) (i : Nat) (self : CharsetRec)
    (fc : FontencCharsetRec) (rev : FontMapReversePtr) (hr : fc.reverse = some rev)
    (ht : self.type = T_9494 ∨ self.type = T_9696) :
    FontencCharsetReverse env i self fc =
      if env.reverse rev i % 2 ^ 32 ≠ 0 ∧ env.reverse rev i % 2 ^ 32 ≥ fc.shift then
        (if IS_GL ((env.reverse rev i % 2 ^ 32 - fc.shift) >>> 8) &&
            IS_GL ((env.reverse rev i % 2 ^ 32 - fc.shift) &&& 0xFF) then
          some (toInt (env.reverse rev i % 2 ^ 32 - fc.shift)) else some (-1))
      else some (-1) := by
  unfold FontencCharsetReverse
  rw [hr]
  simp only []
  rcases ht with h | h
  · rw [h, if_neg (show ¬(T_9494 = T_94 ∨ T_9494 = T_96) by decide),
      if_neg (show ¬(T_9494 = T_128) by decide),
      if_pos (show T_9494 = T_9494 ∨ T_9494 = T_9696 by decide)]
  · rw [h, if_neg (show ¬(T_9696 = T_94 ∨ T_9696 = T_96) by decide),
      if_neg (show ¬(T_9696 = T_128) by decide),
      if_pos (show T_9696 = T_9494 ∨ T_9696 = T_9696 by decide)]

theorem FontencCharsetReverse_T94192 (env : Env) (i : Nat) (self : CharsetRec)
    (fc : FontencCharsetRec) (rev : FontMapReversePtr) (hr : fc.reverse = some rev)
    (ht : self.type = T_94192) :
    FontencCharsetReverse env i self fc =
      if env.reverse rev i % 2 ^ 32 ≠ 0 ∧ env.reverse rev i % 2 ^ 32 ≥ fc.shift then
        (if IS_GL ((env.reverse rev i % 2 ^ 32 - fc.shift) >>> 8) &&
            IS_GL ((env.reverse rev i % 2 ^ 32 - fc.shift) &&& 0x7F) then
          some (toInt (env.reverse rev i % 2 ^ 32 - fc.shift)) else some (-1))
      else some (-1) := by
  unfold FontencCharsetReverse
  rw [hr]
  simp only []
  rw [ht, if_neg (show ¬(T_94192 = T_94 ∨ T_94192 = T_96) by decide),
    if_neg (show ¬(T_94192 = T_128) by decide),
    if_neg (show ¬(T_94192 = T_9494 ∨ T_94192 = T_9696) by decide),
    if_pos (show T_94192 = T_94192 from rfl)]

theorem some_ite_cases {c1 c2 : Prop} [Decidable c1] [Decidable c2] {n : Nat} {r : Int}
    (h : (if c1 then (if c2 then some (toInt n) else some (-1)) else some (-1)) = some r)
    (hne : r ≠ -1) : c1 ∧ c2 ∧ r = toInt n := by
  by_cases h1 : c1
  · by_cases h2 : c2
    · rw [if_pos h1, if_pos h2] at h
      exact ⟨h1, h2, (Option.some.inj h).symm⟩
    · rw [if_pos h1, if_neg h2] at h
      exact absurd (Option.some.inj h).symm hne
  · rw [if_neg h1] at h
    exact absurd (Option.some.inj h).symm hne

/-- For a charset of one of the six fontenc types, `FontencCharsetReverse`
    returns -1, or the reverse map gave a non-zero `n ≥ shift` and the result
    is `n - shift`, which is below `2^15`. -/
theorem FontencCharsetReverse_result (env : Env) (i : Nat) (self : CharsetRec)
    (fc : FontencCharsetRec) (rev : FontMapReversePtr) (hr : fc.reverse = some rev)
    (ht : self.type = T_94 ∨ self.type = T_96 ∨ self.type = T_128 ∨ self.type = T_9494 ∨
      self.type = T_9696 ∨ self.type = T_94192) :
    FontencCharsetReverse env i self fc = some (-1) ∨
    (env.reverse rev i % 2 ^ 32 ≠ 0 ∧ fc.shift ≤ env.reverse rev i % 2 ^ 32 ∧
      env.reverse rev i % 2 ^ 32 - fc.shift < 2 ^ 15 ∧
      FontencCharsetReverse env i self fc =
        some ((env.reverse rev i % 2 ^ 32 - fc.shift : Nat) : Int)) := by
  rcases ht with h | h | h | h | h | h
  · rw [FontencCharsetReverse_T94 env i self fc rev hr (Or.inl h)]
    split_ifs with h1 h2
    · have := (IS_GL_iff _).mp h2
      exact Or.inr ⟨h1.1, h1.2, by omega, by rw [toInt_small _ (by omega)]⟩
    · exact Or.inl rfl
    · exact Or.inl rfl
  · rw [FontencCharsetReverse_T94 env i self fc rev hr (Or.inr h)]
    split_ifs with h1 h2
    · have := (IS_GL_iff _).mp h2
      exact Or.inr ⟨h1.1, h1.2, by omega, by rw [toInt_small _ (by omega)]⟩
    · exact Or.inl rfl
    · exact Or.inl rfl
  · rw [FontencCharsetReverse_T128 env i self fc rev hr h]
    split_ifs with h1 h2
    · exact Or.inr ⟨h1.1, h1.2, by omega, by rw [toInt_small _ (by omega)]⟩
    · exact Or.inl rfl
    · exact Or.inl rfl
  · rw [FontencCharsetReverse_T9494 env i self fc rev hr (Or.inl h)]
    split_ifs with h1 h2
    · have h8 := (IS_GL_iff _).mp (Bool.and_eq_true_iff.mp h2).1
      rw [shr_8] at h8
      exact Or.inr ⟨h1.1, h1.2, by omega, by rw [toInt_small _ (by omega)]⟩
    · exact Or.inl rfl
    · exact Or.inl rfl
  · rw [FontencCharsetReverse_T9494 env i self fc rev hr (Or.inr h)]
    split_ifs with h1 h2
    · have h8 := (IS_GL_iff _).mp (Bool.and_eq_true_iff.mp h2).1
      rw [shr_8] at h8
      exact Or.inr ⟨h1.1, h1.2, by omega, by rw [toInt_small _ (by omega)]⟩
    · exact Or.inl rfl
    · exact Or.inl rfl
  · rw [FontencCharsetReverse_T94192 env i self fc rev hr h]
    split_ifs with h1 h2
    · have h8 := (IS_GL_iff _).mp (Bool.and_eq_true_iff.mp h2).1
      rw [shr_8] at h8
      exact Or.inr ⟨h1.1, h1.2, by omega, by rw [toInt_small _ (by omega)]⟩
    · exact Or.inl rfl
    · exact Or.inl rfl

theorem FontencCharsetReverse_reverse_some (env : Env) (i : Nat) (self : CharsetRec)
    (fc : FontencCharsetRec) (r : Int) (h : FontencCharsetReverse env i self fc = some r) :
    ∃ rev, fc.reverse = some rev := by
  cases hr : fc.reverse with
  | none => simp [FontencCharsetReverse, hr] at h
  | some rev => exact ⟨rev, rfl⟩

/-- C2: for a charset of one of the six types of the fontenc table whose row
    carries both maps, and every code `c` (an `unsigned`, so in particular
    every code of the valid range of the type): if the reverse map inverts
    the forward map at `c + shift`, then `FontencCharsetReverse` applied to
    `FontencCharsetRecode(c)` returns -1 or exactly `c`. -/
theorem FontencCharsetReverse_Recode (env : Env) (self : CharsetRec) (fc : FontencCharsetRec)
    (mapping : FontMapPtr) (rev : FontMapReversePtr) (c : Nat)
    (hm : fc.mapping = some mapping) (hr : fc.reverse = some rev)
    (ht : self.type = T_94 ∨ self.type = T_96 ∨ self.type = T_128 ∨ self.type = T_9494 ∨
      self.type = T_9696 ∨ self.type = T_94192)
    (hc : c < 2 ^ 32)
    (hinv : env.reverse rev (env.MapCodeValue ((c + fc.shift) % 2 ^ 32) mapping % 2 ^ 32) % 2 ^ 32
      = (c + fc.shift) % 2 ^ 32) :
    (FontencCharsetRecode env c fc).bind (fun u => FontencCharsetReverse env u self fc)
        = some (-1) ∨
    (FontencCharsetRecode env c fc).bind (fun u => FontencCharsetReverse env u self fc)
        = some (c : Int) := by
  unfold FontencCharsetRecode
  rw [hm]
  simp only [Option.bind]
  rcases FontencCharsetReverse_result env
      (env.MapCodeValue ((c + fc.shift) % 2 ^ 32) mapping % 2 ^ 32) self fc rev hr ht with
    h | ⟨_, h2, _, h4⟩
  · exact Or.inl h
  · right
    rw [h4, hinv]
    rw [hinv] at h2
    have : (c + fc.shift) % 2 ^ 32 - fc.shift = c := by omega
    rw [this]

theorem FontencCharsetReverse_Recode_witness :
    latin1Row.mapping = some 1 ∧ latin1Row.reverse = some 1 ∧ latin1Charset.type = T_96 ∧
    (0x41 : Nat) < 2 ^ 32 ∧
    ((FontencCharsetRecode Env.identity 0x41 latin1Row).bind
        (fun u => FontencCharsetReverse Env.identity u latin1Charset latin1Row) = some (-1) ∨
      (FontencCharsetRecode Env.identity 0x41 latin1Row).bind
        (fun u => FontencCharsetReverse Env.identity u latin1Charset latin1Row)
        = some ((0x41 : Nat) : Int)) :=
  ⟨rfl, rfl, rfl, by decide,
    FontencCharsetReverse_Recode Env.identity latin1Charset latin1Row 1 1 0x41 rfl rfl
      (Or.inr (Or.inl rfl)) (by decide) (by decide)⟩

/-- C3: for a charset of one of the six fontenc types with shift `sh` and
    every Unicode value `u`, with `n` the value of the reverse map at `u`:
    `FontencCharsetReverse(u)` returns -1 whenever `n = 0` or `n < sh`, and
    in every other case returns -1 or exactly `n - sh`. -/
theorem FontencCharsetReverse_minus_one_or_unshifted (env : Env) (self : CharsetRec)
    (fc : FontencCharsetRec) (rev : FontMapReversePtr) (u : Nat)
    (hr : fc.reverse = some rev)
    (ht : self.type = T_94 ∨ self.type = T_96 ∨ self.type = T_128 ∨ self.type = T_9494 ∨
      self.type = T_9696 ∨ self.type = T_94192) :
    ((env.reverse rev u % 2 ^ 32 = 0 ∨ env.reverse rev u % 2 ^ 32 < fc.shift) →
      FontencCharsetReverse env u self fc = some (-1)) ∧
    (¬(env.reverse rev u % 2 ^ 32 = 0 ∨ env.reverse rev u % 2 ^ 32 < fc.shift) →
      (FontencCharsetReverse env u self fc = some (-1) ∨
       FontencCharsetReverse env u self fc
         = some (((env.reverse rev u % 2 ^ 32 : Nat) : Int) - (fc.shift : Int)))) := by
  rcases FontencCharsetReverse_result env u self fc rev hr ht with h | ⟨h1, h2, _, h4⟩
  · exact ⟨fun _ => h, fun _ => Or.inl h⟩
  · constructor
    · intro h
      rcases h with h | h
      · exact absurd h h1
      · omega
    · intro _
      right
      rw [h4, Int.ofNat_sub h2]

theorem FontencCharsetReverse_minus_one_or_unshifted_witness :
    latin1Row.reverse = some 1 ∧ latin1Charset.type = T_96 ∧
    ¬(Env.identity.reverse 1 0xC1 % 2 ^ 32 = 0 ∨
        Env.identity.reverse 1 0xC1 % 2 ^ 32 < latin1Row.shift) ∧
    (FontencCharsetReverse Env.identity 0xC1 latin1Charset latin1Row = some (-1) ∨
     FontencCharsetReverse Env.identity 0xC1 latin1Charset latin1Row
       = some (((Env.identity.reverse 1 0xC1 % 2 ^ 32 : Nat) : Int) - (latin1Row.shift : Int))) :=
  ⟨rfl, rfl, by decide,
    (FontencCharsetReverse_minus_one_or_unshifted Env.identity latin1Charset latin1Row 1 0xC1 rfl
      (Or.inr (Or.inl rfl))).2 (by decide)⟩

/-- C4: when `FontencCharsetReverse(u)` returns `r` different from -1 then
    `r` is not negative and: for a T_128 charset `r < 0x80`; for a T_94 or
    T_96 charset `0x20 ≤ r ≤ 0x7F`; for a T_9494 or T_9696 charset the high
    byte `r >> 8` and the low byte `r & 0xFF` both lie in `0x20..0x7F`. -/
theorem FontencCharsetReverse_range (env : Env) (self : CharsetRec) (fc : FontencCharsetRec)
    (u : Nat) (r : Int) (hres : FontencCharsetReverse env u self fc = some r) (hne : r ≠ -1) :
    (self.type = T_128 → 0 ≤ r ∧ r < 0x80) ∧
    ((self.type = T_94 ∨ self.type = T_96) → 0x20 ≤ r ∧ r ≤ 0x7F) ∧
    ((self.type = T_9494 ∨ self.type = T_9696) →
      0 ≤ r ∧ (0x20 ≤ r.toNat >>> 8 ∧ r.toNat >>> 8 ≤ 0x7F) ∧
      (0x20 ≤ r.toNat &&& 0xFF ∧ r.toNat &&& 0xFF ≤ 0x7F)) := by
  obtain ⟨rev, hr⟩ := FontencCharsetReverse_reverse_some env u self fc r hres
  refine ⟨fun ht => ?_, fun ht => ?_, fun ht => ?_⟩
  · rw [FontencCharsetReverse_T128 env u self fc rev hr ht] at hres
    obtain ⟨_, h2, h3⟩ := some_ite_cases hres hne
    rw [toInt_small _ (by omega)] at h3
    omega
  · rw [FontencCharsetReverse_T94 env u self fc rev hr ht] at hres
    obtain ⟨_, h2, h3⟩ := some_ite_cases hres hne
    have := (IS_GL_iff _).mp h2
    rw [toInt_small _ (by omega)] at h3
    omega
  · rw [FontencCharsetReverse_T9494 env u self fc rev hr ht] at hres
    obtain ⟨_, h2, h3⟩ := some_ite_cases hres hne
    have hb := Bool.and_eq_true_iff.mp h2
    have h8 := (IS_GL_iff _).mp hb.1
    have hl := (IS_GL_iff _).mp hb.2
    have h8a := h8
    rw [shr_8] at h8a
    rw [toInt_small _ (by omega)] at h3
    subst h3
    rw [Int.toNat_ofNat]
    exact ⟨Int.ofNat_nonneg _, ⟨h8.1, by omega⟩, ⟨hl.1, by omega⟩⟩

theorem FontencCharsetReverse_range_witness :
    FontencCharsetReverse Env.identity 0xC1 latin1Charset latin1Row = some 0x41 ∧
    (0x41 : Int) ≠ -1 ∧ latin1Charset.type = T_96 ∧
    ((0x20 : Int) ≤ 0x41 ∧ (0x41 : Int) ≤ 0x7F) :=
  ⟨by decide, by decide, rfl,
    (FontencCharsetReverse_range Env.identity latin1Charset latin1Row 0xC1 0x41 (by decide)
      (by decide)).2.1 (Or.inr rfl)⟩

/-- C5, as the code has it: when `FontencCharsetReverse(u)` of a T_94192
    charset (Big 5) returns `r` different from -1, the first byte `r >> 8` is
    a GL value and the second byte with its high bit cleared, `r & 0x7F`, is
    a GL value: the second byte `r & 0xFF` lies in `0x20..0x7F` or in
    `0xA0..0xFF`. -/
theorem FontencCharsetReverse_big5_range (env : Env) (self : CharsetRec)
    (fc : FontencCharsetRec) (u : Nat) (r : Int) (ht : self.type = T_94192)
    (hres : FontencCharsetReverse env u self fc = some r) (hne : r ≠ -1) :
    0 ≤ r ∧ (0x20 ≤ r.toNat >>> 8 ∧ r.toNat >>> 8 ≤ 0x7F) ∧
    (0x20 ≤ r.toNat &&& 0x7F ∧ r.toNat &&& 0x7F ≤ 0x7F) ∧
    ((0x20 ≤ r.toNat &&& 0xFF ∧ r.toNat &&& 0xFF ≤ 0x7F) ∨
     (0xA0 ≤ r.toNat &&& 0xFF ∧ r.toNat &&& 0xFF ≤ 0xFF)) := by
  obtain ⟨rev, hr⟩ := FontencCharsetReverse_reverse_some env u self fc r hres
  rw [FontencCharsetReverse_T94192 env u self fc rev hr ht] at hres
  obtain ⟨_, h2, h3⟩ := some_ite_cases hres hne
  have hb := Bool.and_eq_true_iff.mp h2
  have h8 := (IS_GL_iff _).mp hb.1
  have hl := (IS_GL_iff _).mp hb.2
  have h8a := h8
  rw [shr_8] at h8a
  rw [toInt_small _ (by omega)] at h3
  subst h3
  rw [Int.toNat_ofNat]
  refine ⟨Int.ofNat_nonneg _, ⟨h8.1, by omega⟩, ⟨hl.1, by omega⟩, ?_⟩
  rw [and_0x7F] at hl
  rw [and_0xFF]
  omega

theorem FontencCharsetReverse_big5_range_witness :
    big5Charset.type = T_94192 ∧
    FontencCharsetReverse Env.identity 0xA120 big5Charset big5Row = some 0x2120 ∧
    (0x2120 : Int) ≠ -1 ∧
    ((0 : Int) ≤ 0x2120 ∧
      (0x20 ≤ (0x2120 : Int).toNat >>> 8 ∧ (0x2120 : Int).toNat >>> 8 ≤ 0x7F) ∧
      (0x20 ≤ (0x2120 : Int).toNat &&& 0x7F ∧ (0x2120 : Int).toNat &&& 0x7F ≤ 0x7F) ∧
      ((0x20 ≤ (0x2120 : Int).toNat &&& 0xFF ∧ (0x2120 : Int).toNat &&& 0xFF ≤ 0x7F) ∨
       (0xA0 ≤ (0x2120 : Int).toNat &&& 0xFF ∧ (0x2120 : Int).toNat &&& 0xFF ≤ 0xFF))) :=
  ⟨rfl, by decide, by decide,
    FontencCharsetReverse_big5_range Env.identity big5Charset big5Row 0xA120 0x2120 rfl
      (by decide) (by decide)⟩

/-- C5 fails as stated: with a reverse map that gives `0xA120` the Big 5
    charset returns `0x2120`, whose second byte `0x20` is outside
    `0x21..0xFE`. -/
theorem FontencCharsetReverse_big5_second_byte_0x20 :
    big5Charset.type = T_94192 ∧
    FontencCharsetReverse Env.identity 0xA120 big5Charset big5Row = some 0x2120 ∧
    (0x2120 : Int) ≠ -1 ∧
    ¬(0x21 ≤ (0x2120 : Int).toNat &&& 0xFF ∧ (0x2120 : Int).toNat &&& 0xFF ≤ 0xFE) := by
  decide


/-! ### The table scan and the match conditions -/

theorem findRow_eq_none {α : Type} (p : α → Bool) (l : List α) :
    findRow p l = none ↔ ∀ x ∈ l, p x = false := by
  induction l with
  | nil => simp [findRow]
  | cons x xs ih =>
    unfold findRow
    by_cases hp : p x = true
    · simp [hp]
    · have hp2 : p x = false := by simpa using hp
      rw [if_neg hp]
      cases hf : findRow p xs with
      | none => simpa [hp2] using ih.mp hf
      | some q =>
        simp only [List.mem_cons, forall_eq_or_imp, hp2, true_and]
        constructor
        · intro h; cases h
        · intro h
          rw [ih.mpr h] at hf
          cases hf

theorem findRow_some {α : Type} (p : α → Bool) (l : List α) (i : Nat) (x : α)
    (h : findRow p l = some (i, x)) :
    l[i]? = some x ∧ p x = true ∧ ∀ k y, k < i → l[k]? = some y → p y = false := by
  induction l generalizing i with
  | nil => simp [findRow] at h
  | cons z zs ih =>
    unfold findRow at h
    by_cases hp : p z = true
    · rw [if_pos hp] at h
      cases h
      exact ⟨by simp, hp, fun k y hk _ => absurd hk (Nat.not_lt_zero k)⟩
    · rw [if_neg hp] at h
      cases hf : findRow p zs with
      | none => rw [hf] at h; cases h
      | some q =>
        obtain ⟨j, w⟩ := q
        rw [hf] at h
        cases h
        obtain ⟨h1, h2, h3⟩ := ih j hf
        refine ⟨by simpa using h1, h2, ?_⟩
        intro k y hk hy
        cases k with
        | zero =>
          simp at hy
          subst hy
          simpa using hp
        | succ k =>
          simp at hy
          exact h3 k y (by omega) hy

theorem findRow_mem {α : Type} (p : α → Bool) (l : List α) (i : Nat) (x : α)
    (h : findRow p l = some (i, x)) : x ∈ l :=
  List.getElem?_mem (findRow_some p l i x h).1

theorem findRow_isSome_of_mem {α : Type} (p : α → Bool) (l : List α) (x : α)
    (hx : x ∈ l) (hp : p x = true) : ∃ i y, findRow p l = some (i, y) := by
  cases hf : findRow p l with
  | none =>
    have := (findRow_eq_none p l).mp hf x hx
    rw [hp] at this
    cases this
  | some q => exact ⟨q.1, q.2, rfl⟩

theorem compare_eq_zero_iff (s t : String) : compare s t = 0 ↔ normalize s = normalize t :=
  compareLoop_eq_zero_iff _ s.toList t.toList (Nat.le_refl _)

theorem nameMatches_some (cname n : String) :
    nameMatches cname (some n) = true ↔ normalize cname = normalize n := by
  simp [nameMatches, compare_eq_zero_iff]

theorem cachedMatch_byType (f : Nat) (t : Int) (c : CharsetRec) :
    cachedMatch f t none c = true ↔ c.type = t ∧ c.final = f ∧ c.type ≠ T_FAILED := by
  simp [cachedMatch, nameMatches, and_assoc]

theorem cachedMatch_byName (n : String) (c : CharsetRec) :
    cachedMatch 0 0 (some n) c = true ↔ normalize c.name = normalize n ∧ c.type ≠ T_FAILED := by
  unfold cachedMatch
  rw [Bool.and_eq_true, Bool.or_eq_true, nameMatches_some]
  simp only [Bool.and_eq_true, beq_iff_eq, bne_iff_ne, ne_eq]
  constructor
  · rintro ⟨h | h, h2⟩
    · exact absurd h.1 h2
    · exact ⟨h, h2⟩
  · rintro ⟨h, h2⟩
    exact ⟨Or.inr h, h2⟩

theorem fontencMatch_byName (n : String) (fc : FontencCharsetRec) :
    fontencMatch 0 0 (some n) fc = true ↔
      normalize fc.name = normalize n ∧ fc.type ≠ T_FAILED := by
  unfold fontencMatch
  rw [Bool.and_eq_true, Bool.or_eq_true, nameMatches_some]
  simp only [Bool.and_eq_true, beq_iff_eq, bne_iff_ne, ne_eq]
  constructor
  · rintro ⟨h | h, h2⟩
    · exact absurd h.1 h2
    · exact ⟨h, h2⟩
  · rintro ⟨h, h2⟩
    exact ⟨Or.inr h, h2⟩

theorem fontencMatch_not_failed (f : Nat) (t : Int) (name : Option String)
    (fc : FontencCharsetRec) (h : fontencMatch f t name fc = true) : fc.type ≠ T_FAILED := by
  unfold fontencMatch at h
  rw [Bool.and_eq_true] at h
  simpa using h.2

/-! ### The outcomes of `getFontencCharset` and `getOtherCharset` -/

theorem getFontencCharset_no_row (env : Env) (st : Registry) (f : Nat) (t : Int)
    (name : Option String)
    (h : findRow (fontencMatch f t name) st.fontencCharsets = none) :
    getFontencCharset env st f t name = (none, st) := by
  unfold getFontencCharset
  rw [h]

theorem getFontencCharset_calloc_fails (env : Env) (st : Registry) (f : Nat) (t : Int)
    (name : Option String) (row : Nat) (fc : FontencCharsetRec)
    (h : findRow (fontencMatch f t name) st.fontencCharsets = some (row, fc))
    (hc : env.calloc st.brk = false) :
    getFontencCharset env st f t name = (none, { st with brk := st.brk + 1 }) := by
  unfold getFontencCharset
  rw [h]
  simp only [hc, if_true]

theorem getFontencCharset_mapping_fails (env : Env) (st : Registry) (f : Nat) (t : Int)
    (name : Option String) (row : Nat) (fc : FontencCharsetRec)
    (h : findRow (fontencMatch f t name) st.fontencCharsets = some (row, fc))
    (hc : env.calloc st.brk = true) (hm : env.LookupMapping fc.xlfd = none) :
    getFontencCharset env st f t name = (none, markFailed st row fc) := by
  unfold getFontencCharset
  rw [h]
  simp [hc, hm]

theorem getFontencCharset_reverse_fails (env : Env) (st : Registry) (f : Nat) (t : Int)
    (name : Option String) (row : Nat) (fc : FontencCharsetRec) (m : FontMapPtr)
    (h : findRow (fontencMatch f t name) st.fontencCharsets = some (row, fc))
    (hc : env.calloc st.brk = true) (hm : env.LookupMapping fc.xlfd = some m)
    (hr : env.LookupReverse m = none) :
    getFontencCharset env st f t name = (none, markFailed st row fc) := by
  unfold getFontencCharset
  rw [h]
  simp [hc, hm, hr]

theorem getFontencCharset_ok (env : Env) (st : Registry) (f : Nat) (t : Int)
    (name : Option String) (row : Nat) (fc : FontencCharsetRec) (m : FontMapPtr)
    (r : FontMapReversePtr)
    (h : findRow (fontencMatch f t name) st.fontencCharsets = some (row, fc))
    (hc : env.calloc st.brk = true) (hm : env.LookupMapping fc.xlfd = some m)
    (hr : env.LookupReverse m = some r) :
    getFontencCharset env st f t name =
      (some (st.brk, fontencCharsetOf fc row),
        cacheCharset { st with brk := st.brk + 1,
                               fontencCharsets := st.fontencCharsets.set row
                                 { fc with mapping := some m, reverse := some r } }
          st.brk (fontencCharsetOf fc row)) := by
  unfold getFontencCharset
  rw [h]
  simp [hc, hm, hr]

/-- Inversion: when `getFontencCharset` returns a charset, it was built from
    the first matching row and put at the head of the cache. -/
theorem getFontencCharset_some (env : Env) (st : Registry) (f : Nat) (t : Int)
    (name : Option String) (a : Nat) (c : CharsetRec) (st1 : Registry)
    (h : getFontencCharset env st f t name = (some (a, c), st1)) :
    ∃ row fc m r, findRow (fontencMatch f t name) st.fontencCharsets = some (row, fc) ∧
      env.calloc st.brk = true ∧ env.LookupMapping fc.xlfd = some m ∧
      env.LookupReverse m = some r ∧
      a = st.brk ∧ c = fontencCharsetOf fc row ∧
      st1.cachedCharsets = (a, c) :: st.cachedCharsets ∧
      st1.fontencCharsets = st.fontencCharsets.set row
        { fc with mapping := some m, reverse := some r } ∧
      st1.brk = st.brk + 1 := by
  cases hf : findRow (fontencMatch f t name) st.fontencCharsets with
  | none =>
    rw [getFontencCharset_no_row env st f t name hf] at h
    cases h
  | some q =>
    obtain ⟨row, fc⟩ := q
    cases hc : env.calloc st.brk with
    | false =>
      rw [getFontencCharset_calloc_fails env st f t name row fc hf hc] at h
      cases h
    | true =>
      cases hm : env.LookupMapping fc.xlfd with
      | none =>
        rw [getFontencCharset_mapping_fails env st f t name row fc hf hc hm] at h
        cases h
      | some m =>
        cases hr : env.LookupReverse m with
        | none =>
          rw [getFontencCharset_reverse_fails env st f t name row fc m hf hc hm hr] at h
          cases h
        | some r =>
          rw [getFontencCharset_ok env st f t name row fc m r hf hc hm hr] at h
          cases h
          exact ⟨row, fc, m, r, rfl, rfl, hm, hr, rfl, rfl, rfl, rfl, rfl⟩

theorem getOtherCharset_no_row (env : Env) (st : Registry) (name : Option String)
    (h : findRow (fun fc => nameMatches fc.name name) otherCharsets = none) :
    getOtherCharset env st name = (none, st) := by
  unfold getOtherCharset
  rw [h]

theorem getOtherCharset_ok (env : Env) (st : Registry) (name : Option String) (row : Nat)
    (oc : OtherCharsetRec)
    (h : findRow (fun fc => nameMatches fc.name name) otherCharsets = some (row, oc))
    (hc : env.calloc st.brk = true) (hs : env.calloc (st.brk + 1) = true)
    (hi : env.init oc.init = true) :
    getOtherCharset env st name =
      (some (st.brk, otherCharsetOf oc row (st.brk + 1)),
        cacheCharset { st with brk := st.brk + 2 } st.brk
          (otherCharsetOf oc row (st.brk + 1))) := by
  unfold getOtherCharset
  rw [h]
  simp [hc, hs, hi]

/-- Inversion: when `getOtherCharset` returns a charset, it is a T_OTHER
    charset built from the first row of that name, at the head of the
    cache; the fontenc table is not touched. -/
theorem getOtherCharset_some (env : Env) (st : Registry) (name : Option String) (a : Nat)
    (c : CharsetRec) (st1 : Registry) (h : getOtherCharset env st name = (some (a, c), st1)) :
    ∃ row oc, findRow (fun fc => nameMatches fc.name name) otherCharsets = some (row, oc) ∧
      a = st.brk ∧ c = otherCharsetOf oc row (st.brk + 1) ∧
      st1.cachedCharsets = (a, c) :: st.cachedCharsets ∧
      st1.fontencCharsets = st.fontencCharsets ∧ st1.brk = st.brk + 2 := by
  unfold getOtherCharset at h
  cases hf : findRow (fun fc => nameMatches fc.name name) otherCharsets with
  | none => rw [hf] at h; cases h
  | some q =>
    obtain ⟨row, oc⟩ := q
    rw [hf] at h
    simp only [] at h
    split_ifs at h
    all_goals cases h
    exact ⟨row, oc, rfl, rfl, rfl, rfl, rfl, rfl⟩

/-- When `getOtherCharset` returns NULL the cache and the fontenc table are
    as before. -/
theorem getOtherCharset_none (env : Env) (st : Registry) (name : Option String)
    (st1 : Registry) (h : getOtherCharset env st name = (none, st1)) :
    st1.cachedCharsets = st.cachedCharsets ∧ st1.fontencCharsets = st.fontencCharsets := by
  unfold getOtherCharset at h
  cases hf : findRow (fun fc => nameMatches fc.name name) otherCharsets with
  | none => rw [hf] at h; cases h; exact ⟨rfl, rfl⟩
  | some q =>
    obtain ⟨row, oc⟩ := q
    rw [hf] at h
    simp only [] at h
    split_ifs at h <;> cases h <;> exact ⟨rfl, rfl⟩

theorem getCachedCharset_some (st : Registry) (f : Nat) (t : Int) (name : Option String)
    (a : Nat) (c : CharsetRec) (h : getCachedCharset st f t name = some (a, c)) :
    (a, c) ∈ st.cachedCharsets ∧ cachedMatch f t name c = true := by
  unfold getCachedCharset at h
  exact ⟨List.mem_of_find?_eq_some h, by simpa using List.find?_some h⟩

theorem getCachedCharset_none (st : Registry) (f : Nat) (t : Int) (name : Option String) :
    getCachedCharset st f t name = none ↔
      ∀ e ∈ st.cachedCharsets, cachedMatch f t name e.2 = false := by
  unfold getCachedCharset
  simp [List.find?_eq_none]

theorem getUnknownCharset_isUnknown (t : Int) : (getUnknownCharset t).isUnknown = true := by
  unfold getUnknownCharset
  split_ifs <;> rfl

theorem fontencCharsetOf_matches (f : Nat) (t : Int) (name : Option String)
    (fc : FontencCharsetRec) (row : Nat) (h : fontencMatch f t name fc = true) :
    cachedMatch f t name (fontencCharsetOf fc row) = true := h

theorem getCachedCharset_byName_none (st : Registry) (n : String) :
    getCachedCharset st 0 0 (some n) = none ↔
      ∀ e ∈ st.cachedCharsets, e.2.type ≠ T_FAILED → normalize e.2.name ≠ normalize n := by
  rw [getCachedCharset_none]
  constructor
  · intro h e he hne heq
    have := h e he
    rw [(cachedMatch_byName n e.2).mpr ⟨heq, hne⟩] at this
    cases this
  · intro h e he
    cases hm : cachedMatch 0 0 (some n) e.2 with
    | false => rfl
    | true =>
      have := (cachedMatch_byName n e.2).mp hm
      exact absurd this.1 (h e he this.2)

theorem findRow_fontenc_byName_none (tbl : List FontencCharsetRec) (n : String) :
    findRow (fontencMatch 0 0 (some n)) tbl = none ↔
      ∀ fc ∈ tbl, fc.type ≠ T_FAILED → normalize fc.name ≠ normalize n := by
  rw [findRow_eq_none]
  constructor
  · intro h fc hfc hne heq
    have := h fc hfc
    rw [(fontencMatch_byName n fc).mpr ⟨heq, hne⟩] at this
    cases this
  · intro h fc hfc
    cases hm : fontencMatch 0 0 (some n) fc with
    | false => rfl
    | true =>
      have := (fontencMatch_byName n fc).mp hm
      exact absurd this.1 (h fc hfc this.2)

theorem findRow_other_none (n : String) :
    findRow (fun fc : OtherCharsetRec => nameMatches fc.name (some n)) otherCharsets = none ↔
      ∀ oc ∈ otherCharsets, normalize oc.name ≠ normalize n := by
  rw [findRow_eq_none]
  constructor
  · intro h oc hoc heq
    have := h oc hoc
    rw [(nameMatches_some oc.name n).mpr heq] at this
    cases this
  · intro h oc hoc
    cases hm : nameMatches oc.name (some n) with
    | false => rfl
    | true => exact absurd ((nameMatches_some oc.name n).mp hm) (h oc hoc)

/-- C7: `getCharsetByName` returns the Unknown (94) sentinel and leaves the
    state (so the cache) as it is when the name is NULL, and when the name
    is normalized-equal to no cached charset's name, to the name of no
    fontenc row that is not marked T_FAILED and to no "other" codec's name.
    The cache is consulted first (a cached charset of that name is returned
    and nothing else happens), then the fontenc table (with no cached
    charset of that name, a row of that name is instantiated when the
    allocation and both map lookups succeed), then the "other" table (with
    no cached charset and no fontenc row of that name). -/
theorem getCharsetByName_miss_and_order (env : Env) (st : Registry) :
    getCharsetByName env st none = (.Unknown94, st) ∧
    (∀ n : String,
      (∀ e ∈ st.cachedCharsets, normalize e.2.name ≠ normalize n) →
      (∀ fc ∈ st.fontencCharsets, fc.type ≠ T_FAILED → normalize fc.name ≠ normalize n) →
      (∀ oc ∈ otherCharsets, normalize oc.name ≠ normalize n) →
      getCharsetByName env st (some n) = (.Unknown94, st)) ∧
    (∀ (n : String) (e : Nat × CharsetRec), e ∈ st.cachedCharsets →
      normalize e.2.name = normalize n → e.2.type ≠ T_FAILED →
      ∃ a c, getCharsetByName env st (some n) = (.heap a c, st) ∧
        (a, c) ∈ st.cachedCharsets ∧ normalize c.name = normalize n) ∧
    (∀ (n : String) (fc0 : FontencCharsetRec),
      (∀ e ∈ st.cachedCharsets, e.2.type ≠ T_FAILED → normalize e.2.name ≠ normalize n) →
      fc0 ∈ st.fontencCharsets → fc0.type ≠ T_FAILED → normalize fc0.name = normalize n →
      env.calloc st.brk = true →
      (∀ x, ∃ m, env.LookupMapping x = some m ∧ ∃ r, env.LookupReverse m = some r) →
      ∃ a c row, (getCharsetByName env st (some n)).1 = .heap a c ∧
        c.data = .fontenc row ∧ normalize c.name = normalize n) ∧
    (∀ (n : String) (oc0 : OtherCharsetRec),
      (∀ e ∈ st.cachedCharsets, e.2.type ≠ T_FAILED → normalize e.2.name ≠ normalize n) →
      (∀ fc ∈ st.fontencCharsets, fc.type ≠ T_FAILED → normalize fc.name ≠ normalize n) →
      oc0 ∈ otherCharsets → normalize oc0.name = normalize n →
      env.calloc st.brk = true → env.calloc (st.brk + 1) = true →
      (∀ i, env.init i = true) →
      ∃ a c row, (getCharsetByName env st (some n)).1 = .heap a c ∧
        c.type = T_OTHER ∧ c.data = .other row ∧ normalize c.name = normalize n) := by
  refine ⟨rfl, ?_, ?_, ?_, ?_⟩
  · intro n hcache htable hother
    have h1 : getCachedCharset st 0 0 (some n) = none :=
      (getCachedCharset_byName_none st n).mpr (fun e he _ => hcache e he)
    have h2 := (findRow_fontenc_byName_none st.fontencCharsets n).mpr htable
    have h3 := (findRow_other_none n).mpr hother
    unfold getCharsetByName
    simp only [h1, getFontencCharset_no_row env st 0 0 (some n) h2,
      getOtherCharset_no_row env st (some n) h3]
    rfl
  · intro n e he heq hne
    cases hc : getCachedCharset st 0 0 (some n) with
    | none =>
      exact absurd heq ((getCachedCharset_byName_none st n).mp hc e he hne)
    | some q =>
      obtain ⟨a, c⟩ := q
      obtain ⟨hmem, hmatch⟩ := getCachedCharset_some st 0 0 (some n) a c hc
      refine ⟨a, c, ?_, hmem, ((cachedMatch_byName n c).mp hmatch).1⟩
      unfold getCharsetByName
      simp only [hc]
  · intro n fc0 hcache hfc0 hne heq hcalloc hmaps
    have h1 := (getCachedCharset_byName_none st n).mpr hcache
    obtain ⟨row, fc, hrow⟩ := findRow_isSome_of_mem (fontencMatch 0 0 (some n))
      st.fontencCharsets fc0 hfc0 ((fontencMatch_byName n fc0).mpr ⟨heq, hne⟩)
    obtain ⟨m, hm, r, hr⟩ := hmaps fc.xlfd
    have hp := (fontencMatch_byName n fc).mp (findRow_some _ _ _ _ hrow).2.1
    refine ⟨st.brk, fontencCharsetOf fc row, row, ?_, rfl, hp.1⟩
    unfold getCharsetByName
    simp only [h1, getFontencCharset_ok env st 0 0 (some n) row fc m r hrow hcalloc hm hr]
  · intro n oc0 hcache htable hoc0 heq hc1 hc2 hinit
    have h1 := (getCachedCharset_byName_none st n).mpr hcache
    have h2 := (findRow_fontenc_byName_none st.fontencCharsets n).mpr htable
    obtain ⟨row, oc, hrow⟩ := findRow_isSome_of_mem
      (fun fc : OtherCharsetRec => nameMatches fc.name (some n)) otherCharsets oc0 hoc0
      ((nameMatches_some oc0.name n).mpr heq)
    have hp := (nameMatches_some oc.name n).mp (findRow_some _ _ _ _ hrow).2.1
    refine ⟨st.brk, otherCharsetOf oc row (st.brk + 1), row, ?_, rfl, rfl, hp⟩
    unfold getCharsetByName
    simp only [h1, getFontencCharset_no_row env st 0 0 (some n) h2,
      getOtherCharset_ok env st (some n) row oc hrow hc1 hc2 (hinit oc.init)]

/-! ### One lookup, seen from the cache -/

theorem cachedMatch_null_name (c : CharsetRec) : cachedMatch 0 0 none c = false := by
  by_cases h : c.type = 0 <;> simp [cachedMatch, nameMatches, T_FAILED, h]

theorem otherCharsetOf_matches (n : String) (oc : OtherCharsetRec) (row aux : Nat)
    (h : nameMatches oc.name (some n) = true) :
    cachedMatch 0 0 (some n) (otherCharsetOf oc row aux) = true := by
  rw [cachedMatch_byName]
  exact ⟨(nameMatches_some oc.name n).mp h, (by decide : T_OTHER ≠ T_FAILED)⟩

theorem getCharsetByName_some (env : Env) (st : Registry) (n : String) :
    getCharsetByName env st (some n) =
      match getCachedCharset st 0 0 (some n) with
      | some (addr, c) => (.heap addr c, st)
      | none =>
        match getFontencCharset env st 0 0 (some n) with
        | (some (addr, c), st1) => (.heap addr c, st1)
        | (none, st1) =>
          match getOtherCharset env st1 (some n) with
          | (some (addr, c), st2) => (.heap addr c, st2)
          | (none, st2) => (getUnknownCharset T_94, st2) := rfl

/-- The three outcomes of a lookup: a cache hit (the first matching entry is
    returned, nothing changes); a miss that ends with a sentinel (the cache
    is as before); a miss that instantiates a charset, which matches the
    lookup and becomes the head of the cache. -/
theorem Lookup.run_cases (env : Env) (st : Registry) (op : Lookup) :
    (∃ a c, st.cachedCharsets.find? (fun e => op.matches e.2) = some (a, c) ∧
      op.run env st = (.heap a c, st)) ∨
    (st.cachedCharsets.find? (fun e => op.matches e.2) = none ∧
      (op.run env st).1.isUnknown = true ∧
      (op.run env st).2.cachedCharsets = st.cachedCharsets) ∨
    (st.cachedCharsets.find? (fun e => op.matches e.2) = none ∧
      ∃ a c, (op.run env st).1 = .heap a c ∧
        (op.run env st).2.cachedCharsets = (a, c) :: st.cachedCharsets ∧
        op.matches c = true) := by
  cases op with
  | getCharset f t =>
    show (∃ a c, getCachedCharset st f t none = some (a, c) ∧ _) ∨
      (getCachedCharset st f t none = none ∧ _) ∨ (getCachedCharset st f t none = none ∧ _)
    simp only [Lookup.run, Lookup.matches]
    unfold Luit.getCharset
    cases hc : getCachedCharset st f t none with
    | some e => exact Or.inl ⟨e.1, e.2, rfl, rfl⟩
    | none =>
      right
      cases hf : getFontencCharset env st f t none with
      | mk res st1 =>
        cases res with
        | some e =>
          obtain ⟨a, c⟩ := e
          obtain ⟨row, fc, m, r, hrow, _, _, _, _, hceq, hcache, _, _⟩ :=
            getFontencCharset_some env st f t none a c st1 hf
          right
          refine ⟨rfl, a, c, rfl, hcache, ?_⟩
          rw [hceq]
          exact (findRow_some _ _ _ _ hrow).2.1
        | none =>
          left
          refine ⟨rfl, getUnknownCharset_isUnknown t, ?_⟩
          show st1.cachedCharsets = st.cachedCharsets
          unfold getFontencCharset at hf
          split at hf
          · cases hf; rfl
          · split_ifs at hf
            · cases hf; rfl
            · split at hf
              · cases hf; rfl
              · split at hf
                · cases hf; rfl
                · cases hf
  | getCharsetByName name =>
    cases name with
    | none =>
      right; left
      refine ⟨?_, rfl, rfl⟩
      rw [List.find?_eq_none]
      intro e _
      simp [Lookup.matches, cachedMatch_null_name]
    | some n =>
      show (∃ a c, getCachedCharset st 0 0 (some n) = some (a, c) ∧ _) ∨
        (getCachedCharset st 0 0 (some n) = none ∧ _) ∨
        (getCachedCharset st 0 0 (some n) = none ∧ _)
      simp only [Lookup.run, Lookup.matches]
      rw [getCharsetByName_some]
      cases hc : getCachedCharset st 0 0 (some n) with
      | some e => exact Or.inl ⟨e.1, e.2, rfl, rfl⟩
      | none =>
        right
        cases hf : getFontencCharset env st 0 0 (some n) with
        | mk res st1 =>
          cases res with
          | some e =>
            obtain ⟨a, c⟩ := e
            obtain ⟨row, fc, m, r, hrow, _, _, _, _, hceq, hcache, _, _⟩ :=
              getFontencCharset_some env st 0 0 (some n) a c st1 hf
            right
            refine ⟨rfl, a, c, rfl, hcache, ?_⟩
            rw [hceq]
            exact (findRow_some _ _ _ _ hrow).2.1
          | none =>
            have hst1 : st1.cachedCharsets = st.cachedCharsets := by
              unfold getFontencCharset at hf
              split at hf
              · cases hf; rfl
              · split_ifs at hf
                · cases hf; rfl
                · split at hf
                  · cases hf; rfl
                  · split at hf
                    · cases hf; rfl
                    · cases hf
            simp only []
            cases ho : getOtherCharset env st1 (some n) with
            | mk res2 st2 =>
              cases res2 with
              | some e =>
                obtain ⟨a, c⟩ := e
                obtain ⟨row, oc, hrow, _, hceq, hcache, _, _⟩ :=
                  getOtherCharset_some env st1 (some n) a c st2 ho
                right
                refine ⟨trivial, a, c, rfl, ?_, ?_⟩
                · show st2.cachedCharsets = (a, c) :: st.cachedCharsets
                  rw [hcache, hst1]
                · rw [hceq]
                  exact otherCharsetOf_matches n oc row _ (findRow_some _ _ _ _ hrow).2.1
              | none =>
                left
                refine ⟨trivial, rfl, ?_⟩
                show st2.cachedCharsets = st.cachedCharsets
                rw [(getOtherCharset_none env st1 (some n) st2 ho).1, hst1]

/-! ### Repeated lookups -/

theorem Lookup.matches_transfer (m op : Lookup) (c1 c : CharsetRec)
    (hk : m.sameKind op = true) (hm : m.matches c1 = true) (ho1 : op.matches c1 = true)
    (ho : op.matches c = true) : m.matches c = true := by
  cases m with
  | getCharset f1 t1 =>
    cases op with
    | getCharset f t =>
      have a := (cachedMatch_byType f1 t1 c1).mp hm
      have b := (cachedMatch_byType f t c1).mp ho1
      have d := (cachedMatch_byType f t c).mp ho
      apply (cachedMatch_byType f1 t1 c).mpr
      exact ⟨by rw [d.1, ← b.1, a.1], by rw [d.2.1, ← b.2.1, a.2.1], d.2.2⟩
    | getCharsetByName name => cases hk
  | getCharsetByName name1 =>
    cases op with
    | getCharset f t => cases hk
    | getCharsetByName name =>
      cases name1 with
      | none =>
        rw [show Lookup.matches (.getCharsetByName none) c1 = cachedMatch 0 0 none c1 from rfl,
          cachedMatch_null_name] at hm
        cases hm
      | some n1 =>
        cases name with
        | none =>
          rw [show Lookup.matches (.getCharsetByName none) c = cachedMatch 0 0 none c from rfl,
            cachedMatch_null_name] at ho
          cases ho
        | some n =>
          have a := (cachedMatch_byName n1 c1).mp hm
          have b := (cachedMatch_byName n c1).mp ho1
          have d := (cachedMatch_byName n c).mp ho
          apply (cachedMatch_byName n1 c).mpr
          exact ⟨by rw [d.1, ← b.1, a.1], d.2⟩

theorem Lookup.hit_stable (env : Env) (st : Registry) (m op : Lookup) (a : Nat)
    (c : CharsetRec) (hk : m.sameKind op = true)
    (hit : st.cachedCharsets.find? (fun e => op.matches e.2) = some (a, c)) :
    (m.run env st).2.cachedCharsets.find? (fun e => op.matches e.2) = some (a, c) := by
  rcases Lookup.run_cases env st m with ⟨a1, c1, _, hrun⟩ | ⟨_, _, hcache⟩ |
    ⟨hmiss, a1, c1, _, hcache, hmatch⟩
  · rw [hrun]; exact hit
  · rw [hcache]; exact hit
  · rw [hcache]
    have hc : op.matches c = true := by simpa using List.find?_some hit
    have hmem : (a, c) ∈ st.cachedCharsets := List.mem_of_find?_eq_some hit
    have hnot : op.matches c1 = false := by
      cases h : op.matches c1 with
      | false => rfl
      | true =>
        have h2 := Lookup.matches_transfer m op c1 c hk hmatch h hc
        have h3 := List.find?_eq_none.mp hmiss (a, c) hmem
        simp [h2] at h3
    simp [List.find?_cons, hnot, hit]

theorem Lookup.hit_after_run (env : Env) (st : Registry) (op : Lookup)
    (hp : (op.run env st).1.isUnknown = false) :
    ∃ a c, (op.run env st).1 = .heap a c ∧
      (op.run env st).2.cachedCharsets.find? (fun e => op.matches e.2) = some (a, c) := by
  rcases Lookup.run_cases env st op with ⟨a, c, hit, hrun⟩ | ⟨_, hunk, _⟩ |
    ⟨_, a, c, hres, hcache, hmatch⟩
  · exact ⟨a, c, by rw [hrun], by rw [hrun]; exact hit⟩
  · rw [hunk] at hp; cases hp
  · refine ⟨a, c, hres, ?_⟩
    rw [hcache]
    simp [List.find?_cons, hmatch]

theorem Lookup.run_of_hit (env : Env) (st : Registry) (op : Lookup) (a : Nat) (c : CharsetRec)
    (hit : st.cachedCharsets.find? (fun e => op.matches e.2) = some (a, c)) :
    (op.run env st).1 = .heap a c := by
  rcases Lookup.run_cases env st op with ⟨a1, c1, hit1, hrun⟩ | ⟨hmiss, _, _⟩ | ⟨hmiss, _⟩
  · rw [hit] at hit1
    cases hit1
    rw [hrun]
  · rw [hit] at hmiss; cases hmiss
  · rw [hit] at hmiss; cases hmiss

theorem runLookups_cons (env : Env) (st : Registry) (op : Lookup) (ops : List Lookup) :
    runLookups env st (op :: ops) =
      ((op.run env st).1 :: (runLookups env (op.run env st).2 ops).1,
        (runLookups env (op.run env st).2 ops).2) := rfl

theorem runLookups_later_hit (env : Env) (op : Lookup) (a : Nat) (c : CharsetRec) :
    ∀ (rest : List Lookup) (st : Registry) (j : Nat) (q : CharsetPtr),
      st.cachedCharsets.find? (fun e => op.matches e.2) = some (a, c) →
      (∀ k m, k < j → rest[k]? = some m → m.sameKind op = true) →
      rest[j]? = some op →
      (runLookups env st rest).1[j]? = some q → q = .heap a c := by
  intro rest
  induction rest with
  | nil => intro st j q _ _ hj; simp at hj
  | cons x xs ih =>
    intro st j q hit hmid hj hq
    rw [runLookups_cons] at hq
    cases j with
    | zero =>
      simp at hj hq
      subst hj
      rw [← hq]
      exact Lookup.run_of_hit env st x a c hit
    | succ j =>
      simp at hj hq
      have hx : x.sameKind op = true := hmid 0 x (Nat.succ_pos j) (by simp)
      exact ih (x.run env st).2 j q (Lookup.hit_stable env st x op a c hx hit)
        (fun k m hk hm => hmid (k + 1) m (by omega) (by simpa using hm)) hj hq

theorem runLookups_later_same_from (env : Env) (op : Lookup) :
    ∀ (ops : List Lookup) (st : Registry) (i j : Nat) (p q : CharsetPtr),
      i < j → ops[i]? = some op → ops[j]? = some op →
      (∀ k m, i < k → k < j → ops[k]? = some m → m.sameKind op = true) →
      (runLookups env st ops).1[i]? = some p →
      (runLookups env st ops).1[j]? = some q →
      p.isUnknown = false → q = p := by
  intro ops
  induction ops with
  | nil => intro st i j p q _ hi; simp at hi
  | cons x xs ih =>
    intro st i j p q hij hi hj hmid hp hq hpn
    rw [runLookups_cons] at hp hq
    cases j with
    | zero => omega
    | succ j =>
      simp at hj hq
      cases i with
      | zero =>
        simp at hi hp
        subst hi
        subst hp
        obtain ⟨a, c, hres, hit⟩ := Lookup.hit_after_run env st x hpn
        rw [hres]
        exact runLookups_later_hit env x a c xs (x.run env st).2 j q hit
          (fun k m hk hm => hmid (k + 1) m (by omega) (by omega) (by simpa using hm)) hj hq
      | succ i =>
        simp at hi hp
        exact ih (x.run env st).2 i j p q (by omega) hi hj
          (fun k m hk1 hk2 hm => hmid (k + 1) m (by omega) (by omega) (by simpa using hm))
          hp hq hpn

/-- C8, as the code has it: in a sequence of lookups from the empty cache,
    when a lookup returns a charset that is not a sentinel, a later lookup
    by the same function with the same (type, final), or the same name,
    returns the very same object, provided every lookup between the two is a
    call of that same function (`getCharset` for two lookups by (type,
    final), `getCharsetByName` for two lookups by name). -/
theorem runLookups_same_object (env : Env) (ops : List Lookup) (i j : Nat) (op : Lookup)
    (p q : CharsetPtr) (hij : i < j) (hi : ops[i]? = some op) (hj : ops[j]? = some op)
    (hmid : ∀ k m, i < k → k < j → ops[k]? = some m → m.sameKind op = true)
    (hp : (runLookups env Registry.initial ops).1[i]? = some p)
    (hq : (runLookups env Registry.initial ops).1[j]? = some q)
    (hpn : p.isUnknown = false) : q = p :=
  runLookups_later_same_from env op ops Registry.initial i j p q hij hi hj hmid hp hq hpn

theorem runLookups_same_object_witness :
    (runLookups Env.identity Registry.initial
        [.getCharset 'T'.toNat T_96, .getCharset 'A'.toNat T_96,
         .getCharset 'T'.toNat T_96]).1[0]? = some (.heap 0 iso885911Charset) ∧
    (runLookups Env.identity Registry.initial
        [.getCharset 'T'.toNat T_96, .getCharset 'A'.toNat T_96,
         .getCharset 'T'.toNat T_96]).1[2]? = some (.heap 0 iso885911Charset) ∧
    (CharsetPtr.heap 0 iso885911Charset).isUnknown = false ∧
    CharsetPtr.heap 0 iso885911Charset = CharsetPtr.heap 0 iso885911Charset :=
  ⟨by decide, by decide, rfl,
    runLookups_same_object Env.identity
      [.getCharset 'T'.toNat T_96, .getCharset 'A'.toNat T_96, .getCharset 'T'.toNat T_96]
      0 2 (.getCharset 'T'.toNat T_96) (.heap 0 iso885911Charset) (.heap 0 iso885911Charset)
      (by decide) (by decide) (by decide)
      (by
        intro k m h1 h2 hm
        have hk : k = 1 := by omega
        subst hk
        simp at hm
        subst hm
        rfl)
      (by decide) (by decide) rfl⟩

/-- C8 fails as stated: from the empty cache, `getCharset('T', T_96)`, then
    `getCharsetByName("TIS 620")`, then `getCharset('T', T_96)` again return
    the object 0 (ISO 8859-11), the object 1 (TIS 620) and the object 1: the
    two lookups of (T_96, 'T') return two different charsets, neither of
    them a sentinel. -/
theorem runLookups_alias_distinct_objects :
    (runLookups Env.identity Registry.initial
        [.getCharset 'T'.toNat T_96, .getCharsetByName (some "TIS 620"),
         .getCharset 'T'.toNat T_96]).1
      = [.heap 0 iso885911Charset, .heap 1 tis620Charset, .heap 1 tis620Charset] ∧
    CharsetPtr.heap 0 iso885911Charset ≠ CharsetPtr.heap 1 tis620Charset ∧
    (CharsetPtr.heap 0 iso885911Charset).isUnknown = false ∧
    (CharsetPtr.heap 1 tis620Charset).isUnknown = false := by
  decide

/-! ### Lookups by name and the order of the table -/

/-- Inversion: a charset that `getCharsetByName` returns on a cache miss was
    built from the first matching row of the fontenc table, or from the first
    matching row of the "other" table. -/
theorem getCharsetByName_heap_inv (env : Env) (st : Registry) (n : String) (a : Nat)
    (c : CharsetRec) (st1 : Registry)
    (hmiss : getCachedCharset st 0 0 (some n) = none)
    (hres : getCharsetByName env st (some n) = (.heap a c, st1)) :
    (∃ row fc, findRow (fontencMatch 0 0 (some n)) st.fontencCharsets = some (row, fc) ∧
      c = fontencCharsetOf fc row) ∨
    (∃ row oc aux,
      findRow (fun fc : OtherCharsetRec => nameMatches fc.name (some n)) otherCharsets
        = some (row, oc) ∧
      c = otherCharsetOf oc row aux) := by
  rw [getCharsetByName_some, hmiss] at hres
  simp only [] at hres
  cases hf : getFontencCharset env st 0 0 (some n) with
  | mk res st2 =>
    rw [hf] at hres
    cases res with
    | some e =>
      obtain ⟨a1, c1⟩ := e
      simp only [] at hres
      cases hres
      obtain ⟨row, fc, m, r, hrow, _, _, _, _, hceq, _⟩ :=
        getFontencCharset_some env st 0 0 (some n) a c st1 hf
      exact Or.inl ⟨row, fc, hrow, hceq⟩
    | none =>
      simp only [] at hres
      cases ho : getOtherCharset env st2 (some n) with
      | mk res2 st3 =>
        rw [ho] at hres
        cases res2 with
        | some e =>
          obtain ⟨a1, c1⟩ := e
          simp only [] at hres
          cases hres
          obtain ⟨row, oc, hrow, _, hceq, _⟩ :=
            getOtherCharset_some env st2 (some n) a c st1 ho
          exact Or.inr ⟨row, oc, _, hrow, hceq⟩
        | none =>
          simp only [] at hres
          cases hres

/-- C9, as the code has it: when `getCharsetByName(name)` finds no cached
    charset whose name is normalized-equal to `name` and returns a fontenc
    charset, that charset is the one for the first (topmost) row of the
    fontenc table that is not marked T_FAILED and whose name is
    normalized-equal to `name`; from the empty cache "GB 2312" and
    "JIS X 0208" resolve to their T_9494 rows (rows 24 and 25), not to the
    later T_9696 rows of the same name. -/
theorem getCharsetByName_first_row (env : Env) :
    (∀ (st st1 : Registry) (n : String) (a : Nat) (c : CharsetRec) (row : Nat),
      (∀ e ∈ st.cachedCharsets, e.2.type ≠ T_FAILED → normalize e.2.name ≠ normalize n) →
      getCharsetByName env st (some n) = (.heap a c, st1) →
      c.data = .fontenc row →
      ∃ fc, st.fontencCharsets[row]? = some fc ∧ fc.type ≠ T_FAILED ∧
        normalize fc.name = normalize n ∧
        (∀ k fk, k < row → st.fontencCharsets[k]? = some fk →
          fk.type = T_FAILED ∨ normalize fk.name ≠ normalize n) ∧
        c = fontencCharsetOf fc row) ∧
    (∀ (a : Nat) (c : CharsetRec) (st1 : Registry),
      getCharsetByName env Registry.initial (some "GB 2312") = (.heap a c, st1) →
      c = fontencCharsetOf gb2312Row9494 24 ∧ c.type = T_9494) ∧
    (∀ (a : Nat) (c : CharsetRec) (st1 : Registry),
      getCharsetByName env Registry.initial (some "JIS X 0208") = (.heap a c, st1) →
      c = fontencCharsetOf jisx0208Row9494 25 ∧ c.type = T_9494) := by
  refine ⟨?_, ?_, ?_⟩
  · intro st st1 n a c row hcache hres hdata
    have hmiss := (getCachedCharset_byName_none st n).mpr hcache
    rcases getCharsetByName_heap_inv env st n a c st1 hmiss hres with
      ⟨row1, fc, hrow, hceq⟩ | ⟨row1, oc, aux, _, hceq⟩
    · rw [hceq] at hdata
      have hr : row1 = row := by
        simp only [fontencCharsetOf] at hdata
        exact DataPtr.fontenc.inj hdata
      subst hr
      obtain ⟨h1, h2, h3⟩ := findRow_some _ _ _ _ hrow
      have hp := (fontencMatch_byName n fc).mp h2
      refine ⟨fc, h1, hp.2, hp.1, ?_, hceq⟩
      intro k fk hk hfk
      have hnot := h3 k fk hk hfk
      by_cases hft : fk.type = T_FAILED
      · exact Or.inl hft
      · right
        intro heq
        rw [(fontencMatch_byName n fk).mpr ⟨heq, hft⟩] at hnot
        cases hnot
    · rw [hceq] at hdata
      simp only [otherCharsetOf] at hdata
      cases hdata
  · intro a c st1 hres
    have hmiss : getCachedCharset Registry.initial 0 0 (some "GB 2312") = none := rfl
    rcases getCharsetByName_heap_inv env Registry.initial "GB 2312" a c st1 hmiss hres with
      ⟨row1, fc, hrow, hceq⟩ | ⟨row1, oc, aux, hrow, _⟩
    · have h24 : findRow (fontencMatch 0 0 (some "GB 2312")) Registry.initial.fontencCharsets
          = some (24, gb2312Row9494) := by decide
      rw [h24] at hrow
      cases hrow
      exact ⟨hceq, by rw [hceq]; rfl⟩
    · have hnone : findRow (fun fc : OtherCharsetRec => nameMatches fc.name (some "GB 2312"))
          otherCharsets = none := by decide
      rw [hnone] at hrow
      cases hrow
  · intro a c st1 hres
    have hmiss : getCachedCharset Registry.initial 0 0 (some "JIS X 0208") = none := rfl
    rcases getCharsetByName_heap_inv env Registry.initial "JIS X 0208" a c st1 hmiss hres with
      ⟨row1, fc, hrow, hceq⟩ | ⟨row1, oc, aux, hrow, _⟩
    · have h25 : findRow (fontencMatch 0 0 (some "JIS X 0208"))
          Registry.initial.fontencCharsets = some (25, jisx0208Row9494) := by decide
      rw [h25] at hrow
      cases hrow
      exact ⟨hceq, by rw [hceq]; rfl⟩
    · have hnone : findRow
          (fun fc : OtherCharsetRec => nameMatches fc.name (some "JIS X 0208"))
          otherCharsets = none := by decide
      rw [hnone] at hrow
      cases hrow

theorem getCharsetByName_first_row_witness :
    getCharsetByName Env.identity Registry.initial (some "GB 2312")
      = (.heap 0 (fontencCharsetOf gb2312Row9494 24),
          (getCharsetByName Env.identity Registry.initial (some "GB 2312")).2) ∧
    (fontencCharsetOf gb2312Row9494 24).type = T_9494 :=
  ⟨by decide,
    ((getCharsetByName_first_row Env.identity).2.1 0 (fontencCharsetOf gb2312Row9494 24)
      (getCharsetByName Env.identity Registry.initial (some "GB 2312")).2 (by decide)).2⟩

/-- C9 fails as stated: after `getCharset('A', T_9696)` from the empty cache
    (a reachable state), `getCharsetByName("GB 2312")` returns the cached
    charset of the T_9696 row (row 28), while the first row of the table
    that is not failed and has that name is still the T_9494 row (row 24). -/
theorem getCharsetByName_returns_later_row :
    (runLookups Env.identity Registry.initial
        [.getCharset 'A'.toNat T_9696, .getCharsetByName (some "GB 2312")]).1
      = [.heap 0 (fontencCharsetOf gb2312Row9696 28),
         .heap 0 (fontencCharsetOf gb2312Row9696 28)] ∧
    (fontencCharsetOf gb2312Row9696 28).data = .fontenc 28 ∧
    (fontencCharsetOf gb2312Row9696 28).type = T_9696 ∧
    findRow (fontencMatch 0 0 (some "GB 2312"))
        (runLookups Env.identity Registry.initial
          [.getCharset 'A'.toNat T_9696]).2.fontencCharsets
      = some (24, gb2312Row9494) := by
  decide

/-! ### Failed rows -/

theorem map_set_same {α β : Type} (g : α → β) (l : List α) (i : Nat) (x y : α)
    (h : l[i]? = some y) (hg : g x = g y) : (l.set i x).map g = l.map g := by
  induction l generalizing i with
  | nil => rfl
  | cons z zs ih =>
    cases i with
    | zero =>
      simp at h
      subst h
      simp [List.set, hg]
    | succ i =>
      simp at h
      simp [List.set, ih i h]

/-- What `getFontencCharset` does to the table: nothing, or one write to a
    row that was not marked T_FAILED, which keeps the row's name. -/
theorem getFontencCharset_table (env : Env) (st : Registry) (f : Nat) (t : Int)
    (name : Option String) :
    (getFontencCharset env st f t name).2.fontencCharsets = st.fontencCharsets ∨
    ∃ row fc x, st.fontencCharsets[row]? = some fc ∧ fc.type ≠ T_FAILED ∧
      x.name = fc.name ∧
      (getFontencCharset env st f t name).2.fontencCharsets = st.fontencCharsets.set row x := by
  cases hf : findRow (fontencMatch f t name) st.fontencCharsets with
  | none =>
    rw [getFontencCharset_no_row env st f t name hf]
    exact Or.inl rfl
  | some q =>
    obtain ⟨row, fc⟩ := q
    obtain ⟨h1, h2, _⟩ := findRow_some _ _ _ _ hf
    have hnf := fontencMatch_not_failed f t name fc h2
    cases hc : env.calloc st.brk with
    | false =>
      rw [getFontencCharset_calloc_fails env st f t name row fc hf hc]
      exact Or.inl rfl
    | true =>
      cases hm : env.LookupMapping fc.xlfd with
      | none =>
        rw [getFontencCharset_mapping_fails env st f t name row fc hf hc hm]
        exact Or.inr ⟨row, fc, { fc with type := T_FAILED }, h1, hnf, rfl, rfl⟩
      | some m =>
        cases hr : env.LookupReverse m with
        | none =>
          rw [getFontencCharset_reverse_fails env st f t name row fc m hf hc hm hr]
          exact Or.inr ⟨row, fc, { fc with type := T_FAILED }, h1, hnf, rfl, rfl⟩
        | some r =>
          rw [getFontencCharset_ok env st f t name row fc m r hf hc hm hr]
          exact Or.inr ⟨row, fc, { fc with mapping := some m, reverse := some r }, h1, hnf,
            rfl, rfl⟩

theorem getOtherCharset_table (env : Env) (st : Registry) (name : Option String) :
    (getOtherCharset env st name).2.fontencCharsets = st.fontencCharsets := by
  cases h : getOtherCharset env st name with
  | mk res st1 =>
    cases res with
    | none => exact (getOtherCharset_none env st name st1 h).2
    | some e =>
      obtain ⟨a, c⟩ := e
      obtain ⟨_, _, _, _, _, _, ht, _⟩ := getOtherCharset_some env st name a c st1 h
      exact ht

/-- What one lookup does to the table: nothing, or one write to a row that
    was not marked T_FAILED, which keeps the row's name. -/
theorem Lookup.run_table (env : Env) (st : Registry) (op : Lookup) :
    (op.run env st).2.fontencCharsets = st.fontencCharsets ∨
    ∃ row fc x, st.fontencCharsets[row]? = some fc ∧ fc.type ≠ T_FAILED ∧
      x.name = fc.name ∧
      (op.run env st).2.fontencCharsets = st.fontencCharsets.set row x := by
  cases op with
  | getCharset f t =>
    simp only [Lookup.run]
    unfold Luit.getCharset
    cases hc : getCachedCharset st f t none with
    | some e => exact Or.inl rfl
    | none =>
      have := getFontencCharset_table env st f t none
      cases hf : getFontencCharset env st f t none with
      | mk res st1 =>
        rw [hf] at this
        cases res with
        | some e => exact this
        | none => exact this
  | getCharsetByName name =>
    cases name with
    | none => exact Or.inl rfl
    | some n =>
      simp only [Lookup.run]
      rw [getCharsetByName_some]
      cases hc : getCachedCharset st 0 0 (some n) with
      | some e => exact Or.inl rfl
      | none =>
        have := getFontencCharset_table env st 0 0 (some n)
        cases hf : getFontencCharset env st 0 0 (some n) with
        | mk res st1 =>
          rw [hf] at this
          cases res with
          | some e => exact this
          | none =>
            simp only []
            have ht := getOtherCharset_table env st1 (some n)
            cases ho : getOtherCharset env st1 (some n) with
            | mk res2 st2 =>
              rw [ho] at ht
              have ht2 : st2.fontencCharsets = st1.fontencCharsets := ht
              cases res2 with
              | some e =>
                simp only []
                rw [ht2]
                exact this
              | none =>
                simp only []
                rw [ht2]
                exact this

theorem runLookups_names (env : Env) :
    ∀ (ops : List Lookup) (st : Registry),
      (runLookups env st ops).2.fontencCharsets.map (fun fc => fc.name)
        = st.fontencCharsets.map (fun fc => fc.name) := by
  intro ops
  induction ops with
  | nil => intro st; rfl
  | cons op ops ih =>
    intro st
    rw [runLookups_cons]
    show (runLookups env (op.run env st).2 ops).2.fontencCharsets.map _ = _
    rw [ih]
    rcases Lookup.run_table env st op with h | ⟨row, fc, x, h1, _, h3, h4⟩
    · rw [h]
    · rw [h4]
      exact map_set_same _ _ _ _ _ h1 h3

theorem Lookup.run_failed_stays (env : Env) (st : Registry) (op : Lookup) (row : Nat)
    (h : (st.fontencCharsets[row]?).map (fun fc => fc.type) = some T_FAILED) :
    ((op.run env st).2.fontencCharsets[row]?).map (fun fc => fc.type) = some T_FAILED := by
  rcases Lookup.run_table env st op with h0 | ⟨row1, fc, x, h1, h2, _, h4⟩
  · rw [h0]; exact h
  · rw [h4]
    have hne : row1 ≠ row := by
      intro heq
      subst heq
      rw [h1] at h
      simp at h
      exact h2 h
    rw [List.getElem?_set_ne hne]
    exact h

theorem runLookups_failed_stays (env : Env) (row : Nat) :
    ∀ (ops : List Lookup) (st : Registry),
      (st.fontencCharsets[row]?).map (fun fc => fc.type) = some T_FAILED →
      ((runLookups env st ops).2.fontencCharsets[row]?).map (fun fc => fc.type)
        = some T_FAILED := by
  intro ops
  induction ops with
  | nil => intro st h; exact h
  | cons op ops ih =>
    intro st h
    rw [runLookups_cons]
    exact ih (op.run env st).2 (Lookup.run_failed_stays env st op row h)

theorem findRow_skips_failed (tbl : List FontencCharsetRec) (f : Nat) (t : Int)
    (name : Option String) (row : Nat) (x : FontencCharsetRec)
    (h : (tbl[row]?).map (fun fc => fc.type) = some T_FAILED) :
    findRow (fontencMatch f t name) tbl ≠ some (row, x) := by
  intro hf
  obtain ⟨h1, h2, _⟩ := findRow_some _ _ _ _ hf
  rw [h1] at h
  simp at h
  exact fontencMatch_not_failed f t name x h2 h

theorem fontenc_names_not_other :
    ∀ nm ∈ fontencCharsets.map (fun fc => fc.name), ∀ oc ∈ otherCharsets,
      normalize oc.name ≠ normalize nm := by
  decide

theorem getFontencCharset_lookup_fails (env : Env) (st : Registry) (f : Nat) (t : Int)
    (name : Option String) (row : Nat) (fc : FontencCharsetRec)
    (hrow : findRow (fontencMatch f t name) st.fontencCharsets = some (row, fc))
    (hc : env.calloc st.brk = true)
    (hfail : env.LookupMapping fc.xlfd = none ∨
      ∃ m, env.LookupMapping fc.xlfd = some m ∧ env.LookupReverse m = none) :
    getFontencCharset env st f t name = (none, markFailed st row fc) := by
  rcases hfail with hm | ⟨m, hm, hr⟩
  · exact getFontencCharset_mapping_fails env st f t name row fc hrow hc hm
  · exact getFontencCharset_reverse_fails env st f t name row fc m hrow hc hm hr

/-- C10: in a state reached from the empty cache by any lookups, when a
    lookup misses the cache, its scan of the fontenc table stops at a row
    and the forward-map lookup or the reverse-map derivation for that row
    fails (the charset object having been allocated): `getCharset` returns
    the Unknown sentinel of the requested type and `getCharsetByName` the
    Unknown (94) sentinel; the state after the call is the state before it
    with that row marked T_FAILED: the cache is as before; and after any
    further lookups no scan by (type, final) or by name stops at that row. -/
theorem lookup_failure_marks_row (env : Env) (pre : List Lookup) :
    (∀ (f : Nat) (t : Int) (row : Nat) (fc : FontencCharsetRec),
      getCachedCharset (runLookups env Registry.initial pre).2 f t none = none →
      findRow (fontencMatch f t none) (runLookups env Registry.initial pre).2.fontencCharsets
        = some (row, fc) →
      env.calloc (runLookups env Registry.initial pre).2.brk = true →
      (env.LookupMapping fc.xlfd = none ∨
        ∃ m, env.LookupMapping fc.xlfd = some m ∧ env.LookupReverse m = none) →
      getCharset env (runLookups env Registry.initial pre).2 f t
        = (getUnknownCharset t, markFailed (runLookups env Registry.initial pre).2 row fc)) ∧
    (∀ (n : String) (row : Nat) (fc : FontencCharsetRec),
      getCachedCharset (runLookups env Registry.initial pre).2 0 0 (some n) = none →
      findRow (fontencMatch 0 0 (some n))
        (runLookups env Registry.initial pre).2.fontencCharsets = some (row, fc) →
      env.calloc (runLookups env Registry.initial pre).2.brk = true →
      (env.LookupMapping fc.xlfd = none ∨
        ∃ m, env.LookupMapping fc.xlfd = some m ∧ env.LookupReverse m = none) →
      getCharsetByName env (runLookups env Registry.initial pre).2 (some n)
        = (.Unknown94, markFailed (runLookups env Registry.initial pre).2 row fc)) ∧
    (∀ (st : Registry) (row : Nat) (fc : FontencCharsetRec),
      st.fontencCharsets[row]? = some fc →
      (markFailed st row fc).cachedCharsets = st.cachedCharsets ∧
      ((markFailed st row fc).fontencCharsets[row]?).map (fun r => r.type) = some T_FAILED ∧
      ∀ (later : List Lookup) (f2 : Nat) (t2 : Int) (name2 : Option String)
        (x : FontencCharsetRec),
        findRow (fontencMatch f2 t2 name2)
          (runLookups env (markFailed st row fc) later).2.fontencCharsets ≠ some (row, x)) := by
  refine ⟨?_, ?_, ?_⟩
  · intro f t row fc hmiss hrow hc hfail
    unfold getCharset
    rw [hmiss, getFontencCharset_lookup_fails env _ f t none row fc hrow hc hfail]
  · intro n row fc hmiss hrow hc hfail
    have hmem := findRow_mem _ _ _ _ hrow
    have hname : fc.name ∈ fontencCharsets.map (fun fc => fc.name) := by
      have := runLookups_names env pre Registry.initial
      rw [show Registry.initial.fontencCharsets = fontencCharsets from rfl] at this
      rw [← this]
      exact List.mem_map_of_mem _ hmem
    have hp := (fontencMatch_byName n fc).mp (findRow_some _ _ _ _ hrow).2.1
    have hother : findRow (fun oc : OtherCharsetRec => nameMatches oc.name (some n))
        otherCharsets = none := by
      rw [findRow_other_none]
      intro oc hoc
      rw [← hp.1]
      exact fontenc_names_not_other fc.name hname oc hoc
    rw [getCharsetByName_some, hmiss,
      getFontencCharset_lookup_fails env _ 0 0 (some n) row fc hrow hc hfail]
    simp only []
    rw [getOtherCharset_no_row env _ (some n) hother]
    rfl
  · intro st row fc hrow
    have hlt : row < st.fontencCharsets.length := by
      rcases Nat.lt_or_ge row st.fontencCharsets.length with h | h
      · exact h
      · rw [List.getElem?_eq_none h] at hrow
        cases hrow
    have hfailed : ((markFailed st row fc).fontencCharsets[row]?).map (fun r => r.type)
        = some T_FAILED := by
      show ((st.fontencCharsets.set row { fc with type := T_FAILED })[row]?).map _ = _
      rw [List.getElem?_set_self hlt]
      rfl
    refine ⟨rfl, hfailed, ?_⟩
    intro later f2 t2 name2 x
    exact findRow_skips_failed _ f2 t2 name2 row x
      (runLookups_failed_stays env row later (markFailed st row fc) hfailed)

theorem lookup_failure_marks_row_witness :
    getCachedCharset (runLookups Env.withoutKoi8r Registry.initial []).2 0 T_128 none = none ∧
    findRow (fontencMatch 0 T_128 none)
      (runLookups Env.withoutKoi8r Registry.initial []).2.fontencCharsets
        = some (32, koi8rRow) ∧
    Env.withoutKoi8r.LookupMapping koi8rRow.xlfd = none ∧
    getCharset Env.withoutKoi8r (runLookups Env.withoutKoi8r Registry.initial []).2 0 T_128
      = (getUnknownCharset T_128,
          markFailed (runLookups Env.withoutKoi8r Registry.initial []).2 32 koi8rRow) :=
  ⟨by decide, by decide, by decide,
    (lookup_failure_marks_row Env.withoutKoi8r []).1 0 T_128 32 koi8rRow (by decide)
      (by decide) (by decide) (Or.inl (by decide))⟩

/-! ### The locale resolver -/

theorem matchLocaleCharset_row_names :
    ∀ L ∈ localeCharsets,
      (matchLocaleCharset L.name).map (fun r => r.map (fun q => q.2)) = some (some L) := by
  decide

theorem matchLocaleCharset_of_row (L : LocaleCharsetRec) (hL : L ∈ localeCharsets) :
    ∃ k, matchLocaleCharset L.name = some (some (k, L)) := by
  have h := matchLocaleCharset_row_names L hL
  cases hm : matchLocaleCharset L.name with
  | none => rw [hm] at h; cases h
  | some r =>
    cases r with
    | none => rw [hm] at h; cases h
    | some q =>
      obtain ⟨k, L1⟩ := q
      rw [hm] at h
      simp only [Option.map_some', Option.some.injEq] at h
      subst h
      exact ⟨k, rfl⟩

theorem localeCharsets_gl_gr :
    ∀ L ∈ localeCharsets, 0 ≤ L.gl ∧ L.gl ≤ 3 ∧ 0 ≤ L.gr ∧ L.gr ≤ 3 := by
  decide

/-- The value of `getLocaleState` once `matchLocaleCharset` has returned the
    row `p`. -/
theorem getLocaleState_of_match (resolveLocale : String → Option String) (env : Env)
    (st : Registry) (out : LocaleOut) (locale label : String) (k : Nat)
    (p : LocaleCharsetRec) (hm : matchLocaleCharset label = some (some (k, p))) :
    getLocaleState resolveLocale env st out locale (some label) =
      match p.other with
      | some o =>
        some (0, ⟨p.gl, p.gr,
          some (getCharsetByName env st p.g0).1,
          some (getCharsetByName env (getCharsetByName env st p.g0).2 p.g1).1,
          some (getCharsetByName env
            (getCharsetByName env (getCharsetByName env st p.g0).2 p.g1).2 p.g2).1,
          some (getCharsetByName env (getCharsetByName env
            (getCharsetByName env (getCharsetByName env st p.g0).2 p.g1).2 p.g2).2 p.g3).1,
          some (getCharsetByName env (getCharsetByName env (getCharsetByName env
            (getCharsetByName env (getCharsetByName env st p.g0).2 p.g1).2 p.g2).2 p.g3).2
            (some o)).1⟩,
          (getCharsetByName env (getCharsetByName env (getCharsetByName env
            (getCharsetByName env (getCharsetByName env st p.g0).2 p.g1).2 p.g2).2 p.g3).2
            (some o)).2)
      | none =>
        some (0, ⟨p.gl, p.gr,
          some (getCharsetByName env st p.g0).1,
          some (getCharsetByName env (getCharsetByName env st p.g0).2 p.g1).1,
          some (getCharsetByName env
            (getCharsetByName env (getCharsetByName env st p.g0).2 p.g1).2 p.g2).1,
          some (getCharsetByName env (getCharsetByName env
            (getCharsetByName env (getCharsetByName env st p.g0).2 p.g1).2 p.g2).2 p.g3).1,
          none⟩,
          (getCharsetByName env (getCharsetByName env
            (getCharsetByName env (getCharsetByName env st p.g0).2 p.g1).2 p.g2).2 p.g3).2) := by
  unfold getLocaleState
  simp only [hm]

theorem runLookups_four_names (env : Env) (st : Registry) (n0 n1 n2 n3 : Option String) :
    (runLookups env st [.getCharsetByName n0, .getCharsetByName n1, .getCharsetByName n2,
        .getCharsetByName n3]).1 =
      [(getCharsetByName env st n0).1,
       (getCharsetByName env (getCharsetByName env st n0).2 n1).1,
       (getCharsetByName env (getCharsetByName env (getCharsetByName env st n0).2 n1).2 n2).1,
       (getCharsetByName env (getCharsetByName env
         (getCharsetByName env (getCharsetByName env st n0).2 n1).2 n2).2 n3).1] := rfl

/-- C11: for every row `L` of the locale table and in every registry state,
    `getLocaleState` called with `charset` = the name of `L` returns 0 and
    yields `gl = L.gl`, `gr = L.gr`, both in 0..3, and the four banks are the
    results of `getCharsetByName` on `L.g0`, `L.g1`, `L.g2`, `L.g3`, called
    in that order.  For "C" that is gl = 0, gr = 2, G0 resolved from "ASCII"
    and G2 from "ISO 8859-1"; for "eucJP" gl = 0, gr = 1, G0 resolved from
    "ASCII" and G1 from "JIS X 0208". -/
theorem getLocaleState_of_row_name (resolveLocale : String → Option String) (env : Env)
    (st : Registry) (out : LocaleOut) (locale : String) :
    (∀ L ∈ localeCharsets, ∃ (res : LocaleOut) (st1 : Registry),
      getLocaleState resolveLocale env st out locale (some L.name) = some (0, res, st1) ∧
      res.gl = L.gl ∧ res.gr = L.gr ∧
      (0 ≤ res.gl ∧ res.gl ≤ 3) ∧ (0 ≤ res.gr ∧ res.gr ≤ 3) ∧
      [res.g0, res.g1, res.g2, res.g3] =
        (runLookups env st [.getCharsetByName L.g0, .getCharsetByName L.g1,
          .getCharsetByName L.g2, .getCharsetByName L.g3]).1.map some) ∧
    (∃ (res : LocaleOut) (st1 : Registry),
      getLocaleState resolveLocale env st out locale (some "C") = some (0, res, st1) ∧
      res.gl = 0 ∧ res.gr = 2 ∧
      res.g0 = some (getCharsetByName env st (some "ASCII")).1 ∧
      res.g2 = some (getCharsetByName env (getCharsetByName env st (some "ASCII")).2
        (some "ISO 8859-1")).1) ∧
    (∃ (res : LocaleOut) (st1 : Registry),
      getLocaleState resolveLocale env st out locale (some "eucJP") = some (0, res, st1) ∧
      res.gl = 0 ∧ res.gr = 1 ∧
      res.g0 = some (getCharsetByName env st (some "ASCII")).1 ∧
      res.g1 = some (getCharsetByName env (getCharsetByName env st (some "ASCII")).2
        (some "JIS X 0208")).1) := by
  refine ⟨?_, ?_, ?_⟩
  · intro L hL
    obtain ⟨k, hm⟩ := matchLocaleCharset_of_row L hL
    obtain ⟨h1, h2, h3, h4⟩ := localeCharsets_gl_gr L hL
    rw [getLocaleState_of_match resolveLocale env st out locale L.name k L hm,
      runLookups_four_names]
    cases L.other with
    | none => exact ⟨_, _, rfl, rfl, rfl, ⟨h1, h2⟩, ⟨h3, h4⟩, rfl⟩
    | some o => exact ⟨_, _, rfl, rfl, rfl, ⟨h1, h2⟩, ⟨h3, h4⟩, rfl⟩
  · have hm : matchLocaleCharset "C"
        = some (some (0, ⟨"C", 0, 2, some "ASCII", none, some "ISO 8859-1", none, none⟩)) := by
      decide
    rw [getLocaleState_of_match resolveLocale env st out locale "C" 0 _ hm]
    exact ⟨_, _, rfl, rfl, rfl, rfl, rfl⟩
  · have hm : matchLocaleCharset "eucJP"
        = some (some (32, ⟨"eucJP", 0, 1, some "ASCII", some "JIS X 0208",
            some "JIS X 0201:GR", some "JIS X 0212", none⟩)) := by
      decide
    rw [getLocaleState_of_match resolveLocale env st out locale "eucJP" 32 _ hm]
    exact ⟨_, _, rfl, rfl, rfl, rfl, rfl⟩

/-! ### Resolving the names of the locale table -/

theorem Env.identity_allSucceed : Env.identity.allSucceed :=
  ⟨fun _ => rfl, fun _ => ⟨1, rfl⟩, fun _ => ⟨1, rfl⟩, fun _ => rfl⟩

/-- With collaborators that succeed, `getFontencCharset` leaves the names
    and the types of the rows as they are. -/
theorem getFontencCharset_keys (env : Env) (hs : env.allSucceed) (st : Registry) (f : Nat)
    (t : Int) (name : Option String) :
    (getFontencCharset env st f t name).2.fontencCharsets.map (fun fc => (fc.name, fc.type))
      = st.fontencCharsets.map (fun fc => (fc.name, fc.type)) := by
  cases hf : findRow (fontencMatch f t name) st.fontencCharsets with
  | none => rw [getFontencCharset_no_row env st f t name hf]
  | some q =>
    obtain ⟨row, fc⟩ := q
    obtain ⟨m, hm⟩ := hs.2.1 fc.xlfd
    obtain ⟨r, hr⟩ := hs.2.2.1 m
    rw [getFontencCharset_ok env st f t name row fc m r hf (hs.1 _) hm hr]
    exact map_set_same _ _ _ _ _ (findRow_some _ _ _ _ hf).1 rfl

theorem getCharsetByName_keys (env : Env) (hs : env.allSucceed) (st : Registry)
    (name : Option String) :
    (getCharsetByName env st name).2.fontencCharsets.map (fun fc => (fc.name, fc.type))
      = st.fontencCharsets.map (fun fc => (fc.name, fc.type)) := by
  cases name with
  | none => rfl
  | some n =>
    rw [getCharsetByName_some]
    cases hc : getCachedCharset st 0 0 (some n) with
    | some e => rfl
    | none =>
      have hk := getFontencCharset_keys env hs st 0 0 (some n)
      cases hf : getFontencCharset env st 0 0 (some n) with
      | mk res st1 =>
        rw [hf] at hk
        cases res with
        | some e => exact hk
        | none =>
          simp only []
          have ht := getOtherCharset_table env st1 (some n)
          cases ho : getOtherCharset env st1 (some n) with
          | mk res2 st2 =>
            rw [ho] at ht
            have ht2 : st2.fontencCharsets = st1.fontencCharsets := ht
            cases res2 with
            | some e => simp only []; rw [ht2]; exact hk
            | none => simp only []; rw [ht2]; exact hk

/-- With collaborators that succeed and a table whose names and types are
    those of the initial table, a name that the tables define resolves to a
    charset that is not a sentinel. -/
theorem getCharsetByName_resolves (env : Env) (hs : env.allSucceed) (st : Registry)
    (hkeys : st.fontencCharsets.map (fun fc => (fc.name, fc.type))
      = fontencCharsets.map (fun fc => (fc.name, fc.type)))
    (nm : String) (hdef : nameDefined nm = true) :
    (getCharsetByName env st (some nm)).1.isUnknown = false := by
  rw [getCharsetByName_some]
  cases hc : getCachedCharset st 0 0 (some nm) with
  | some e => rfl
  | none =>
    simp only []
    cases hf : findRow (fontencMatch 0 0 (some nm)) st.fontencCharsets with
    | some q =>
      obtain ⟨row, fc⟩ := q
      obtain ⟨m, hm⟩ := hs.2.1 fc.xlfd
      obtain ⟨r, hr⟩ := hs.2.2.1 m
      rw [getFontencCharset_ok env st 0 0 (some nm) row fc m r hf (hs.1 _) hm hr]
      rfl
    | none =>
      rw [getFontencCharset_no_row env st 0 0 (some nm) hf]
      simp only []
      have hnone := (findRow_fontenc_byName_none st.fontencCharsets nm).mp hf
      unfold nameDefined at hdef
      rw [Bool.or_eq_true] at hdef
      rcases hdef with h | h
      · exfalso
        rw [List.any_eq_true] at h
        obtain ⟨fc0, hfc0, hp⟩ := h
        rw [Bool.and_eq_true] at hp
        have hin : (fc0.name, fc0.type) ∈ st.fontencCharsets.map (fun fc => (fc.name, fc.type)) := by
          rw [hkeys]
          exact List.mem_map_of_mem (fun fc => (fc.name, fc.type)) hfc0
        obtain ⟨fc1, hfc1, hk1⟩ := List.mem_map.mp hin
        have hname : fc1.name = fc0.name := congrArg Prod.fst hk1
        have htype : fc1.type = fc0.type := congrArg Prod.snd hk1
        apply hnone fc1 hfc1
        · rw [htype]; simpa using hp.1
        · rw [hname]
          exact (compare_eq_zero_iff fc0.name nm).mp (by simpa using hp.2)
      · rw [List.any_eq_true] at h
        obtain ⟨oc0, hoc0, hp⟩ := h
        obtain ⟨row, oc, hrow⟩ := findRow_isSome_of_mem
          (fun fc : OtherCharsetRec => nameMatches fc.name (some nm)) otherCharsets oc0 hoc0
          (by simpa [nameMatches] using hp)
        rw [getOtherCharset_ok env st (some nm) row oc hrow (hs.1 _) (hs.1 _) (hs.2.2.2 _)]
        rfl

theorem localeCharsets_names_defined :
    ∀ L ∈ localeCharsets,
      (∀ nm, L.g0 = some nm → nameDefined nm = true) ∧
      (∀ nm, L.g1 = some nm → nameDefined nm = true) ∧
      (∀ nm, L.g2 = some nm → nameDefined nm = true) ∧
      (∀ nm, L.g3 = some nm → nameDefined nm = true) ∧
      (∀ nm, L.other = some nm → nameDefined nm = true) := by
  have h : ∀ L ∈ localeCharsets,
      (L.g0.all nameDefined && L.g1.all nameDefined && L.g2.all nameDefined &&
        L.g3.all nameDefined && L.other.all nameDefined) = true := by decide
  intro L hL
  have := h L hL
  simp only [Bool.and_eq_true] at this
  obtain ⟨⟨⟨⟨h0, h1⟩, h2⟩, h3⟩, h4⟩ := this
  refine ⟨?_, ?_, ?_, ?_, ?_⟩
  · intro nm e; rw [e] at h0; exact h0
  · intro nm e; rw [e] at h1; exact h1
  · intro nm e; rw [e] at h2; exact h2
  · intro nm e; rw [e] at h3; exact h3
  · intro nm e; rw [e] at h4; exact h4

theorem localeCharsets_gl_gr_named :
    ∀ L ∈ localeCharsets, L.other = none →
      L.gl = 0 ∧ L.g0.isSome = true ∧
      ((L.gr = 1 ∧ L.g1.isSome = true) ∨ (L.gr = 2 ∧ L.g2.isSome = true)) := by
  decide

theorem getCharsetByName_resolves_opt (env : Env) (hs : env.allSucceed) (st : Registry)
    (hkeys : st.fontencCharsets.map (fun fc => (fc.name, fc.type))
      = fontencCharsets.map (fun fc => (fc.name, fc.type)))
    (name : Option String) (hdef : ∀ nm, name = some nm → nameDefined nm = true)
    (hsome : name.isSome = true) :
    ∃ p, some (getCharsetByName env st name).1 = some p ∧ p.isUnknown = false := by
  cases name with
  | none => cases hsome
  | some nm => exact ⟨_, rfl, getCharsetByName_resolves env hs st hkeys nm (hdef nm rfl)⟩

/-- C12: for every row `L` of the locale table, when every allocation, every
    external forward and reverse map lookup and every "other" codec `init`
    succeeds and the registry is in its initial state (empty cache),
    resolving the name of `L` returns 0 and yields a charset that is not a
    sentinel for every bank that `L` names and for the `other` field when
    `L` has one; for a row without `other` the banks `g[L.gl]` and `g[L.gr]`
    are not sentinels.  Every charset name of the row is defined by the
    fontenc table or the "other" table. -/
theorem getLocaleState_resolves_named_banks (resolveLocale : String → Option String)
    (env : Env) (out : LocaleOut) (locale : String) (L : LocaleCharsetRec)
    (hs : env.allSucceed) (hL : L ∈ localeCharsets) :
    ∃ (res : LocaleOut) (st1 : Registry),
      getLocaleState resolveLocale env Registry.initial out locale (some L.name)
        = some (0, res, st1) ∧
      (L.g0.isSome = true → ∃ p, res.g0 = some p ∧ p.isUnknown = false) ∧
      (L.g1.isSome = true → ∃ p, res.g1 = some p ∧ p.isUnknown = false) ∧
      (L.g2.isSome = true → ∃ p, res.g2 = some p ∧ p.isUnknown = false) ∧
      (L.g3.isSome = true → ∃ p, res.g3 = some p ∧ p.isUnknown = false) ∧
      (L.other.isSome = true → ∃ p, res.other = some p ∧ p.isUnknown = false) ∧
      (L.other = none →
        (∃ p, res.g L.gl = some p ∧ p.isUnknown = false) ∧
        (∃ p, res.g L.gr = some p ∧ p.isUnknown = false)) ∧
      (∀ nm, (L.g0 = some nm ∨ L.g1 = some nm ∨ L.g2 = some nm ∨ L.g3 = some nm ∨
        L.other = some nm) → nameDefined nm = true) := by
  obtain ⟨k, hm⟩ := matchLocaleCharset_of_row L hL
  obtain ⟨d0, d1, d2, d3, d4⟩ := localeCharsets_names_defined L hL
  have hnamed := localeCharsets_gl_gr_named L hL
  have k0 : Registry.initial.fontencCharsets.map (fun fc => (fc.name, fc.type))
      = fontencCharsets.map (fun fc => (fc.name, fc.type)) := rfl
  have k1 := (getCharsetByName_keys env hs Registry.initial L.g0).trans k0
  have k2 := (getCharsetByName_keys env hs _ L.g1).trans k1
  have k3 := (getCharsetByName_keys env hs _ L.g2).trans k2
  have k4 := (getCharsetByName_keys env hs _ L.g3).trans k3
  have b0 := getCharsetByName_resolves_opt env hs _ k0 L.g0 d0
  have b1 := getCharsetByName_resolves_opt env hs _ k1 L.g1 d1
  have b2 := getCharsetByName_resolves_opt env hs _ k2 L.g2 d2
  have b3 := getCharsetByName_resolves_opt env hs _ k3 L.g3 d3
  have hdefs : ∀ nm, (L.g0 = some nm ∨ L.g1 = some nm ∨ L.g2 = some nm ∨ L.g3 = some nm ∨
      L.other = some nm) → nameDefined nm = true := by
    intro nm h
    rcases h with h | h | h | h | h
    · exact d0 nm h
    · exact d1 nm h
    · exact d2 nm h
    · exact d3 nm h
    · exact d4 nm h
  rw [getLocaleState_of_match resolveLocale env Registry.initial out locale L.name k L hm]
  cases ho : L.other with
  | some o =>
    refine ⟨_, _, rfl, b0, b1, b2, b3, ?_, ?_, by rw [← ho]; exact hdefs⟩
    · intro _
      exact ⟨_, rfl, getCharsetByName_resolves env hs _ k4 o (d4 o ho)⟩
    · intro h; cases h
  | none =>
    obtain ⟨hgl, hg0, hgr⟩ := hnamed ho
    refine ⟨_, _, rfl, b0, b1, b2, b3, ?_, ?_, by rw [← ho]; exact hdefs⟩
    · intro h; cases h
    · intro _
      constructor
      · rw [hgl]
        exact b0 hg0
      · rcases hgr with ⟨h1, h2⟩ | ⟨h1, h2⟩
        · rw [h1]
          exact b1 h2
        · rw [h1]
          exact b2 h2

theorem getLocaleState_resolves_named_banks_witness :
    Env.identity.allSucceed ∧ eucJPRow ∈ localeCharsets ∧
    ∃ (res : LocaleOut) (st1 : Registry),
      getLocaleState (fun _ => none) Env.identity Registry.initial
          ⟨0, 0, none, none, none, none, none⟩ "ja_JP.eucJP" (some eucJPRow.name)
        = some (0, res, st1) ∧
      (eucJPRow.g0.isSome = true → ∃ p, res.g0 = some p ∧ p.isUnknown = false) ∧
      (eucJPRow.g1.isSome = true → ∃ p, res.g1 = some p ∧ p.isUnknown = false) ∧
      (eucJPRow.g2.isSome = true → ∃ p, res.g2 = some p ∧ p.isUnknown = false) ∧
      (eucJPRow.g3.isSome = true → ∃ p, res.g3 = some p ∧ p.isUnknown = false) ∧
      (eucJPRow.other.isSome = true → ∃ p, res.other = some p ∧ p.isUnknown = false) ∧
      (eucJPRow.other = none →
        (∃ p, res.g eucJPRow.gl = some p ∧ p.isUnknown = false) ∧
        (∃ p, res.g eucJPRow.gr = some p ∧ p.isUnknown = false)) ∧
      (∀ nm, (eucJPRow.g0 = some nm ∨ eucJPRow.g1 = some nm ∨ eucJPRow.g2 = some nm ∨
        eucJPRow.g3 = some nm ∨ eucJPRow.other = some nm) → nameDefined nm = true) :=
  ⟨Env.identity_allSucceed, by decide,
    getLocaleState_resolves_named_banks (fun _ => none) Env.identity
      ⟨0, 0, none, none, none, none, none⟩ "ja_JP.eucJP" eucJPRow Env.identity_allSucceed
      (by decide)⟩

/-! ### Prefix substitution -/

theorem localeCharsets_unique_normal_names :
    ∀ L1 ∈ localeCharsets, ∀ L2 ∈ localeCharsets,
      normalize L1.name = normalize L2.name → L1 = L2 := by
  decide

theorem localeCharsets_no_at :
    ∀ L ∈ localeCharsets, ¬ ('@' ∈ normalize L.name) := by
  decide

theorem strrchr_none_of_not_mem (c : Char) (l : List Char) (h : ¬ c ∈ l) :
    strrchr c l = none := by
  induction l with
  | nil => rfl
  | cons x xs ih =>
    have h1 : ¬ c ∈ xs := fun hm => h (List.mem_cons_of_mem _ hm)
    have h2 : x ≠ c := fun he => h (by rw [he]; exact List.mem_cons_self _ _)
    simp [strrchr, ih h1, h2]

theorem at_mem_normList (l : List Char) (h : '@' ∈ l) : '@' ∈ normList l := by
  unfold normList
  rw [List.mem_map]
  refine ⟨'@', ?_, by decide⟩
  rw [List.mem_filter]
  exact ⟨h, by decide⟩

theorem stripEuro_of_no_at (s : String) (h : ¬ '@' ∈ s.toList) : stripEuro s = s := by
  unfold stripEuro
  rw [strrchr_none_of_not_mem '@' s.toList h]

theorem findLocaleCharset_eq_none (label : String) :
    findLocaleCharset label = none ↔
      ∀ L ∈ localeCharsets, normalize L.name ≠ normalize label := by
  unfold findLocaleCharset
  rw [findRow_eq_none]
  constructor
  · intro h L hL heq
    have := h L hL
    simp [(compare_eq_zero_iff L.name label).mpr heq] at this
  · intro h L hL
    cases hc : (compare L.name label == 0) with
    | false => rfl
    | true =>
      exact absurd ((compare_eq_zero_iff L.name label).mp (by simpa using hc)) (h L hL)

/-- The lookup of a label that is normalized-equal to the name of a row
    returns that row (two rows with normalized-equal names are equal). -/
theorem findLocaleCharset_of_row (label : String) (L : LocaleCharsetRec)
    (hL : L ∈ localeCharsets) (heq : normalize L.name = normalize label) :
    ∃ k, findLocaleCharset label = some (k, L) := by
  obtain ⟨k, y, hrow⟩ := findRow_isSome_of_mem (fun p => compare p.name label == 0)
    localeCharsets L hL (by simp [(compare_eq_zero_iff L.name label).mpr heq])
  have hy := findRow_mem _ _ _ _ hrow
  have hp := (findRow_some _ _ _ _ hrow).2.1
  have hny : normalize y.name = normalize label :=
    (compare_eq_zero_iff y.name label).mp (by simpa using hp)
  have : y = L := localeCharsets_unique_normal_names y hy L hL (hny.trans heq.symm)
  subst this
  exact ⟨k, hrow⟩

theorem tryPrefixes_cons_skip (source : String) (d : PrefixRec) (rest : List PrefixRec)
    (h : compare1 source d.source d.source_len ≠ 0) :
    tryPrefixes source (d :: rest) = tryPrefixes source rest := by
  rw [tryPrefixes]
  have : (compare1 source d.source d.source_len == 0) = false := by simpa using h
  simp [this]

theorem tryPrefixes_cons_hit (source : String) (d : PrefixRec) (rest : List PrefixRec)
    (p : Nat × LocaleCharsetRec) (h1 : source.length > d.source_len)
    (h2 : source.length < MAX_KEYWORD_LENGTH)
    (h3 : compare1 source d.source d.source_len = 0)
    (h4 : findLocaleCharset
      (String.mk (d.target.toList.take d.target_len ++ source.toList.drop d.source_len))
        = some p) :
    tryPrefixes source (d :: rest) = some p := by
  rw [tryPrefixes, if_pos (by simp [h1, h2, h3]), h4]

theorem matchLocaleCharset_fits (label : String) (hne : label.toList.head?.isSome = true)
    (hlen : label.length < MAX_KEYWORD_LENGTH) :
    matchLocaleCharset label =
      match findLocaleCharset (stripEuro label) with
      | some p => some (some p)
      | none => some (tryPrefixes (stripEuro label) prefixes) := by
  unfold matchLocaleCharset
  rw [if_pos hne, if_neg (by omega)]
  try rfl

/-- C13: for every label `"IBM" + r` or `"ANSI" + r` with `r` non-empty and
    the label shorter than the keyword length limit: if the label itself
    matches no locale row and `"CP" + r` is normalized-equal to the name of
    a locale row `L`, then `matchLocaleCharset` returns `L`.  "IBM850"
    resolves to the CP850 row and "ANSI1251" to the CP1251 row. -/
theorem matchLocaleCharset_IBM_ANSI (pre r : String) (L : LocaleCharsetRec)
    (hpre : pre = "IBM" ∨ pre = "ANSI") (hr : r ≠ "")
    (hlen : (pre ++ r).length < MAX_KEYWORD_LENGTH)
    (hno : ∀ L1 ∈ localeCharsets, normalize L1.name ≠ normalize (pre ++ r))
    (hL : L ∈ localeCharsets) (hcp : normalize ("CP" ++ r) = normalize L.name) :
    (∃ k, matchLocaleCharset (pre ++ r) = some (some (k, L))) ∧
    matchLocaleCharset "IBM850" = some (some (26, cp850Row)) ∧
    matchLocaleCharset "ANSI1251" = some (some (23, cp1251Row)) := by
  refine ⟨?_, by decide, by decide⟩
  have hrl : r.toList ≠ [] := by
    intro h
    apply hr
    cases r with
    | mk data => simp only [String.toList] at h; subst h; rfl
  have hrlen : 1 ≤ r.length := by
    cases hd : r.toList with
    | nil => exact absurd hd hrl
    | cons x xs =>
      have : r.length = (x :: xs).length := by rw [← hd]; rfl
      rw [this]; simp
  have hnoat : ¬ '@' ∈ r.toList := by
    intro hmem
    apply localeCharsets_no_at L hL
    rw [← hcp]
    apply at_mem_normList
    show '@' ∈ ("CP" ++ r).data
    rw [String.data_append]
    exact List.mem_append_right _ hmem
  have htarget : normalize (String.mk ('C' :: 'P' :: ' ' :: r.toList)) = normalize L.name := by
    rw [← hcp]
    show normList ('C' :: 'P' :: ' ' :: r.toList) = normList ("CP" ++ r).data
    rw [String.data_append]
    show _ = normList ('C' :: 'P' :: r.toList)
    rw [normList_cons_keep 'C' _ (by decide), normList_cons_keep 'P' _ (by decide),
      normList_cons_skip ' ' _ (by decide), normList_cons_keep 'C' _ (by decide),
      normList_cons_keep 'P' _ (by decide)]
  obtain ⟨k, hfind⟩ := findLocaleCharset_of_row _ L hL htarget.symm
  refine ⟨k, ?_⟩
  rcases hpre with hp | hp
  · subst hp
    have hdata : ("IBM" ++ r).toList = 'I' :: 'B' :: 'M' :: r.toList := by
      show ("IBM" ++ r).data = _
      rw [String.data_append]; rfl
    have hstrip : stripEuro ("IBM" ++ r) = "IBM" ++ r := by
      apply stripEuro_of_no_at
      rw [hdata]
      intro hmem
      simp only [List.mem_cons] at hmem
      rcases hmem with h | h | h | h
      · exact absurd h (by decide)
      · exact absurd h (by decide)
      · exact absurd h (by decide)
      · exact hnoat h
    have hlen2 : ("IBM" ++ r).length = 3 + r.length := by
      rw [String.length_append]; rfl
    rw [matchLocaleCharset_fits _ (by rw [hdata]; rfl) hlen, hstrip,
      (findLocaleCharset_eq_none _).mpr hno]
    simp only []
    show some (tryPrefixes ("IBM" ++ r)
      [PrefixRec.DATA "ISO-" "ISO ", PrefixRec.DATA "IBM" "CP ", PrefixRec.DATA "CP-" "CP ",
        PrefixRec.DATA "ANSI" "CP "]) = _
    rw [tryPrefixes_cons_skip _ _ _ (by
        show compare1Loop 4 ("IBM" ++ r).toList "ISO-".toList ≠ 0
        rw [hdata]
        show (1 : Int) ≠ 0
        decide),
      tryPrefixes_cons_hit _ _ _ (k, L) (by rw [hlen2]; show 3 + r.length > 3; omega) hlen (by
        show compare1Loop 3 ("IBM" ++ r).toList "IBM".toList = 0
        rw [hdata]
        rfl) (by
        show findLocaleCharset (String.mk ("CP ".toList.take 3 ++ ("IBM" ++ r).toList.drop 3)) = _
        rw [hdata]
        exact hfind)]
  · subst hp
    have hdata : ("ANSI" ++ r).toList = 'A' :: 'N' :: 'S' :: 'I' :: r.toList := by
      show ("ANSI" ++ r).data = _
      rw [String.data_append]; rfl
    have hstrip : stripEuro ("ANSI" ++ r) = "ANSI" ++ r := by
      apply stripEuro_of_no_at
      rw [hdata]
      intro hmem
      simp only [List.mem_cons] at hmem
      rcases hmem with h | h | h | h | h
      · exact absurd h (by decide)
      · exact absurd h (by decide)
      · exact absurd h (by decide)
      · exact absurd h (by decide)
      · exact hnoat h
    have hlen2 : ("ANSI" ++ r).length = 4 + r.length := by
      rw [String.length_append]; rfl
    rw [matchLocaleCharset_fits _ (by rw [hdata]; rfl) hlen, hstrip,
      (findLocaleCharset_eq_none _).mpr hno]
    simp only []
    show some (tryPrefixes ("ANSI" ++ r)
      [PrefixRec.DATA "ISO-" "ISO ", PrefixRec.DATA "IBM" "CP ", PrefixRec.DATA "CP-" "CP ",
        PrefixRec.DATA "ANSI" "CP "]) = _
    rw [tryPrefixes_cons_skip _ _ _ (by
        show compare1Loop 4 ("ANSI" ++ r).toList "ISO-".toList ≠ 0
        rw [hdata]
        show (1 : Int) ≠ 0
        decide),
      tryPrefixes_cons_skip _ _ _ (by
        show compare1Loop 3 ("ANSI" ++ r).toList "IBM".toList ≠ 0
        rw [hdata]
        show (1 : Int) ≠ 0
        decide),
      tryPrefixes_cons_skip _ _ _ (by
        show compare1Loop 3 ("ANSI" ++ r).toList "CP-".toList ≠ 0
        rw [hdata]
        show (1 : Int) ≠ 0
        decide),
      tryPrefixes_cons_hit _ _ _ (k, L) (by rw [hlen2]; show 4 + r.length > 4; omega) hlen (by
        show compare1Loop 4 ("ANSI" ++ r).toList "ANSI".toList = 0
        rw [hdata]
        rfl) (by
        show findLocaleCharset
          (String.mk ("CP ".toList.take 3 ++ ("ANSI" ++ r).toList.drop 4)) = _
        rw [hdata]
        exact hfind)]

theorem matchLocaleCharset_IBM_ANSI_witness :
    ("IBM" : String) = "IBM" ∧ ("850" : String) ≠ "" ∧
    ("IBM" ++ "850" : String).length < MAX_KEYWORD_LENGTH ∧
    (∀ L1 ∈ localeCharsets, normalize L1.name ≠ normalize ("IBM" ++ "850")) ∧
    cp850Row ∈ localeCharsets ∧ normalize ("CP" ++ "850") = normalize cp850Row.name ∧
    ∃ k, matchLocaleCharset ("IBM" ++ "850") = some (some (k, cp850Row)) :=
  ⟨rfl, by decide, by decide, by decide, by decide, by decide,
    (matchLocaleCharset_IBM_ANSI "IBM" "850" cp850Row (Or.inl rfl) (by decide) (by decide)
      (by decide) (by decide) (by decide)).1⟩

/-! ### The euro modifier and labels that match nothing -/

theorem strrchr_append_at_euro (l : List Char) :
    strrchr '@' (l ++ "@euro".toList) = some l.length := by
  induction l with
  | nil => rfl
  | cons x xs ih =>
    show strrchr '@' (x :: (xs ++ "@euro".toList)) = _
    rw [strrchr, ih]
    rfl

theorem stripEuro_append_euro (s : String) : stripEuro (s ++ "@euro") = s := by
  unfold stripEuro
  show (match strrchr '@' (s ++ "@euro").data with
    | some k => if (s ++ "@euro").data.drop k = "@euro".toList
        then String.mk ((s ++ "@euro").data.take k) else s ++ "@euro"
    | none => s ++ "@euro") = s
  rw [String.data_append]
  show (match strrchr '@' (s.data ++ "@euro".toList) with
    | some k => if (s.data ++ "@euro".toList).drop k = "@euro".toList
        then String.mk ((s.data ++ "@euro".toList).take k) else s ++ "@euro"
    | none => s ++ "@euro") = s
  rw [strrchr_append_at_euro]
  simp

theorem stripEuro_of_not_suffix (s : String) (h : ¬ "@euro".toList <:+ s.toList) :
    stripEuro s = s := by
  unfold stripEuro
  cases hk : strrchr '@' s.toList with
  | none => rfl
  | some k =>
    simp only []
    rw [if_neg]
    intro hd
    apply h
    rw [← hd]
    exact List.drop_suffix k s.toList

/-- For a label `s` that does not end in "@euro" and such that `s + "@euro"`
    fits the buffer `source`, `matchLocaleCharset(s + "@euro")` returns what
    `matchLocaleCharset(s)` returns. -/
theorem matchLocaleCharset_append_euro (s : String)
    (hfit : (s ++ "@euro").length < MAX_KEYWORD_LENGTH)
    (hnot : ¬ "@euro".toList <:+ s.toList) :
    matchLocaleCharset (s ++ "@euro") = matchLocaleCharset s := by
  have hlen : s.length < MAX_KEYWORD_LENGTH := by
    rw [String.length_append] at hfit
    omega
  have hne : (s ++ "@euro").toList.head?.isSome = true := by
    show (s ++ "@euro").data.head?.isSome = true
    rw [String.data_append]
    cases s.data <;> rfl
  rw [matchLocaleCharset_fits _ hne hfit, stripEuro_append_euro]
  cases hs : s.toList with
  | nil =>
    have : s = "" := by
      cases s with
      | mk data => simp only [String.toList] at hs; subst hs; rfl
    subst this
    decide
  | cons x xs =>
    rw [matchLocaleCharset_fits s (by rw [hs]; rfl) hlen, stripEuro_of_not_suffix s hnot]

/-- A label that fits the buffer `source` (or is empty) and matches no row,
    directly or through a substitution: `getLocaleState` returns -1 and
    leaves the result objects and the registry as they are. -/
theorem getLocaleState_no_match (resolveLocale : String → Option String) (env : Env)
    (st : Registry) (out : LocaleOut) (locale label : String)
    (hlen : label.length < MAX_KEYWORD_LENGTH)
    (hdirect : findLocaleCharset (stripEuro label) = none)
    (hsubst : tryPrefixes (stripEuro label) prefixes = none) :
    getLocaleState resolveLocale env st out locale (some label) = some (-1, out, st) := by
  have hm : matchLocaleCharset label = some none := by
    unfold matchLocaleCharset
    split_ifs with h1 h2
    · omega
    · rw [hdirect, hsubst]
    · rfl
  unfold getLocaleState
  simp only [hm]

/-- The overrun behind C14: the label "C" followed by 78 spaces fits the
    buffer (79 characters) and resolves to the row "C", but with "@euro"
    appended `strcpy` runs over `source`. -/
theorem matchLocaleCharset_euro_overrun :
    (String.mk ('C' :: List.replicate 78 ' ')).length < MAX_KEYWORD_LENGTH ∧
    ¬ "@euro".toList <:+ (String.mk ('C' :: List.replicate 78 ' ')).toList ∧
    matchLocaleCharset (String.mk ('C' :: List.replicate 78 ' '))
      = some (some (0, ⟨"C", 0, 2, some "ASCII", none, some "ISO 8859-1", none, none⟩)) ∧
    matchLocaleCharset (String.mk ('C' :: List.replicate 78 ' ') ++ "@euro") = none := by
  decide

/-- The overrun behind C15: a label of 80 letters `x` matches no row,
    directly or through a substitution, and `getLocaleState` does not return
    -1 on it: `strcpy` runs over the buffer `source` of
    `matchLocaleCharset`. -/
theorem getLocaleState_overrun_long_label :
    findLocaleCharset (String.mk (List.replicate 80 'x')) = none ∧
    tryPrefixes (String.mk (List.replicate 80 'x')) prefixes = none ∧
    getLocaleState (fun _ => none) Env.identity Registry.initial
      ⟨0, 0, none, none, none, none, none⟩ "C" (some (String.mk (List.replicate 80 'x')))
      = none := by
  decide

/-! ### Where the cached charsets come from -/

/-- A charset that a lookup instantiates was built from a row of the fontenc
    table or from a row of `otherCharsets`. -/
theorem run_new_entry_form (env : Env) (st : Registry) (op : Lookup) (a : Nat)
    (c : CharsetRec) (hres : (op.run env st).1 = .heap a c)
    (hmiss : st.cachedCharsets.find? (fun e => op.matches e.2) = none) :
    (∃ row fc, fc ∈ st.fontencCharsets ∧ c = fontencCharsetOf fc row) ∨
    (∃ row oc aux, otherCharsets[row]? = some oc ∧ c = otherCharsetOf oc row aux) := by
  cases op with
  | getCharset f t =>
    have hc : getCachedCharset st f t none = none := hmiss
    simp only [Lookup.run] at hres
    unfold Luit.getCharset at hres
    rw [hc] at hres
    simp only [] at hres
    cases hf : getFontencCharset env st f t none with
    | mk res st1 =>
      rw [hf] at hres
      cases res with
      | none =>
        simp only [] at hres
        have := getUnknownCharset_isUnknown t
        rw [hres] at this
        cases this
      | some e =>
        obtain ⟨a1, c1⟩ := e
        simp only [] at hres
        cases hres
        obtain ⟨row, fc, m, r, hrow, _, _, _, _, hceq, _⟩ :=
          getFontencCharset_some env st f t none a c st1 hf
        exact Or.inl ⟨row, fc, findRow_mem _ _ _ _ hrow, hceq⟩
  | getCharsetByName name =>
    cases name with
    | none => cases hres
    | some n =>
      have hc : getCachedCharset st 0 0 (some n) = none := hmiss
      have hpair : getCharsetByName env st (some n)
          = (.heap a c, (getCharsetByName env st (some n)).2) :=
        Prod.ext hres rfl
      rcases getCharsetByName_heap_inv env st n a c _ hc hpair with
        ⟨row, fc, hrow, hceq⟩ | ⟨row, oc, aux, hrow, hceq⟩
      · exact Or.inl ⟨row, fc, findRow_mem _ _ _ _ hrow, hceq⟩
      · exact Or.inr ⟨row, oc, aux, (findRow_some _ _ _ _ hrow).1, hceq⟩

theorem run_cacheFromTables (env : Env) (st : Registry) (op : Lookup)
    (hnames : st.fontencCharsets.map (fun fc => fc.name)
      = fontencCharsets.map (fun fc => fc.name))
    (hinv : st.cacheFromTables) : (op.run env st).2.cacheFromTables := by
  unfold Registry.cacheFromTables at hinv ⊢
  rcases Lookup.run_cases env st op with ⟨a, c, _, hrun⟩ | ⟨_, _, hcache⟩ |
    ⟨hmiss, a, c, hres, hcache, _⟩
  · rw [hrun]; exact hinv
  · intro e he
    rw [hcache] at he
    exact hinv e he
  · intro e he
    rw [hcache] at he
    rcases List.mem_cons.mp he with h | h
    · subst h
      rcases run_new_entry_form env st op a c hres hmiss with
        ⟨row, fc, hfc, hceq⟩ | ⟨row, oc, aux, hoc, hceq⟩
      · left
        refine ⟨row, fc, hceq, ?_⟩
        rw [← hnames]
        exact List.mem_map_of_mem (fun r => r.name) hfc
      · exact Or.inr ⟨row, oc, aux, hoc, hceq⟩
    · exact hinv e h

theorem runLookups_cacheFromTables (env : Env) :
    ∀ (ops : List Lookup) (st : Registry),
      st.fontencCharsets.map (fun fc => fc.name) = fontencCharsets.map (fun fc => fc.name) →
      st.cacheFromTables → (runLookups env st ops).2.cacheFromTables := by
  intro ops
  induction ops with
  | nil => intro st _ h; exact h
  | cons op ops ih =>
    intro st hnames hinv
    rw [runLookups_cons]
    apply ih
    · have := runLookups_names env [op] st
      exact this.trans hnames
    · exact run_cacheFromTables env st op hnames hinv

theorem initial_cacheFromTables : Registry.initial.cacheFromTables := by
  intro e he
  cases he

theorem otherCharsets_unique_normal_names :
    ∀ o1 ∈ otherCharsets, ∀ o2 ∈ otherCharsets,
      normalize o1.name = normalize o2.name → o1 = o2 := by
  decide

/-- In a state that the lookups reach, the name of an "other" codec resolves
    to the Unknown (94) sentinel or to the T_OTHER charset of that codec. -/
theorem getCharsetByName_other_name (env : Env) (st : Registry)
    (hnames : st.fontencCharsets.map (fun fc => fc.name)
      = fontencCharsets.map (fun fc => fc.name))
    (hinv : st.cacheFromTables) (oc0 : OtherCharsetRec) (hoc0 : oc0 ∈ otherCharsets) :
    (getCharsetByName env st (some oc0.name)).1 = .Unknown94 ∨
    ∃ a row aux, otherCharsets[row]? = some oc0 ∧
      (getCharsetByName env st (some oc0.name)).1 = .heap a (otherCharsetOf oc0 row aux) := by
  unfold Registry.cacheFromTables at hinv
  have hfont : findRow (fontencMatch 0 0 (some oc0.name)) st.fontencCharsets = none := by
    rw [findRow_fontenc_byName_none]
    intro fc hfc _ heq
    have hmem : fc.name ∈ fontencCharsets.map (fun fc => fc.name) := by
      rw [← hnames]
      exact List.mem_map_of_mem (fun r => r.name) hfc
    exact fontenc_names_not_other fc.name hmem oc0 hoc0 heq.symm
  rw [getCharsetByName_some]
  cases hc : getCachedCharset st 0 0 (some oc0.name) with
  | some e =>
    obtain ⟨a, c⟩ := e
    obtain ⟨hmem, hmatch⟩ := getCachedCharset_some st 0 0 (some oc0.name) a c hc
    have hn := ((cachedMatch_byName oc0.name c).mp hmatch).1
    right
    rcases hinv (a, c) hmem with ⟨row, fc, hceq, hfc⟩ | ⟨row, oc, aux, hoc, hceq⟩
    · exfalso
      have hceq2 : c = fontencCharsetOf fc row := hceq
      rw [hceq2] at hn
      exact fontenc_names_not_other fc.name hfc oc0 hoc0 hn.symm
    · have hceq2 : c = otherCharsetOf oc row aux := hceq
      rw [hceq2] at hn
      have : oc = oc0 :=
        otherCharsets_unique_normal_names oc (List.getElem?_mem hoc) oc0 hoc0 hn
      subst this
      exact ⟨a, row, aux, hoc, by rw [hceq2]⟩
  | none =>
    simp only []
    rw [getFontencCharset_no_row env st 0 0 (some oc0.name) hfont]
    simp only []
    cases ho : getOtherCharset env st (some oc0.name) with
    | mk res st2 =>
      cases res with
      | none => left; rfl
      | some e =>
        obtain ⟨a, c⟩ := e
        obtain ⟨row, oc, hrow, _, hceq, _⟩ :=
          getOtherCharset_some env st (some oc0.name) a c st2 ho
        obtain ⟨h1, h2, _⟩ := findRow_some _ _ _ _ hrow
        have hn := (nameMatches_some oc.name oc0.name).mp h2
        have : oc = oc0 :=
          otherCharsets_unique_normal_names oc (List.getElem?_mem h1) oc0 hoc0 hn
        subst this
        right
        exact ⟨a, row, _, h1, by rw [hceq]⟩

/-! ### The `other` field of a locale row -/

theorem localeCharsets_other_rows :
    ∀ L ∈ localeCharsets,
      (L.other.isSome = true ↔ L.name ∈ ["gbk", "UTF-8", "SJIS", "Big5-HKSCS", "gb18030"]) ∧
      L.other.all (fun o => L.g0.isNone && L.g1.isNone && L.g2.isNone && L.g3.isNone &&
        otherCharsets.any (fun oc => oc.name == o)) = true := by
  decide

/-- The outcome of `getCharsetByName` when the name matches nothing cached
    and no fontenc row, and matches the row `oc` of `otherCharsets`: the
    codec's charset when the two allocations and `init` succeed, and the
    Unknown (94) sentinel when one of them fails. -/
theorem getCharsetByName_other_outcomes (env : Env) (st : Registry) (n : String) (row : Nat)
    (oc : OtherCharsetRec) (hcache : getCachedCharset st 0 0 (some n) = none)
    (hfont : findRow (fontencMatch 0 0 (some n)) st.fontencCharsets = none)
    (hrow : findRow (fun fc : OtherCharsetRec => nameMatches fc.name (some n)) otherCharsets
      = some (row, oc)) :
    (env.calloc st.brk = true → env.calloc (st.brk + 1) = true → env.init oc.init = true →
      getCharsetByName env st (some n) =
        (.heap st.brk (otherCharsetOf oc row (st.brk + 1)),
          cacheCharset { st with brk := st.brk + 2 } st.brk
            (otherCharsetOf oc row (st.brk + 1)))) ∧
    ((env.calloc st.brk = false ∨ env.calloc (st.brk + 1) = false ∨
        env.init oc.init = false) →
      (getCharsetByName env st (some n)).1 = .Unknown94 ∧
      (getCharsetByName env st (some n)).2.cachedCharsets = st.cachedCharsets) := by
  have hunf : getCharsetByName env st (some n) =
      if env.calloc st.brk = false then (.Unknown94, { st with brk := st.brk + 1 })
      else if env.calloc (st.brk + 1) = false then (.Unknown94, { st with brk := st.brk + 2 })
      else if env.init oc.init = false then (.Unknown94, { st with brk := st.brk + 2 })
      else (.heap st.brk (otherCharsetOf oc row (st.brk + 1)),
        cacheCharset { st with brk := st.brk + 2 } st.brk
          (otherCharsetOf oc row (st.brk + 1))) := by
    rw [getCharsetByName_some, hcache]
    simp only []
    rw [getFontencCharset_no_row env st 0 0 (some n) hfont]
    simp only []
    unfold getOtherCharset
    rw [hrow]
    simp only []
    split_ifs <;> rfl
  refine ⟨?_, ?_⟩
  · intro h1 h2 h3
    rw [hunf, if_neg (by rw [h1]; decide), if_neg (by rw [h2]; decide),
      if_neg (by rw [h3]; decide)]
  · intro h
    rw [hunf]
    split_ifs with k1 k2 k3
    · exact ⟨rfl, rfl⟩
    · exact ⟨rfl, rfl⟩
    · exact ⟨rfl, rfl⟩
    · rcases h with h | h | h
      · exact absurd h k1
      · exact absurd h k2
      · exact absurd h k3

/-- In a state that the lookups reach, the lookup of the name of the codec
    `oc0` is decided by the cache and by the codec alone: a cached charset of
    that name is the charset of `oc0`; and on a cache miss the scan of the
    fontenc table finds nothing and the scan of `otherCharsets` stops at
    `oc0`. -/
theorem other_name_scans (env : Env) (pre : List Lookup) (oc0 : OtherCharsetRec)
    (hoc0 : oc0 ∈ otherCharsets) :
    ∃ row, otherCharsets[row]? = some oc0 ∧
      findRow (fun fc : OtherCharsetRec => nameMatches fc.name (some oc0.name)) otherCharsets
        = some (row, oc0) ∧
      findRow (fontencMatch 0 0 (some oc0.name))
        (runLookups env Registry.initial pre).2.fontencCharsets = none ∧
      ∀ a c, getCachedCharset (runLookups env Registry.initial pre).2 0 0 (some oc0.name)
          = some (a, c) →
        ∃ aux, c = otherCharsetOf oc0 row aux := by
  have hnames : (runLookups env Registry.initial pre).2.fontencCharsets.map (fun fc => fc.name)
      = fontencCharsets.map (fun fc => fc.name) := runLookups_names env pre Registry.initial
  have hinv := runLookups_cacheFromTables env pre Registry.initial rfl initial_cacheFromTables
  unfold Registry.cacheFromTables at hinv
  have hself : nameMatches oc0.name (some oc0.name) = true :=
    (nameMatches_some oc0.name oc0.name).mpr rfl
  have hsome := findRow_isSome_of_mem
    (fun fc : OtherCharsetRec => nameMatches fc.name (some oc0.name)) otherCharsets oc0 hoc0 hself
  cases hrow : findRow (fun fc : OtherCharsetRec => nameMatches fc.name (some oc0.name))
      otherCharsets with
  | none =>
    obtain ⟨k, y, hky⟩ := hsome
    rw [hrow] at hky
    cases hky
  | some q =>
    obtain ⟨row, oc⟩ := q
    obtain ⟨h1, h2, _⟩ := findRow_some _ _ _ _ hrow
    have hn := (nameMatches_some oc.name oc0.name).mp h2
    have heq : oc = oc0 :=
      otherCharsets_unique_normal_names oc (List.getElem?_mem h1) oc0 hoc0 hn
    subst heq
    refine ⟨row, h1, rfl, ?_, ?_⟩
    · rw [findRow_fontenc_byName_none]
      intro fc hfc _ heq
      have hmem : fc.name ∈ fontencCharsets.map (fun fc => fc.name) := by
        rw [← hnames]
        exact List.mem_map_of_mem (fun r => r.name) hfc
      exact fontenc_names_not_other fc.name hmem oc (List.getElem?_mem h1) heq.symm
    · intro a c hc
      obtain ⟨hmem, hmatch⟩ := getCachedCharset_some _ 0 0 (some oc.name) a c hc
      have hcn := ((cachedMatch_byName oc.name c).mp hmatch).1
      rcases hinv (a, c) hmem with ⟨row1, fc, hceq, hfc⟩ | ⟨row1, oc1, aux, hoc1, hceq⟩
      · exfalso
        have hceq2 : c = fontencCharsetOf fc row1 := hceq
        rw [hceq2] at hcn
        exact fontenc_names_not_other fc.name hfc oc (List.getElem?_mem h1) hcn.symm
      · have hceq2 : c = otherCharsetOf oc1 row1 aux := hceq
        rw [hceq2] at hcn
        have h11 : oc1 = oc :=
          otherCharsets_unique_normal_names oc1 (List.getElem?_mem hoc1) oc
            (List.getElem?_mem h1) hcn
        subst h11
        have hr : row1 = row := by
          have hall : ∀ (i j : Nat) (x : OtherCharsetRec), otherCharsets[i]? = some x →
              otherCharsets[j]? = some x → i = j := by
            intro i j x hi hj
            have hi2 := (List.getElem?_eq_some_iff.mp hi).1
            have hj2 := (List.getElem?_eq_some_iff.mp hj).1
            have hlen : otherCharsets.length = 5 := rfl
            rw [hlen] at hi2 hj2
            interval_cases i <;> interval_cases j <;> first
              | rfl
              | (exfalso
                 rw [← hj] at hi
                 revert hi
                 decide)
          exact hall row1 row oc1 hoc1 h1
        subst hr
        exact ⟨aux, hceq2⟩

/-- C16, as the code has it: in every state that lookups reach from the
    empty cache and for every row `L` of the locale table, `getLocaleState`
    on the name of `L` returns 0 and: `other` is NULL when `L` declares no
    `other`; when `L` declares one (the rows gbk, UTF-8, SJIS, Big5-HKSCS and
    gb18030, and only they) `other` is the pointer that `getCharsetByName`
    returns for that name, which is not NULL: the cached T_OTHER charset of
    the codec of that name when it was instantiated before; else the
    charset newly instantiated from the codec when the two allocations and
    the codec's `init` succeed; and the Unknown (94) sentinel when it is not
    cached and an allocation or `init` fails.  A bank whose name the row
    leaves empty is the Unknown (94) sentinel, and no bank is NULL. -/
theorem getLocaleState_other_field (resolveLocale : String → Option String) (env : Env)
    (pre : List Lookup) (out : LocaleOut) (locale : String) (L : LocaleCharsetRec)
    (hL : L ∈ localeCharsets) :
    ∃ (res : LocaleOut) (st1 : Registry),
      getLocaleState resolveLocale env (runLookups env Registry.initial pre).2 out locale
        (some L.name) = some (0, res, st1) ∧
      (L.other = none → res.other = none) ∧
      (∀ o, L.other = some o → ∃ p, res.other = some p ∧
        p = (getCharsetByName env (runLookups env Registry.initial pre).2 (some o)).1 ∧
        (p = .Unknown94 ∨
          ∃ a row aux oc, otherCharsets[row]? = some oc ∧ oc.name = o ∧
            p = .heap a (otherCharsetOf oc row aux) ∧
            (otherCharsetOf oc row aux).type = T_OTHER ∧
            (otherCharsetOf oc row aux).name = o)) ∧
      (L.other.isSome = true ↔ L.name ∈ ["gbk", "UTF-8", "SJIS", "Big5-HKSCS", "gb18030"]) ∧
      (L.g0 = none → res.g0 = some .Unknown94) ∧
      (L.g1 = none → res.g1 = some .Unknown94) ∧
      (L.g2 = none → res.g2 = some .Unknown94) ∧
      (L.g3 = none → res.g3 = some .Unknown94) ∧
      (res.g0 ≠ none ∧ res.g1 ≠ none ∧ res.g2 ≠ none ∧ res.g3 ≠ none) ∧
      (∀ o, L.other = some o → ∃ row oc, otherCharsets[row]? = some oc ∧ oc.name = o ∧
        (∀ a c, getCachedCharset (runLookups env Registry.initial pre).2 0 0 (some o)
            = some (a, c) →
          res.other = some (.heap a c) ∧ ∃ aux, c = otherCharsetOf oc row aux) ∧
        (getCachedCharset (runLookups env Registry.initial pre).2 0 0 (some o) = none →
          (env.calloc (runLookups env Registry.initial pre).2.brk = true →
            env.calloc ((runLookups env Registry.initial pre).2.brk + 1) = true →
            env.init oc.init = true →
            res.other = some (.heap (runLookups env Registry.initial pre).2.brk
              (otherCharsetOf oc row ((runLookups env Registry.initial pre).2.brk + 1)))) ∧
          ((env.calloc (runLookups env Registry.initial pre).2.brk = false ∨
              env.calloc ((runLookups env Registry.initial pre).2.brk + 1) = false ∨
              env.init oc.init = false) →
            res.other = some .Unknown94))) := by
  obtain ⟨k, hm⟩ := matchLocaleCharset_of_row L hL
  obtain ⟨hiff, hall⟩ := localeCharsets_other_rows L hL
  have hnames := runLookups_names env pre Registry.initial
  have hinv := runLookups_cacheFromTables env pre Registry.initial rfl initial_cacheFromTables
  rw [getLocaleState_of_match resolveLocale env _ out locale L.name k L hm]
  cases ho : L.other with
  | none =>
    refine ⟨_, _, rfl, fun _ => rfl, ?_, ?_, ?_, ?_, ?_, ?_, ?_, ?_⟩
    · intro o h; cases h
    · rw [← ho]; exact hiff
    · intro h; show some (getCharsetByName env _ L.g0).1 = _; rw [h]; rfl
    · intro h; show some (getCharsetByName env _ L.g1).1 = _; rw [h]; rfl
    · intro h; show some (getCharsetByName env _ L.g2).1 = _; rw [h]; rfl
    · intro h; show some (getCharsetByName env _ L.g3).1 = _; rw [h]; rfl
    · exact ⟨by simp, by simp, by simp, by simp⟩
    · intro o h; cases h
  | some o =>
    rw [ho] at hall
    simp only [Option.all_some, Bool.and_eq_true, Option.isNone_iff_eq_none,
      List.any_eq_true, beq_iff_eq] at hall
    obtain ⟨⟨⟨⟨h0, h1⟩, h2⟩, h3⟩, oc, hoc, hocn⟩ := hall
    refine ⟨_, _, rfl, ?_, ?_, ?_, ?_, ?_, ?_, ?_, ?_, ?_⟩
    · intro h; cases h
    · intro o1 ho1
      cases ho1
      refine ⟨_, rfl, ?_, ?_⟩
      · show (getCharsetByName env _ (some o)).1 = _
        rw [h0, h1, h2, h3]
        rfl
      · show (getCharsetByName env _ (some o)).1 = .Unknown94 ∨ _
        rw [h0, h1, h2, h3]
        show (getCharsetByName env (runLookups env Registry.initial pre).2 (some o)).1 = _ ∨ _
        rw [← hocn]
        rcases getCharsetByName_other_name env _ hnames hinv oc hoc with h | ⟨a, row, aux, hr, hp⟩
        · exact Or.inl h
        · exact Or.inr ⟨a, row, aux, oc, hr, rfl, hp, rfl, rfl⟩
    · rw [← ho]; exact hiff
    · intro h; show some (getCharsetByName env _ L.g0).1 = _; rw [h]; rfl
    · intro h; show some (getCharsetByName env _ L.g1).1 = _; rw [h]; rfl
    · intro h; show some (getCharsetByName env _ L.g2).1 = _; rw [h]; rfl
    · intro h; show some (getCharsetByName env _ L.g3).1 = _; rw [h]; rfl
    · exact ⟨by simp, by simp, by simp, by simp⟩
    · intro o1 ho1
      cases ho1
      obtain ⟨row, hr1, hfind, hfont, hcached⟩ := other_name_scans env pre oc hoc
      rw [hocn] at hfind hfont hcached
      refine ⟨row, oc, hr1, hocn, ?_, ?_⟩
      · intro a c hc
        refine ⟨?_, hcached a c hc⟩
        show some (getCharsetByName env _ (some o)).1 = _
        rw [h0, h1, h2, h3]
        show some (getCharsetByName env (runLookups env Registry.initial pre).2 (some o)).1 = _
        rw [getCharsetByName_some, hc]
      · intro hc
        obtain ⟨hok, hfail⟩ := getCharsetByName_other_outcomes env
          (runLookups env Registry.initial pre).2 o row oc hc hfont hfind
        refine ⟨?_, ?_⟩
        · intro k1 k2 k3
          show some (getCharsetByName env _ (some o)).1 = _
          rw [h0, h1, h2, h3]
          show some (getCharsetByName env (runLookups env Registry.initial pre).2 (some o)).1
            = _
          rw [hok k1 k2 k3]
        · intro hf
          show some (getCharsetByName env _ (some o)).1 = _
          rw [h0, h1, h2, h3]
          show some (getCharsetByName env (runLookups env Registry.initial pre).2 (some o)).1
            = _
          rw [(hfail hf).1]

theorem getLocaleState_other_field_witness :
    utf8Row ∈ localeCharsets ∧
    getLocaleState (fun _ => none) Env.identity (runLookups Env.identity Registry.initial []).2
        ⟨0, 0, none, none, none, none, none⟩ "en_US.UTF-8" (some utf8Row.name)
      = some (0,
          ⟨0, 1, some .Unknown94, some .Unknown94, some .Unknown94, some .Unknown94,
            some (.heap 0 (otherCharsetOf
              ⟨"UTF-8", "init_utf8", "mapping_utf8", "reverse_utf8", "stack_utf8"⟩ 1 1))⟩,
          (getCharsetByName Env.identity Registry.initial (some "UTF-8")).2) ∧
    ∃ (res : LocaleOut) (st1 : Registry),
      getLocaleState (fun _ => none) Env.identity
        (runLookups Env.identity Registry.initial []).2
        ⟨0, 0, none, none, none, none, none⟩ "en_US.UTF-8" (some utf8Row.name)
        = some (0, res, st1) ∧
      (utf8Row.other = none → res.other = none) :=
  ⟨by decide, by decide,
    (getLocaleState_other_field (fun _ => none) Env.identity []
      ⟨0, 0, none, none, none, none, none⟩ "en_US.UTF-8" utf8Row (by decide)).imp
      (fun _ h => h.imp (fun _ h2 => ⟨h2.1, h2.2.1⟩))⟩

/-- When the codec `init` fails, the `other` of the row "UTF-8" is the
    Unknown (94) sentinel (not NULL, and not a T_OTHER charset). -/
theorem getLocaleState_other_init_fails :
    getLocaleState (fun _ => none) Env.initFails Registry.initial
        ⟨0, 0, none, none, none, none, none⟩ "en_US.UTF-8" (some "UTF-8")
      = some (0,
          ⟨0, 1, some .Unknown94, some .Unknown94, some .Unknown94, some .Unknown94,
            some .Unknown94⟩,
          ⟨fontencCharsets, [], 2⟩) := by
  decide

/-! ### Sentinels and aliases -/

/-- C17: for each of the four types T_94, T_96, T_9494, T_9696,
    `getUnknownCharset(type)` returns a sentinel that carries that type tag,
    whose `recode` is the identity and whose `reverse` returns -1 for every
    Unicode value. -/
theorem getUnknownCharset_sentinel (t : Int)
    (ht : t = T_94 ∨ t = T_96 ∨ t = T_9494 ∨ t = T_9696) :
    (getUnknownCharset t).isUnknown = true ∧
    (getUnknownCharset t).deref.type = t ∧
    (∀ (env : Env) (tbl : List FontencCharsetRec) (n : Nat),
      (getUnknownCharset t).deref.callRecode env tbl n = some n) ∧
    (∀ (env : Env) (tbl : List FontencCharsetRec) (u : Nat),
      (getUnknownCharset t).deref.callReverse env tbl u = some (-1)) := by
  rcases ht with h | h | h | h <;> subst h <;>
    exact ⟨rfl, rfl, fun _ _ _ => rfl, fun _ _ _ => rfl⟩

theorem getUnknownCharset_sentinel_witness :
    (getUnknownCharset T_96).isUnknown = true ∧
    (getUnknownCharset T_96).deref.type = T_96 ∧
    (getUnknownCharset T_96).deref.callRecode Env.identity fontencCharsets 0x41 = some 0x41 ∧
    (getUnknownCharset T_96).deref.callReverse Env.identity fontencCharsets 0xE9 = some (-1) :=
  ⟨(getUnknownCharset_sentinel T_96 (Or.inr (Or.inl rfl))).1,
    (getUnknownCharset_sentinel T_96 (Or.inr (Or.inl rfl))).2.1,
    (getUnknownCharset_sentinel T_96 (Or.inr (Or.inl rfl))).2.2.1 Env.identity fontencCharsets
      0x41,
    (getUnknownCharset_sentinel T_96 (Or.inr (Or.inl rfl))).2.2.2 Env.identity fontencCharsets
      0xE9⟩

/-- C18: from the empty cache, with every allocation succeeding and the
    external encoding iso8859-11 available (forward map `m`, reverse map
    `r`), `getCharsetByName("ISO 8859-11")` and then
    `getCharsetByName("TIS 620")` return two charsets that are not
    sentinels, carrying the name asked for, type T_96 and final byte 'T';
    their rows (16 and 17) name the same external encoding iso8859-11 with
    shift 0x80 and hold the same two maps, so the two charsets recode and
    reverse identically.  "TIS 620" asked first resolves to the same
    charset. -/
theorem getCharsetByName_thai_aliases (env : Env) (m : FontMapPtr) (r : FontMapReversePtr)
    (hc : ∀ k, env.calloc k = true) (hm : env.LookupMapping "iso8859-11" = some m)
    (hr : env.LookupReverse m = some r) :
    (getCharsetByName env Registry.initial (some "ISO 8859-11")).1
      = .heap 0 iso885911Charset ∧
    (getCharsetByName env (getCharsetByName env Registry.initial (some "ISO 8859-11")).2
      (some "TIS 620")).1 = .heap 1 tis620Charset ∧
    (getCharsetByName env Registry.initial (some "TIS 620")).1 = .heap 0 tis620Charset ∧
    (iso885911Charset.name = "ISO 8859-11" ∧ iso885911Charset.type = T_96 ∧
      iso885911Charset.final = 'T'.toNat) ∧
    (tis620Charset.name = "TIS 620" ∧ tis620Charset.type = T_96 ∧
      tis620Charset.final = 'T'.toNat) ∧
    (getCharsetByName env (getCharsetByName env Registry.initial (some "ISO 8859-11")).2
      (some "TIS 620")).2.fontencCharsets[16]?
        = some ⟨"ISO 8859-11", T_96, 'T'.toNat, "iso8859-11", 0x80, some m, some r⟩ ∧
    (getCharsetByName env (getCharsetByName env Registry.initial (some "ISO 8859-11")).2
      (some "TIS 620")).2.fontencCharsets[17]?
        = some ⟨"TIS 620", T_96, 'T'.toNat, "iso8859-11", 0x80, some m, some r⟩ ∧
    (∀ n : Nat,
      iso885911Charset.callRecode env
        (getCharsetByName env (getCharsetByName env Registry.initial (some "ISO 8859-11")).2
          (some "TIS 620")).2.fontencCharsets n
      = tis620Charset.callRecode env
        (getCharsetByName env (getCharsetByName env Registry.initial (some "ISO 8859-11")).2
          (some "TIS 620")).2.fontencCharsets n) ∧
    (∀ u : Nat,
      iso885911Charset.callReverse env
        (getCharsetByName env (getCharsetByName env Registry.initial (some "ISO 8859-11")).2
          (some "TIS 620")).2.fontencCharsets u
      = tis620Charset.callReverse env
        (getCharsetByName env (getCharsetByName env Registry.initial (some "ISO 8859-11")).2
          (some "TIS 620")).2.fontencCharsets u) := by
  have e1 : getCharsetByName env Registry.initial (some "ISO 8859-11")
      = (.heap 0 iso885911Charset,
          cacheCharset { Registry.initial with
              brk := 1,
              fontencCharsets := fontencCharsets.set 16
                ⟨"ISO 8859-11", T_96, 'T'.toNat, "iso8859-11", 0x80, some m, some r⟩ }
            0 iso885911Charset) := by
    rw [getCharsetByName_some]
    have h0 : getCachedCharset Registry.initial 0 0 (some "ISO 8859-11") = none := rfl
    rw [h0]
    simp only []
    rw [getFontencCharset_ok env Registry.initial 0 0 (some "ISO 8859-11") 16
      ⟨"ISO 8859-11", T_96, 'T'.toNat, "iso8859-11", 0x80, none, none⟩ m r (by decide)
      (hc _) hm hr]
    rfl
  have e3 : getCharsetByName env Registry.initial (some "TIS 620")
      = (.heap 0 tis620Charset,
          cacheCharset { Registry.initial with
              brk := 1,
              fontencCharsets := fontencCharsets.set 17
                ⟨"TIS 620", T_96, 'T'.toNat, "iso8859-11", 0x80, some m, some r⟩ }
            0 tis620Charset) := by
    rw [getCharsetByName_some]
    have h0 : getCachedCharset Registry.initial 0 0 (some "TIS 620") = none := rfl
    rw [h0]
    simp only []
    rw [getFontencCharset_ok env Registry.initial 0 0 (some "TIS 620") 17
      ⟨"TIS 620", T_96, 'T'.toNat, "iso8859-11", 0x80, none, none⟩ m r (by decide)
      (hc _) hm hr]
    rfl
  have e2 : getCharsetByName env
      (cacheCharset { Registry.initial with
              brk := 1,
              fontencCharsets := fontencCharsets.set 16
                ⟨"ISO 8859-11", T_96, 'T'.toNat, "iso8859-11", 0x80, some m, some r⟩ }
            0 iso885911Charset) (some "TIS 620")
      = (.heap 1 tis620Charset,
          cacheCharset
            { fontencCharsets := (fontencCharsets.set 16
                ⟨"ISO 8859-11", T_96, 'T'.toNat, "iso8859-11", 0x80, some m, some r⟩).set 17
                ⟨"TIS 620", T_96, 'T'.toNat, "iso8859-11", 0x80, some m, some r⟩,
              cachedCharsets := [(0, iso885911Charset)],
              brk := 2 }
            1 tis620Charset) := by
    rw [getCharsetByName_some]
    have h0 : getCachedCharset
        (cacheCharset { Registry.initial with
              brk := 1,
              fontencCharsets := fontencCharsets.set 16
                ⟨"ISO 8859-11", T_96, 'T'.toNat, "iso8859-11", 0x80, some m, some r⟩ }
            0 iso885911Charset) 0 0 (some "TIS 620") = none := by
      rfl
    rw [h0]
    simp only []
    rw [getFontencCharset_ok env _ 0 0 (some "TIS 620") 17
      ⟨"TIS 620", T_96, 'T'.toNat, "iso8859-11", 0x80, none, none⟩ m r (by rfl)
      (hc _) hm hr]
    rfl
  rw [e1]
  simp only []
  rw [e2, e3]
  refine ⟨?_, ?_, ?_, ⟨?_, ?_, ?_⟩, ⟨?_, ?_, ?_⟩, ?_, ?_, ?_, ?_⟩ <;>
    first
    | trivial
    | rfl
    | (intro n; rfl)

theorem getCharsetByName_thai_aliases_witness :
    (∀ k, Env.identity.calloc k = true) ∧ Env.identity.LookupMapping "iso8859-11" = some 1 ∧
    Env.identity.LookupReverse 1 = some 1 ∧
    (getCharsetByName Env.identity Registry.initial (some "ISO 8859-11")).1
      = .heap 0 iso885911Charset ∧
    (getCharsetByName Env.identity
      (getCharsetByName Env.identity Registry.initial (some "ISO 8859-11")).2
      (some "TIS 620")).1 = .heap 1 tis620Charset :=
  ⟨fun _ => rfl, rfl, rfl,
    (getCharsetByName_thai_aliases Env.identity 1 1 (fun _ => rfl) rfl rfl).1,
    (getCharsetByName_thai_aliases Env.identity 1 1 (fun _ => rfl) rfl rfl).2.1⟩

/-! ### Option parsing -/

/-- The slip behind C19: the branch for `+kssgr` tests `argv[1]`, not
    `argv[i]`.  When `argv[1]` is another string, an argument `+kssgr` met
    in option position is not accepted: the iteration ends in the branch
    for unknown options, `ExitProgram(EXIT_FAILURE)`, and the flag IF_SSGR
    is not cleared.  So `luit -v +kssgr` ends the program with status 1,
    while `luit +kssgr` clears the flag. -/
theorem parseOptions_kssgr_not_first :
    (∀ (env : Env) (openLog : String → Int) (argv : List String) (i : Nat) (s : Globals),
      argv.getD i "" = "+kssgr" → argv.getD 1 "" ≠ "+kssgr" →
      parseStep env openLog argv i s = .exit EXIT_FAILURE s) ∧
    parseOptions Env.identity (fun _ => 3) ["luit", "-v", "+kssgr"] Globals.sample
      = .exits 1 { Globals.sample with verbose := 1 } ∧
    parseOptions Env.identity (fun _ => 3) ["luit", "+kssgr"] Globals.sample
      = .returns 2 { Globals.sample with inputState :=
          { Globals.sample.inputState with
            inputFlags := clearFlag Globals.sample.inputState.inputFlags IF_SSGR } } := by
  refine ⟨?_, by decide, by decide⟩
  intro env openLog argv i s ha h1
  unfold parseStep
  simp only [ha]
  rw [if_neg (by decide), if_neg (by decide), if_neg (by decide), if_neg (by decide),
    if_neg (by decide), if_neg (by decide), if_neg (by decide), if_neg (by decide),
    if_neg (by decide), if_neg (by decide), if_neg (by decide), if_neg (by decide),
    if_neg (by decide), if_neg (by decide), if_neg (by decide), if_neg (by decide),
    if_neg (by decide), if_neg h1]
  repeat rw [if_neg (by decide)]

/-- The slip behind C20, the same as for C19: when `argv[1]` is `+kssgr`,
    every argument that reaches the branch for `+kssgr` is accepted as if it
    were `+kssgr`.  So `luit +kssgr -bogus` accepts the unknown option
    `-bogus`, and `luit +kssgr -g0` accepts `-g0` without its argument: both
    return 3 and report nothing. -/
theorem parseOptions_accepts_after_kssgr :
    parseOptions Env.identity (fun _ => 3) ["luit", "+kssgr", "-bogus"] Globals.sample
      = .returns 3 { Globals.sample with inputState :=
          { Globals.sample.inputState with
            inputFlags := clearFlag Globals.sample.inputState.inputFlags IF_SSGR } } ∧
    parseOptions Env.identity (fun _ => 3) ["luit", "+kssgr", "-g0"] Globals.sample
      = .returns 3 { Globals.sample with inputState :=
          { Globals.sample.inputState with
            inputFlags := clearFlag Globals.sample.inputState.inputFlags IF_SSGR } } ∧
    parseOptions Env.identity (fun _ => 3) ["luit", "-bogus"] Globals.sample
      = .exits EXIT_FAILURE Globals.sample ∧
    parseOptions Env.identity (fun _ => 3) ["luit", "-g0"] Globals.sample
      = .exits 1 Globals.sample := by
  decide

/-! ### The ranges of T_94 and T_9494 results -/

/-- C25, as the code has it: `FontencCharsetReverse` validates with the
    macro `IS_GL`, the range `0x20..0x7F`.  For a T_94 charset a result `r`
    other than -1 lies in `0x20..0x7F`, and for a T_9494 charset each of the
    two bytes `r >> 8` and `r & 0xFF` of a result other than -1 lies in
    `0x20..0x7F`. -/
theorem FontencCharsetReverse_T94_T9494_range (env : Env) (self : CharsetRec)
    (fc : FontencCharsetRec) (u : Nat) (r : Int)
    (hres : FontencCharsetReverse env u self fc = some r) (hne : r ≠ -1) :
    (self.type = T_94 → 0x20 ≤ r ∧ r ≤ 0x7F) ∧
    (self.type = T_9494 →
      0 ≤ r ∧ (0x20 ≤ r.toNat >>> 8 ∧ r.toNat >>> 8 ≤ 0x7F) ∧
      (0x20 ≤ r.toNat &&& 0xFF ∧ r.toNat &&& 0xFF ≤ 0x7F)) := by
  obtain ⟨rev, hr⟩ := FontencCharsetReverse_reverse_some env u self fc r hres
  refine ⟨fun ht => ?_, fun ht => ?_⟩
  · rw [FontencCharsetReverse_T94 env u self fc rev hr (Or.inl ht)] at hres
    obtain ⟨_, h2, h3⟩ := some_ite_cases hres hne
    have := (IS_GL_iff _).mp h2
    rw [toInt_small _ (by omega)] at h3
    omega
  · rw [FontencCharsetReverse_T9494 env u self fc rev hr (Or.inl ht)] at hres
    obtain ⟨_, h2, h3⟩ := some_ite_cases hres hne
    have hb := Bool.and_eq_true_iff.mp h2
    have h8 := (IS_GL_iff _).mp hb.1
    have hl := (IS_GL_iff _).mp hb.2
    have h8a := h8
    rw [shr_8] at h8a
    rw [toInt_small _ (by omega)] at h3
    subst h3
    rw [Int.toNat_ofNat]
    exact ⟨Int.ofNat_nonneg _, ⟨h8.1, by omega⟩, ⟨hl.1, by omega⟩⟩

theorem FontencCharsetReverse_T94_T9494_range_witness :
    FontencCharsetReverse Env.identity 0x41 asciiCharset asciiRow = some 0x41 ∧
    (0x41 : Int) ≠ -1 ∧ asciiCharset.type = T_94 ∧
    ((0x20 : Int) ≤ 0x41 ∧ (0x41 : Int) ≤ 0x7F) :=
  ⟨by decide, by decide, rfl,
    (FontencCharsetReverse_T94_T9494_range Env.identity asciiCharset asciiRow 0x41 0x41
      (by decide) (by decide)).1 rfl⟩

/-- The results 0x20 and 0x7F of a T_94 charset, and the bytes 0x20 and 0x7F
    of a T_9494 charset, pass the validation: with the identity as reverse
    map, the ASCII charset reverses U+0020 to 0x20 and U+007F to 0x7F, and
    the T_9494 charset "GB 2312" returns 0x2120 and 0x7F21, none of which has
    all its bytes in `0x21..0x7E`. -/
theorem FontencCharsetReverse_T94_space_and_del :
    asciiCharset.type = T_94 ∧ gb2312Charset.type = T_9494 ∧
    FontencCharsetReverse Env.identity 0x20 asciiCharset asciiRow = some 0x20 ∧
    FontencCharsetReverse Env.identity 0x7F asciiCharset asciiRow = some 0x7F ∧
    FontencCharsetReverse Env.identity 0x2120 gb2312Charset gb2312Row = some 0x2120 ∧
    FontencCharsetReverse Env.identity 0x7F21 gb2312Charset gb2312Row = some 0x7F21 ∧
    ¬ ((0x21 : Int) ≤ 0x20 ∧ (0x20 : Int) ≤ 0x7E) ∧
    ¬ ((0x21 : Int) ≤ 0x7F ∧ (0x7F : Int) ≤ 0x7E) ∧
    (0x2120 &&& 0xFF = 0x20 ∧ 0x7F21 >>> 8 = 0x7F) := by
  decide

/-! ### Names that compare equal -/

theorem nameMatches_congr (a b : String) (hab : compare a b = 0) (cname : String) :
    nameMatches cname (some a) = nameMatches cname (some b) := by
  have hn : normalize a = normalize b := (compare_eq_zero_iff a b).mp hab
  rw [Bool.eq_iff_iff, nameMatches_some, nameMatches_some, hn]

theorem cachedMatch_congr (a b : String) (hab : compare a b = 0) (f : Nat) (t : Int) :
    cachedMatch f t (some a) = cachedMatch f t (some b) := by
  funext c
  unfold cachedMatch
  rw [nameMatches_congr a b hab]

theorem fontencMatch_congr (a b : String) (hab : compare a b = 0) (f : Nat) (t : Int) :
    fontencMatch f t (some a) = fontencMatch f t (some b) := by
  funext fc
  unfold fontencMatch
  rw [nameMatches_congr a b hab]

theorem getCachedCharset_congr (st : Registry) (a b : String) (hab : compare a b = 0)
    (f : Nat) (t : Int) :
    getCachedCharset st f t (some a) = getCachedCharset st f t (some b) := by
  unfold getCachedCharset
  rw [cachedMatch_congr a b hab]

theorem getFontencCharset_congr (env : Env) (st : Registry) (a b : String)
    (hab : compare a b = 0) (f : Nat) (t : Int) :
    getFontencCharset env st f t (some a) = getFontencCharset env st f t (some b) := by
  unfold getFontencCharset
  rw [fontencMatch_congr a b hab]

theorem getOtherCharset_congr (env : Env) (st : Registry) (a b : String)
    (hab : compare a b = 0) :
    getOtherCharset env st (some a) = getOtherCharset env st (some b) := by
  unfold getOtherCharset
  have : (fun fc : OtherCharsetRec => nameMatches fc.name (some a))
      = (fun fc : OtherCharsetRec => nameMatches fc.name (some b)) := by
    funext fc
    exact nameMatches_congr a b hab fc.name
  rw [this]

/-- C28: for every registry state `st`, every provider `env` and any two
    names `a` and `b` with `compare(a, b) = 0`, the calls
    `getCharsetByName(a)` and `getCharsetByName(b)`, each made in the state
    `st`, return the same pointer and end in the same state (the same cache,
    the same rows marked T_FAILED, the same allocations); the three scans of
    the cache, of the fontenc table and of the "other" table give the same
    result for `a` and for `b`. -/
theorem getCharsetByName_congr (env : Env) (st : Registry) (a b : String)
    (hab : compare a b = 0) :
    getCharsetByName env st (some a) = getCharsetByName env st (some b) ∧
    getCachedCharset st 0 0 (some a) = getCachedCharset st 0 0 (some b) ∧
    getFontencCharset env st 0 0 (some a) = getFontencCharset env st 0 0 (some b) ∧
    getOtherCharset env st (some a) = getOtherCharset env st (some b) := by
  refine ⟨?_, getCachedCharset_congr st a b hab 0 0, getFontencCharset_congr env st a b hab 0 0,
    getOtherCharset_congr env st a b hab⟩
  rw [getCharsetByName_some, getCharsetByName_some, getCachedCharset_congr st a b hab,
    getFontencCharset_congr env st a b hab]
  cases getCachedCharset st 0 0 (some b) with
  | some e => rfl
  | none =>
    simp only []
    cases hf : getFontencCharset env st 0 0 (some b) with
    | mk res st1 =>
      cases res with
      | some e => rfl
      | none =>
        simp only []
        rw [getOtherCharset_congr env st1 a b hab]

theorem getCharsetByName_congr_witness :
    compare "ISO 8859-1" "iso_8859-1" = 0 ∧
    getCharsetByName Env.identity Registry.initial (some "ISO 8859-1")
      = getCharsetByName Env.identity Registry.initial (some "iso_8859-1") ∧
    (getCharsetByName Env.identity Registry.initial (some "iso_8859-1")).1
      = .heap 0 latin1Charset :=
  ⟨by decide, (getCharsetByName_congr Env.identity Registry.initial "ISO 8859-1" "iso_8859-1"
    (by decide)).1, by decide⟩

/-! ### The sentinel for the other types -/

/-- C30: for every requested type `t` other than T_94, T_96, T_9494 and
    T_9696 (so for T_128, T_94192, T_OTHER, T_FAILED and every other value),
    `getUnknownCharset(t)` returns the Unknown (94) sentinel, whose type tag
    is T_94 and not `t`; and `getCharset(f, t)`, when neither the cache nor
    `getFontencCharset` gives a charset, returns that sentinel. -/
theorem getUnknownCharset_other_types (t : Int)
    (ht : t ≠ T_94 ∧ t ≠ T_96 ∧ t ≠ T_9494 ∧ t ≠ T_9696) :
    getUnknownCharset t = .Unknown94 ∧
    (getUnknownCharset t).deref = Unknown94Charset ∧
    (getUnknownCharset t).deref.type = T_94 ∧
    (getUnknownCharset t).deref.type ≠ t ∧
    (∀ (env : Env) (st : Registry) (f : Nat),
      getCachedCharset st f t none = none →
      (getFontencCharset env st f t none).1 = none →
      (getCharset env st f t).1 = .Unknown94 ∧
      (getCharset env st f t).1.deref.type = T_94) := by
  obtain ⟨h1, h2, h3, h4⟩ := ht
  have hu : getUnknownCharset t = .Unknown94 := by
    unfold getUnknownCharset
    rw [if_neg h1, if_neg h2, if_neg h3, if_neg h4]
  refine ⟨hu, by rw [hu]; rfl, by rw [hu]; rfl, by rw [hu]; exact fun h => h1 h.symm, ?_⟩
  intro env st f hc hf
  have hg : (getCharset env st f t).1 = .Unknown94 := by
    unfold getCharset
    rw [hc]
    simp only []
    cases hfe : getFontencCharset env st f t none with
    | mk res st1 =>
      rw [hfe] at hf
      cases res with
      | some e => cases hf
      | none => exact hu
  exact ⟨hg, by rw [hg]; rfl⟩

theorem getUnknownCharset_other_types_witness :
    (T_128 ≠ T_94 ∧ T_128 ≠ T_96 ∧ T_128 ≠ T_9494 ∧ T_128 ≠ T_9696) ∧
    getUnknownCharset T_128 = .Unknown94 ∧
    (getCharset Env.withoutKoi8r Registry.initial 0 T_128).1 = .Unknown94 ∧
    getUnknownCharset T_94192 = .Unknown94 ∧ getUnknownCharset T_OTHER = .Unknown94 ∧
    getUnknownCharset T_FAILED = .Unknown94 ∧ getUnknownCharset 99 = .Unknown94 :=
  ⟨by decide, (getUnknownCharset_other_types T_128 (by decide)).1,
    ((getUnknownCharset_other_types T_128 (by decide)).2.2.2.2 Env.withoutKoi8r
      Registry.initial 0 (by decide) (by decide)).1,
    by decide, by decide, by decide, by decide⟩

/-! ### Every row is instantiated at most once -/

theorem initial_rowsOnce : Registry.initial.rowsOnce := by
  refine ⟨by decide, ?_, List.nodup_nil⟩
  intro e he
  cases he

/-- On a cache miss, the row that the scan of the fontenc table stops at is
    the `data` of no cached charset. -/
theorem fontenc_row_fresh (st : Registry) (hinv : st.rowsOnce) (f : Nat) (t : Int)
    (name : Option String) (hmiss : getCachedCharset st f t name = none) (row : Nat)
    (fc : FontencCharsetRec)
    (hrow : findRow (fontencMatch f t name) st.fontencCharsets = some (row, fc)) :
    ∀ e ∈ st.cachedCharsets, e.2.data ≠ .fontenc row := by
  intro e he hd
  obtain ⟨h1, h2, _⟩ := findRow_some _ _ _ _ hrow
  have hno := (getCachedCharset_none st f t name).mp hmiss e he
  rcases hinv.2.1 e he with ⟨row1, fc1, m, r, hc, _, htab⟩ | ⟨row1, oc, aux, _, hc⟩
  · rw [hc] at hd hno
    have hr : row1 = row := by
      simpa [fontencCharsetOf] using hd
    subst hr
    rw [h1] at htab
    have hfc : fc = { fc1 with mapping := some m, reverse := some r } := Option.some.inj htab
    rw [hfc] at h2
    have : cachedMatch f t name (fontencCharsetOf fc1 row1) = true := h2
    rw [this] at hno
    cases hno
  · rw [hc] at hd
    simp [otherCharsetOf] at hd

/-- On a cache miss of a lookup by name, the row that the scan of
    `otherCharsets` stops at is the `data` of no cached charset. -/
theorem other_row_fresh (st : Registry) (hinv : st.rowsOnce) (n : String)
    (hmiss : getCachedCharset st 0 0 (some n) = none) (row : Nat) (oc : OtherCharsetRec)
    (hrow : findRow (fun fc : OtherCharsetRec => nameMatches fc.name (some n)) otherCharsets
      = some (row, oc)) :
    ∀ e ∈ st.cachedCharsets, e.2.data ≠ .other row := by
  intro e he hd
  obtain ⟨h1, h2, _⟩ := findRow_some _ _ _ _ hrow
  have hno := (getCachedCharset_none st 0 0 (some n)).mp hmiss e he
  rcases hinv.2.1 e he with ⟨row1, fc1, m, r, hc, _, _⟩ | ⟨row1, oc1, aux, htab, hc⟩
  · rw [hc] at hd
    simp [fontencCharsetOf] at hd
  · rw [hc] at hd hno
    have hr : row1 = row := by
      simpa [otherCharsetOf] using hd
    subst hr
    rw [h1] at htab
    have hoc : oc = oc1 := Option.some.inj htab
    subst hoc
    rw [otherCharsetOf_matches n oc row1 aux h2] at hno
    cases hno

/-- The invariant does not depend on the number of allocations made. -/
theorem rowsOnce_brk (st : Registry) (b : Nat) (hinv : st.rowsOnce) :
    ({ st with brk := b } : Registry).rowsOnce := hinv

/-- Writing a row that is the `data` of no cached charset keeps the
    invariant, when the row written has a fontenc type or T_FAILED. -/
theorem rowsOnce_set (st : Registry) (hinv : st.rowsOnce) (row : Nat) (x : FontencCharsetRec)
    (b : Nat)
    (hx : x.type = T_FAILED ∨ x.type = T_94 ∨ x.type = T_96 ∨ x.type = T_128 ∨
      x.type = T_9494 ∨ x.type = T_9696 ∨ x.type = T_94192)
    (hfresh : ∀ e ∈ st.cachedCharsets, e.2.data ≠ .fontenc row) :
    ({ st with brk := b, fontencCharsets := st.fontencCharsets.set row x } : Registry).rowsOnce := by
  refine ⟨?_, ?_, hinv.2.2⟩
  · intro fc hfc
    rcases List.mem_or_eq_of_mem_set hfc with h | h
    · exact hinv.1 fc h
    · rw [h]; exact hx
  · intro e he
    rcases hinv.2.1 e he with ⟨row1, fc1, m, r, hc, hnf, htab⟩ | h
    · left
      refine ⟨row1, fc1, m, r, hc, hnf, ?_⟩
      have hne : row ≠ row1 := by
        intro heq
        apply hfresh e he
        rw [hc, heq]
        rfl
      show (st.fontencCharsets.set row x)[row1]? = _
      rw [List.getElem?_set_ne hne]
      exact htab
    · exact Or.inr h

theorem getFontencCharset_rowsOnce (env : Env) (st : Registry) (hinv : st.rowsOnce) (f : Nat)
    (t : Int) (name : Option String) (hmiss : getCachedCharset st f t name = none) :
    (getFontencCharset env st f t name).2.rowsOnce := by
  cases hf : findRow (fontencMatch f t name) st.fontencCharsets with
  | none =>
    rw [getFontencCharset_no_row env st f t name hf]
    exact hinv
  | some q =>
    obtain ⟨row, fc⟩ := q
    obtain ⟨h1, h2, _⟩ := findRow_some _ _ _ _ hf
    have hnf := fontencMatch_not_failed f t name fc h2
    have hfresh := fontenc_row_fresh st hinv f t name hmiss row fc hf
    have htype := hinv.1 fc (List.getElem?_mem h1)
    cases hc : env.calloc st.brk with
    | false =>
      rw [getFontencCharset_calloc_fails env st f t name row fc hf hc]
      exact rowsOnce_brk st _ hinv
    | true =>
      cases hm : env.LookupMapping fc.xlfd with
      | none =>
        rw [getFontencCharset_mapping_fails env st f t name row fc hf hc hm]
        exact rowsOnce_set st hinv row _ _ (Or.inl rfl) hfresh
      | some m =>
        cases hr : env.LookupReverse m with
        | none =>
          rw [getFontencCharset_reverse_fails env st f t name row fc m hf hc hm hr]
          exact rowsOnce_set st hinv row _ _ (Or.inl rfl) hfresh
        | some r =>
          rw [getFontencCharset_ok env st f t name row fc m r hf hc hm hr]
          have hset := rowsOnce_set st hinv row
            { fc with mapping := some m, reverse := some r } (st.brk + 1) htype hfresh
          refine ⟨hset.1, ?_, ?_⟩
          · intro e he
            rcases List.mem_cons.mp he with h | h
            · left
              refine ⟨row, fc, m, r, by rw [h], hnf, ?_⟩
              show (st.fontencCharsets.set row _)[row]? = _
              rw [List.getElem?_set_eq_of_lt]
              exact (List.getElem?_eq_some_iff.mp h1).1
            · exact hset.2.1 e h
          · show ((st.brk, fontencCharsetOf fc row) :: st.cachedCharsets).map _ |>.Nodup
            rw [List.map_cons, List.nodup_cons]
            refine ⟨?_, hinv.2.2⟩
            intro hmem
            obtain ⟨e, he, hd⟩ := List.mem_map.mp hmem
            exact hfresh e he hd

theorem getOtherCharset_rowsOnce (env : Env) (st : Registry) (hinv : st.rowsOnce) (n : String)
    (hmiss : getCachedCharset st 0 0 (some n) = none) :
    (getOtherCharset env st (some n)).2.rowsOnce := by
  cases hf : findRow (fun fc : OtherCharsetRec => nameMatches fc.name (some n))
      otherCharsets with
  | none =>
    rw [getOtherCharset_no_row env st (some n) hf]
    exact hinv
  | some q =>
    obtain ⟨row, oc⟩ := q
    obtain ⟨h1, h2, _⟩ := findRow_some _ _ _ _ hf
    have hfresh := other_row_fresh st hinv n hmiss row oc hf
    unfold getOtherCharset
    rw [hf]
    simp only []
    split_ifs
    · exact rowsOnce_brk st _ hinv
    · exact rowsOnce_brk st _ hinv
    · exact rowsOnce_brk st _ hinv
    · refine ⟨hinv.1, ?_, ?_⟩
      · intro e he
        rcases List.mem_cons.mp he with h | h
        · right
          exact ⟨row, oc, st.brk + 1, h1, by rw [h]⟩
        · exact hinv.2.1 e h
      · show ((st.brk, otherCharsetOf oc row (st.brk + 1)) :: st.cachedCharsets).map _ |>.Nodup
        rw [List.map_cons, List.nodup_cons]
        refine ⟨?_, hinv.2.2⟩
        intro hmem
        obtain ⟨e, he, hd⟩ := List.mem_map.mp hmem
        exact hfresh e he hd

theorem getFontencCharset_cache_of_none (env : Env) (st : Registry) (f : Nat) (t : Int)
    (name : Option String) (st1 : Registry)
    (h : getFontencCharset env st f t name = (none, st1)) :
    st1.cachedCharsets = st.cachedCharsets := by
  unfold getFontencCharset at h
  cases hf : findRow (fontencMatch f t name) st.fontencCharsets with
  | none =>
    rw [hf] at h
    cases h
    rfl
  | some q =>
    obtain ⟨row, fc⟩ := q
    rw [hf] at h
    simp only [] at h
    split_ifs at h
    · cases h; rfl
    · cases hm : env.LookupMapping fc.xlfd with
      | none =>
        rw [hm] at h
        cases h
        rfl
      | some m =>
        rw [hm] at h
        simp only [] at h
        cases hr : env.LookupReverse m with
        | none =>
          rw [hr] at h
          cases h
          rfl
        | some r =>
          rw [hr] at h
          cases h

theorem run_rowsOnce (env : Env) (st : Registry) (op : Lookup) (hinv : st.rowsOnce) :
    (op.run env st).2.rowsOnce := by
  cases op with
  | getCharset f t =>
    simp only [Lookup.run]
    unfold Luit.getCharset
    cases hc : getCachedCharset st f t none with
    | some e => exact hinv
    | none =>
      simp only []
      have := getFontencCharset_rowsOnce env st hinv f t none hc
      cases hf : getFontencCharset env st f t none with
      | mk res st1 =>
        rw [hf] at this
        cases res with
        | some e => exact this
        | none => exact this
  | getCharsetByName name =>
    cases name with
    | none => exact hinv
    | some n =>
      simp only [Lookup.run]
      rw [getCharsetByName_some]
      cases hc : getCachedCharset st 0 0 (some n) with
      | some e => exact hinv
      | none =>
        simp only []
        have h1 := getFontencCharset_rowsOnce env st hinv 0 0 (some n) hc
        cases hf : getFontencCharset env st 0 0 (some n) with
        | mk res st1 =>
          rw [hf] at h1
          cases res with
          | some e => exact h1
          | none =>
            simp only []
            have hcache := getFontencCharset_cache_of_none env st 0 0 (some n) st1 hf
            have hc1 : getCachedCharset st1 0 0 (some n) = none := by
              unfold getCachedCharset at hc ⊢
              rw [hcache]
              exact hc
            have h2 := getOtherCharset_rowsOnce env st1 h1 n hc1
            cases ho : getOtherCharset env st1 (some n) with
            | mk res2 st2 =>
              rw [ho] at h2
              cases res2 with
              | some e => exact h2
              | none => exact h2

theorem runLookups_rowsOnce (env : Env) :
    ∀ (ops : List Lookup) (st : Registry), st.rowsOnce → (runLookups env st ops).2.rowsOnce := by
  intro ops
  induction ops with
  | nil => intro st h; exact h
  | cons op ops ih =>
    intro st h
    rw [runLookups_cons]
    exact ih _ (run_rowsOnce env st op h)

theorem run_cache_grows (env : Env) (st : Registry) (op : Lookup) :
    ∀ e ∈ st.cachedCharsets, e ∈ (op.run env st).2.cachedCharsets := by
  intro e he
  rcases Lookup.run_cases env st op with ⟨a, c, _, hrun⟩ | ⟨_, _, hcache⟩ |
    ⟨_, a, c, _, hcache, _⟩
  · rw [hrun]; exact he
  · rw [hcache]; exact he
  · rw [hcache]; exact List.mem_cons_of_mem _ he

theorem runLookups_cache_grows (env : Env) :
    ∀ (ops : List Lookup) (st : Registry),
      ∀ e ∈ st.cachedCharsets, e ∈ (runLookups env st ops).2.cachedCharsets := by
  intro ops
  induction ops with
  | nil => intro st e he; exact he
  | cons op ops ih =>
    intro st e he
    rw [runLookups_cons]
    exact ih _ e (run_cache_grows env st op e he)

/-- A pointer to a heap object that a lookup returns points to an entry of
    the cache. -/
theorem run_result_cached (env : Env) (st : Registry) (op : Lookup) (a : Nat) (c : CharsetRec)
    (h : (op.run env st).1 = .heap a c) : (a, c) ∈ (op.run env st).2.cachedCharsets := by
  rcases Lookup.run_cases env st op with ⟨a1, c1, hfind, hrun⟩ | ⟨_, hunk, _⟩ |
    ⟨_, a1, c1, hres, hcache, _⟩
  · rw [hrun] at h ⊢
    cases h
    exact List.mem_of_find?_eq_some hfind
  · rw [h] at hunk
    cases hunk
  · rw [hres] at h
    cases h
    rw [hcache]
    exact List.mem_cons_self _ _

theorem runLookups_results_cached (env : Env) (a : Nat) (c : CharsetRec) :
    ∀ (ops : List Lookup) (st : Registry), .heap a c ∈ (runLookups env st ops).1 →
      (a, c) ∈ (runLookups env st ops).2.cachedCharsets := by
  intro ops
  induction ops with
  | nil => intro st h; cases h
  | cons op ops ih =>
    intro st h
    rw [runLookups_cons] at h ⊢
    rcases List.mem_cons.mp h with h1 | h1
    · exact runLookups_cache_grows env ops _ _ (run_result_cached env st op a c h1.symm)
    · exact ih _ h1

theorem runLookups_table_length (env : Env) (ops : List Lookup) (st : Registry) :
    (runLookups env st ops).2.fontencCharsets.length = st.fontencCharsets.length := by
  have := congrArg List.length (runLookups_names env ops st)
  simpa using this

/-- C29: in every state that a sequence of calls of `getCharset` and
    `getCharsetByName` reaches from the empty cache, no two cached charsets
    have the same `data` (the table row they wrap), so every row of the
    fontenc table and every row of `otherCharsets` is the `data` of at most
    one cached charset; the `data` of a cached charset is a row of one of
    the two tables; and no cached charset has type T_FAILED. -/
theorem runLookups_rows_instantiated_once (env : Env) (ops : List Lookup) :
    (runLookups env Registry.initial ops).2.cachedCharsets.Pairwise
      (fun e1 e2 => e1.2.data ≠ e2.2.data) ∧
    (∀ d : DataPtr,
      ((runLookups env Registry.initial ops).2.cachedCharsets.map (fun e => e.2.data)).count d
        ≤ 1) ∧
    (∀ e ∈ (runLookups env Registry.initial ops).2.cachedCharsets,
      e.2.type ≠ T_FAILED ∧
      ((∃ row, e.2.data = .fontenc row ∧ row < fontencCharsets.length) ∨
       (∃ row, e.2.data = .other row ∧ row < otherCharsets.length))) := by
  have hinv := runLookups_rowsOnce env ops Registry.initial initial_rowsOnce
  have hlen := runLookups_table_length env ops Registry.initial
  refine ⟨?_, ?_, ?_⟩
  · have := hinv.2.2
    unfold List.Nodup at this
    rw [List.pairwise_map] at this
    exact this
  · intro d
    exact List.nodup_iff_count_le_one.mp hinv.2.2 d
  · intro e he
    rcases hinv.2.1 e he with ⟨row, fc, m, r, hc, hnf, htab⟩ | ⟨row, oc, aux, htab, hc⟩
    · refine ⟨by rw [hc]; exact hnf, Or.inl ⟨row, by rw [hc]; rfl, ?_⟩⟩
      have := (List.getElem?_eq_some_iff.mp htab).1
      rw [hlen] at this
      exact this
    · refine ⟨by rw [hc]; exact (by decide : T_OTHER ≠ T_FAILED), Or.inr ⟨row, by rw [hc]; rfl, ?_⟩⟩
      exact (List.getElem?_eq_some_iff.mp htab).1

/-! ### No abort in `FontencCharsetReverse` -/

/-- C27: a charset with the reverse function `FontencCharsetReverse` that a
    lookup has returned (in a sequence `pre` of lookups from the empty
    cache) has one of the six types T_94, T_96, T_128, T_9494, T_9696,
    T_94192; and in every later state (after any further lookups `post`,
    which may mark rows T_FAILED) its `data` is a row of the table that holds
    a reverse map, so that for every Unicode value and every behaviour of the
    reverse map `FontencCharsetReverse` returns a value: it reaches neither
    `abort()` nor a NULL pointer. -/
theorem fontenc_reverse_never_aborts (env : Env) (pre post : List Lookup) (a : Nat)
    (c : CharsetRec) (hret : .heap a c ∈ (runLookups env Registry.initial pre).1)
    (hfont : c.reverse = .FontencCharsetReverse) :
    (c.type = T_94 ∨ c.type = T_96 ∨ c.type = T_128 ∨ c.type = T_9494 ∨ c.type = T_9696 ∨
      c.type = T_94192) ∧
    ∃ row fc, c.data = .fontenc row ∧
      (runLookups env (runLookups env Registry.initial pre).2 post).2.fontencCharsets[row]?
        = some fc ∧
      ∀ (env2 : Env) (u : Nat), ∃ v : Int,
        FontencCharsetReverse env2 u c fc = some v ∧
        c.callReverse env2
          (runLookups env (runLookups env Registry.initial pre).2 post).2.fontencCharsets u
          = some v := by
  have hinv := runLookups_rowsOnce env post _
    (runLookups_rowsOnce env pre Registry.initial initial_rowsOnce)
  have hmem := runLookups_cache_grows env post _ _
    (runLookups_results_cached env a c pre Registry.initial hret)
  rcases hinv.2.1 (a, c) hmem with ⟨row, fc, m, r, hc, hnf, htab⟩ | ⟨row, oc, aux, _, hc⟩
  · have hc2 : c = fontencCharsetOf fc row := hc
    have htype : c.type = T_94 ∨ c.type = T_96 ∨ c.type = T_128 ∨ c.type = T_9494 ∨
        c.type = T_9696 ∨ c.type = T_94192 := by
      rcases hinv.1 _ (List.getElem?_mem htab) with h | h
      · exact absurd h hnf
      · rw [hc2]; exact h
    refine ⟨htype, row, _, by rw [hc2]; rfl, htab, ?_⟩
    intro env2 u
    have hcall : ∀ v, FontencCharsetReverse env2 u c
        { fc with mapping := some m, reverse := some r } = some v →
        c.callReverse env2
          (runLookups env (runLookups env Registry.initial pre).2 post).2.fontencCharsets u
          = some v := by
      intro v hv
      unfold CharsetRec.callReverse
      rw [hfont]
      simp only []
      have hd : c.data = .fontenc row := by rw [hc2]; rfl
      rw [hd]
      simp only []
      rw [htab]
      exact hv
    rcases FontencCharsetReverse_result env2 u c
        { fc with mapping := some m, reverse := some r } r rfl htype with h | ⟨_, _, _, h⟩
    · exact ⟨_, h, hcall _ h⟩
    · exact ⟨_, h, hcall _ h⟩
  · have hc2 : c = otherCharsetOf oc row aux := hc
    rw [hc2] at hfont
    cases hfont

theorem fontenc_reverse_never_aborts_witness :
    .heap 0 latin1Charset ∈
      (runLookups Env.withoutKoi8r Registry.initial [.getCharset 'A'.toNat T_96]).1 ∧
    latin1Charset.reverse = .FontencCharsetReverse ∧
    (runLookups Env.withoutKoi8r
      (runLookups Env.withoutKoi8r Registry.initial [.getCharset 'A'.toNat T_96]).2
      [.getCharsetByName (some "KOI8-R")]).2.fontencCharsets[32]?
        = some { koi8rRow with type := T_FAILED } ∧
    latin1Charset.callReverse Env.identity
      (runLookups Env.withoutKoi8r
        (runLookups Env.withoutKoi8r Registry.initial [.getCharset 'A'.toNat T_96]).2
        [.getCharsetByName (some "KOI8-R")]).2.fontencCharsets 0xE9 = some 0x69 ∧
    (latin1Charset.type = T_94 ∨ latin1Charset.type = T_96 ∨ latin1Charset.type = T_128 ∨
      latin1Charset.type = T_9494 ∨ latin1Charset.type = T_9696 ∨
      latin1Charset.type = T_94192) :=
  ⟨by decide, rfl, by decide, by decide,
    (fontenc_reverse_never_aborts Env.withoutKoi8r [.getCharset 'A'.toNat T_96]
      [.getCharsetByName (some "KOI8-R")] 0 latin1Charset (by decide) rfl).1⟩

/-! ### A failed `init` of an "other" codec -/

/-- The outcome of `getCharsetByName` when the name matches nothing cached
    and no fontenc row, and matches the row `oc` of `otherCharsets`, with
    both allocations succeeding. -/
theorem getCharsetByName_other_row (env : Env) (st : Registry) (n : String) (row : Nat)
    (oc : OtherCharsetRec) (hcache : getCachedCharset st 0 0 (some n) = none)
    (hfont : findRow (fontencMatch 0 0 (some n)) st.fontencCharsets = none)
    (hrow : findRow (fun fc : OtherCharsetRec => nameMatches fc.name (some n)) otherCharsets
      = some (row, oc))
    (hc1 : env.calloc st.brk = true) (hc2 : env.calloc (st.brk + 1) = true) :
    getCharsetByName env st (some n) =
      if env.init oc.init = false then (.Unknown94, { st with brk := st.brk + 2 })
      else (.heap st.brk (otherCharsetOf oc row (st.brk + 1)),
        cacheCharset { st with brk := st.brk + 2 } st.brk
          (otherCharsetOf oc row (st.brk + 1))) := by
  rw [getCharsetByName_some, hcache]
  simp only []
  rw [getFontencCharset_no_row env st 0 0 (some n) hfont]
  simp only []
  unfold getOtherCharset
  rw [hrow]
  simp only []
  rw [if_neg (by rw [hc1]; decide), if_neg (by rw [hc2]; decide)]
  split_ifs <;> rfl

/-- C26, as the code has it: in a state that lookups reach from the empty
    cache, when `getCharsetByName(n)` misses the cache, stops at the row `oc`
    of `otherCharsets`, allocates and the codec's `init` fails, the call
    returns the Unknown (94) sentinel and changes nothing but the count of
    allocations: nothing is added to the cache and no table entry is marked
    (`otherCharsets` is constant; T_FAILED is written to the charset that is
    freed).  A later `getCharsetByName(n)` stops at the same row again and
    calls `init` again: it returns the Unknown (94) sentinel when `init`
    fails again, and the T_OTHER charset of the codec when `init` succeeds
    then (`env2` is the provider at the time of the later call). -/
theorem getCharsetByName_other_init_retried (env env2 : Env) (pre : List Lookup) (n : String)
    (row : Nat) (oc : OtherCharsetRec)
    (hcache : getCachedCharset (runLookups env Registry.initial pre).2 0 0 (some n) = none)
    (hrow : findRow (fun fc : OtherCharsetRec => nameMatches fc.name (some n)) otherCharsets
      = some (row, oc))
    (hc1 : env.calloc (runLookups env Registry.initial pre).2.brk = true)
    (hc2 : env.calloc ((runLookups env Registry.initial pre).2.brk + 1) = true)
    (hinit : env.init oc.init = false)
    (hc3 : env2.calloc ((runLookups env Registry.initial pre).2.brk + 2) = true)
    (hc4 : env2.calloc ((runLookups env Registry.initial pre).2.brk + 3) = true) :
    getCharsetByName env (runLookups env Registry.initial pre).2 (some n)
      = (.Unknown94, { (runLookups env Registry.initial pre).2 with
          brk := (runLookups env Registry.initial pre).2.brk + 2 }) ∧
    (env2.init oc.init = false →
      getCharsetByName env2
          (getCharsetByName env (runLookups env Registry.initial pre).2 (some n)).2 (some n)
        = (.Unknown94, { (runLookups env Registry.initial pre).2 with
            brk := (runLookups env Registry.initial pre).2.brk + 4 })) ∧
    (env2.init oc.init = true →
      getCharsetByName env2
          (getCharsetByName env (runLookups env Registry.initial pre).2 (some n)).2 (some n)
        = (.heap ((runLookups env Registry.initial pre).2.brk + 2)
            (otherCharsetOf oc row ((runLookups env Registry.initial pre).2.brk + 3)),
          cacheCharset { (runLookups env Registry.initial pre).2 with
              brk := (runLookups env Registry.initial pre).2.brk + 4 }
            ((runLookups env Registry.initial pre).2.brk + 2)
            (otherCharsetOf oc row ((runLookups env Registry.initial pre).2.brk + 3)))) := by
  have hnames : (runLookups env Registry.initial pre).2.fontencCharsets.map (fun fc => fc.name)
      = fontencCharsets.map (fun fc => fc.name) := runLookups_names env pre Registry.initial
  obtain ⟨h1, h2, _⟩ := findRow_some _ _ _ _ hrow
  have hn := (nameMatches_some oc.name n).mp h2
  have hfont : findRow (fontencMatch 0 0 (some n))
      (runLookups env Registry.initial pre).2.fontencCharsets = none := by
    rw [findRow_fontenc_byName_none]
    intro fc hfc _ heq
    have hmem : fc.name ∈ fontencCharsets.map (fun fc => fc.name) := by
      rw [← hnames]
      exact List.mem_map_of_mem (fun r => r.name) hfc
    exact fontenc_names_not_other fc.name hmem oc (List.getElem?_mem h1) (hn.trans heq.symm)
  have e1 := getCharsetByName_other_row env _ n row oc hcache hfont hrow hc1 hc2
  rw [if_pos hinit] at e1
  have e2 := getCharsetByName_other_row env2
    { (runLookups env Registry.initial pre).2 with
      brk := (runLookups env Registry.initial pre).2.brk + 2 } n row oc hcache hfont hrow hc3 hc4
  rw [e1]
  refine ⟨rfl, ?_, ?_⟩
  · intro h
    rw [e2, if_pos h]
  · intro h
    rw [e2, if_neg (by rw [h]; decide)]

theorem getCharsetByName_other_init_retried_witness :
    getCharsetByName Env.initFails (runLookups Env.initFails Registry.initial []).2
        (some "UTF-8")
      = (.Unknown94, ⟨fontencCharsets, [], 2⟩) ∧
    getCharsetByName Env.identity
        (getCharsetByName Env.initFails (runLookups Env.initFails Registry.initial []).2
          (some "UTF-8")).2 (some "UTF-8")
      = (.heap 2 (otherCharsetOf
            ⟨"UTF-8", "init_utf8", "mapping_utf8", "reverse_utf8", "stack_utf8"⟩ 1 3),
          ⟨fontencCharsets,
            [(2, otherCharsetOf
              ⟨"UTF-8", "init_utf8", "mapping_utf8", "reverse_utf8", "stack_utf8"⟩ 1 3)], 4⟩) :=
  ⟨(getCharsetByName_other_init_retried Env.initFails Env.identity [] "UTF-8" 1
      ⟨"UTF-8", "init_utf8", "mapping_utf8", "reverse_utf8", "stack_utf8"⟩
      (by decide) (by decide) rfl rfl rfl rfl rfl).1,
    (getCharsetByName_other_init_retried Env.initFails Env.identity [] "UTF-8" 1
      ⟨"UTF-8", "init_utf8", "mapping_utf8", "reverse_utf8", "stack_utf8"⟩
      (by decide) (by decide) rfl rfl rfl rfl rfl).2.2 rfl⟩

/-- C26 fails as stated: after `init_utf8` has failed during
    `getCharsetByName("UTF-8")` from the empty cache, the scan of
    `otherCharsets` for "UTF-8" still stops at row 1 (no entry is marked);
    a second `getCharsetByName("UTF-8")` makes two more allocations and
    calls `init` again, and when `init` succeeds that time it returns the
    T_OTHER charset of UTF-8, not the Unknown (94) sentinel. -/
theorem getCharsetByName_other_init_called_again :
    getCharsetByName Env.initFails Registry.initial (some "UTF-8")
      = (.Unknown94, ⟨fontencCharsets, [], 2⟩) ∧
    findRow (fun fc : OtherCharsetRec => nameMatches fc.name (some "UTF-8")) otherCharsets
      = some (1, ⟨"UTF-8", "init_utf8", "mapping_utf8", "reverse_utf8", "stack_utf8"⟩) ∧
    getCharsetByName Env.initFails ⟨fontencCharsets, [], 2⟩ (some "UTF-8")
      = (.Unknown94, ⟨fontencCharsets, [], 4⟩) ∧
    (getCharsetByName Env.identity ⟨fontencCharsets, [], 2⟩ (some "UTF-8")).1
      = .heap 2 (otherCharsetOf
          ⟨"UTF-8", "init_utf8", "mapping_utf8", "reverse_utf8", "stack_utf8"⟩ 1 3) ∧
    (otherCharsetOf
      ⟨"UTF-8", "init_utf8", "mapping_utf8", "reverse_utf8", "stack_utf8"⟩ 1 3).type
        = T_OTHER := by
  decide

/-! ### What a prefix substitution replaces -/

theorem normalize_append (s r : String) : normalize (s ++ r) = normalize s ++ normalize r := by
  simp [normalize, String.toList]

/-- A label that is normalized-equal to `src ++ r` begins, once normalized,
    with the normalized `src`. -/
theorem substitution_source (label src r : String)
    (h1 : normalize label = normalize (src ++ r)) :
    (normalize src).isPrefixOf (normalize label) = true := by
  rw [normalize_append] at h1
  rw [h1, List.isPrefixOf_iff_prefix]
  exact List.prefix_append _ _

/-- When a label is normalized-equal to `src ++ r` and a name to `tgt ++ r`,
    what follows the normalized source in the label is what follows the
    normalized target in the name. -/
theorem substitution_remainder (label name src tgt r : String)
    (h1 : normalize label = normalize (src ++ r))
    (h2 : normalize name = normalize (tgt ++ r)) :
    (normalize label).drop (normalize src).length
      = (normalize name).drop (normalize tgt).length := by
  rw [normalize_append] at h1 h2
  rw [h1, h2, List.drop_left, List.drop_left]

/-- The slip behind C24: `compare1` counts the iterations in which it skips
    a character, and `matchLocaleCharset` then drops `source_len` characters
    of the label.  The label "CPX1250" matches no row directly; `compare1`
    with "CP-" and 3 returns 0 (the third iteration skips the `-` of the
    prefix and the `X` is never compared), the target is "CP " followed by
    "1250", and the row "CP1250" is returned, whose name is normalized-equal
    to `target + r` for no remainder `r` of the label.  The label "I-B1250"
    is resolved to the same row through "IBM", although it is
    normalized-equal to `source + r` for none of the four sources. -/
theorem matchLocaleCharset_prefix_miscount :
    matchLocaleCharset "CPX1250" = some (some (22, cp1250Row)) ∧
    findLocaleCharset (stripEuro "CPX1250") = none ∧
    compare1 "CPX1250" "CP-" 3 = 0 ∧
    (∀ d ∈ prefixes, ∀ r : String,
      ¬ (normalize "CPX1250" = normalize (d.source ++ r) ∧
         normalize cp1250Row.name = normalize (d.target ++ r))) ∧
    matchLocaleCharset "I-B1250" = some (some (22, cp1250Row)) ∧
    findLocaleCharset (stripEuro "I-B1250") = none ∧
    compare1 "I-B1250" "IBM" 3 = 0 ∧
    (∀ d ∈ prefixes, ∀ r : String, normalize "I-B1250" ≠ normalize (d.source ++ r)) := by
  refine ⟨by decide, by decide, by decide, ?_, by decide, by decide, by decide, ?_⟩
  · intro d hd r h
    have hpre := substitution_source "CPX1250" d.source r h.1
    have hrem := substitution_remainder "CPX1250" cp1250Row.name d.source d.target r h.1 h.2
    have hall : ∀ d ∈ prefixes,
        ¬ ((normalize d.source).isPrefixOf (normalize "CPX1250") = true ∧
          (normalize "CPX1250").drop (normalize d.source).length
            = (normalize cp1250Row.name).drop (normalize d.target).length) := by
      decide
    exact hall d hd ⟨hpre, hrem⟩
  · intro d hd r h
    have hpre := substitution_source "I-B1250" d.source r h
    have hall : ∀ d ∈ prefixes,
        ¬ ((normalize d.source).isPrefixOf (normalize "I-B1250") = true) := by
      decide
    exact hall d hd hpre

/-! ### The loop of `parseOptions` -/

theorem Step.ite_ind (P : Step → Prop) (c : Prop) [Decidable c] (a b : Step)
    (ha : c → P a) (hb : ¬c → P b) : P (if c then a else b) := by
  split_ifs with h
  · exact ha h
  · exact hb h

theorem parseStep_advances (env : Env) (openLog : String → Int) (argv : List String) (i : Nat)
    (s : Globals) : Step.advances i argv.length (parseStep env openLog argv i s) := by
  unfold parseStep
  cases harg : argv[i + 1]? with
  | none =>
    simp only []
    repeat (first
      | exact trivial
      | exact Or.inl rfl
      | (apply Step.ite_ind (Step.advances i argv.length) <;> intro hc))
  | some x =>
    have hx : i + 1 < argv.length := (List.getElem?_eq_some_iff.mp harg).1
    simp only []
    repeat (first
      | exact trivial
      | exact Or.inl rfl
      | exact Or.inr ⟨rfl, hx⟩
      | (apply Step.ite_ind (Step.advances i argv.length) <;> intro hc))

theorem parseStep_breaksAt (env : Env) (openLog : String → Int) (argv : List String) (i : Nat)
    (s : Globals) : Step.breaksAt argv i s (parseStep env openLog argv i s) := by
  unfold parseStep
  cases harg : argv[i + 1]? with
  | none =>
    simp only []
    repeat (first
      | exact trivial
      | exact ⟨rfl, Or.inl ⟨rfl, hc⟩⟩
      | exact ⟨rfl, Or.inr ⟨rfl, hc⟩⟩
      | (apply Step.ite_ind (Step.breaksAt argv i s) <;> intro hc))
  | some x =>
    simp only []
    repeat (first
      | exact trivial
      | exact ⟨rfl, Or.inl ⟨rfl, hc⟩⟩
      | exact ⟨rfl, Or.inr ⟨rfl, hc⟩⟩
      | (apply Step.ite_ind (Step.breaksAt argv i s) <;> intro hc))

theorem bankIndex_toNat_le (x : String) (h : ¬(bankIndex x < 0 ∨ bankIndex x > 3)) :
    (bankIndex x).toNat ≤ 3 := by
  omega

theorem parseStep_keepsPointers (env : Env) (openLog : String → Int) (argv : List String)
    (i : Nat) (s : Globals)
    (hv : s.inputState.pointsToBanks ∧ s.outputState.pointsToBanks) :
    Step.keepsPointers (parseStep env openLog argv i s) := by
  unfold parseStep
  cases harg : argv[i + 1]? with
  | none =>
    simp only []
    repeat (first
      | exact trivial
      | exact hv
      | (apply Step.ite_ind Step.keepsPointers <;> intro hc))
  | some x =>
    simp only []
    repeat (first
      | exact trivial
      | exact hv
      | exact ⟨hv.1, ⟨_, bankIndex_toNat_le x hc, rfl⟩, hv.2.2⟩
      | exact ⟨hv.1, hv.2.1, ⟨_, bankIndex_toNat_le x hc, rfl⟩⟩
      | exact ⟨⟨⟨_, bankIndex_toNat_le x hc, rfl⟩, hv.1.2⟩, hv.2⟩
      | exact ⟨⟨hv.1.1, ⟨_, bankIndex_toNat_le x hc, rfl⟩⟩, hv.2⟩
      | (apply Step.ite_ind Step.keepsPointers <;> intro hc))

theorem getD_of_lt (argv : List String) (i : Nat) (h : i < argv.length) :
    argv[i]? = some (argv.getD i "") := by
  rw [List.getD_eq_getElem?_getD, List.getElem?_eq_getElem h]
  rfl

/-- With as many iterations left as there are arguments left, the loop of
    `parseOptions` ends; when it returns, the index has not decreased, is at
    most `argc`, and is `argc`, or the place of an argument that begins with
    neither `-` nor `+`, or the place after an argument `--`. -/
theorem parseLoop_returns (env : Env) (openLog : String → Int) (argv : List String) :
    ∀ (fuel i : Nat) (s : Globals), argv.length ≤ i + fuel → i ≤ argv.length →
      parseLoop env openLog argv fuel i s ≠ .outOfFuel ∧
      ∀ (i1 : Nat) (s1 : Globals), parseLoop env openLog argv fuel i s = .returns i1 s1 →
        i ≤ i1 ∧ i1 ≤ argv.length ∧
        (i1 = argv.length ∨
          (∃ a, argv[i1]? = some a ∧ a.toList.head? ≠ some '-' ∧ a.toList.head? ≠ some '+') ∨
          (∃ j, i1 = j + 1 ∧ argv[j]? = some "--")) := by
  intro fuel
  induction fuel with
  | zero =>
    intro i s hf hi
    have hnot : ¬ i < argv.length := by omega
    unfold parseLoop
    rw [if_neg hnot]
    refine ⟨(by intro h; cases h), ?_⟩
    intro i1 s1 h
    cases h
    exact ⟨Nat.le_refl _, hi, Or.inl (by omega)⟩
  | succ fuel ih =>
    intro i s hf hi
    unfold parseLoop
    by_cases hlt : i < argv.length
    · rw [if_pos hlt]
      have hadv := parseStep_advances env openLog argv i s
      have hbrk := parseStep_breaksAt env openLog argv i s
      cases hstep : parseStep env openLog argv i s with
      | next i2 s2 =>
        rw [hstep] at hadv
        simp only []
        have hi2 : i < i2 ∧ i2 ≤ argv.length := by
          rcases hadv with h | ⟨h, h2⟩ <;> omega
        obtain ⟨h1, h2⟩ := ih i2 s2 (by omega) hi2.2
        refine ⟨h1, ?_⟩
        intro i1 s1 hret
        obtain ⟨h3, h4, h5⟩ := h2 i1 s1 hret
        exact ⟨by omega, h4, h5⟩
      | stop i2 s2 =>
        rw [hstep] at hbrk
        simp only []
        refine ⟨(by intro h; cases h), ?_⟩
        intro i1 s1 hret
        cases hret
        rcases hbrk.2 with ⟨h, h2, h3⟩ | ⟨h, h2⟩
        · refine ⟨by omega, by omega, Or.inr (Or.inl ⟨_, ?_, h2, h3⟩)⟩
          rw [h]
          exact getD_of_lt argv i hlt
        · refine ⟨by omega, by omega, Or.inr (Or.inr ⟨i, h, ?_⟩)⟩
          rw [getD_of_lt argv i hlt, h2]
      | exit status s2 =>
        simp only []
        refine ⟨(by intro h; cases h), ?_⟩
        intro i1 s1 hret
        cases hret
    · rw [if_neg hlt]
      refine ⟨(by intro h; cases h), ?_⟩
      intro i1 s1 h
      cases h
      exact ⟨Nat.le_refl _, hi, Or.inl (by omega)⟩

/-- An argument `--` in option position ends the loop: `parseOptions`
    returns the index after it, with the globals as they are. -/
theorem parseLoop_double_dash (env : Env) (openLog : String → Int) (argv : List String)
    (fuel i : Nat) (s : Globals) (hlt : i < argv.length) (ha : argv.getD i "" = "--") :
    parseStep env openLog argv i s = .stop (i + 1) s ∧
    parseLoop env openLog argv (fuel + 1) i s = .returns (i + 1) s := by
  have hstep : parseStep env openLog argv i s = .stop (i + 1) s := by
    unfold parseStep
    simp only [ha]
    rfl
  refine ⟨hstep, ?_⟩
  rw [parseLoop, if_pos hlt, hstep]

/-- C23: for every argument vector with `argc ≥ 1`, the loop of
    `parseOptions` ends (the program ends or `parseOptions` returns), and a
    returned index `i` satisfies `1 ≤ i ≤ argc` and: `i = argc`, or `argv[i]`
    begins with neither `-` nor `+`, or `argv[i-1]` is `--`.  An argument
    `--` met in option position ends the loop with the index after it and
    changes nothing.  Every iteration after which the loop goes on has
    increased the index (by 1, or by 2 when the argument after the option
    exists). -/
theorem parseOptions_returned_index (env : Env) (openLog : String → Int) (argv : List String)
    (s : Globals) (hargc : 1 ≤ argv.length) :
    parseOptions env openLog argv s ≠ .outOfFuel ∧
    (∀ (i : Nat) (s1 : Globals), parseOptions env openLog argv s = .returns i s1 →
      1 ≤ i ∧ i ≤ argv.length ∧
      (i = argv.length ∨
        (∃ a, argv[i]? = some a ∧ a.toList.head? ≠ some '-' ∧ a.toList.head? ≠ some '+') ∨
        (∃ j, i = j + 1 ∧ argv[j]? = some "--"))) ∧
    (∀ (fuel j : Nat) (s0 : Globals), j < argv.length → argv[j]? = some "--" →
      parseLoop env openLog argv (fuel + 1) j s0 = .returns (j + 1) s0) ∧
    (∀ (j : Nat) (s0 : Globals) (j1 : Nat) (s1 : Globals),
      parseStep env openLog argv j s0 = .next j1 s1 → j < j1 ∧ j1 ≤ j + 2) := by
  obtain ⟨h1, h2⟩ := parseLoop_returns env openLog argv argv.length 1 s (by omega) hargc
  refine ⟨h1, h2, ?_, ?_⟩
  · intro fuel j s0 hlt hj
    have ha : argv.getD j "" = "--" := by
      have := getD_of_lt argv j hlt
      rw [hj] at this
      exact (Option.some.inj this).symm
    exact (parseLoop_double_dash env openLog argv fuel j s0 hlt ha).2
  · intro j s0 j1 s1 hstep
    have hadv := parseStep_advances env openLog argv j s0
    rw [hstep] at hadv
    rcases hadv with h | ⟨h, _⟩ <;> omega

theorem parseOptions_returned_index_witness :
    1 ≤ ["luit", "-v", "--", "-x", "sh"].length ∧
    parseOptions Env.identity (fun _ => 3) ["luit", "-v", "--", "-x", "sh"] Globals.sample
      = .returns 3 { Globals.sample with verbose := 1 } ∧
    parseOptions Env.identity (fun _ => 3) ["luit", "-v", "--", "-x", "sh"] Globals.sample
      ≠ .outOfFuel :=
  ⟨by decide, by decide,
    (parseOptions_returned_index Env.identity (fun _ => 3) ["luit", "-v", "--", "-x", "sh"]
      Globals.sample (by decide)).1⟩

/-! ### The options that set a pointer -/

theorem char_of_toNat (c : Char) (n : Nat) (h : c.toNat = n) : c = Char.ofNat n := by
  rw [← h, Char.ofNat_toNat]

/-- The arguments for which the index `j` computed by `-gl`, `-gr`, `-kgl`
    and `-kgr` passes the test `j < 0 || j > 3` are exactly "g0", "g1", "g2"
    and "g3". -/
theorem bankIndex_range (a : String) :
    ¬(bankIndex a < 0 ∨ bankIndex a > 3) ↔ a ∈ ["g0", "g1", "g2", "g3"] := by
  constructor
  · intro h
    obtain ⟨l⟩ := a
    unfold bankIndex at h
    simp only [String.toList] at h
    match l, h with
    | [], h => exact absurd (Or.inl (by decide)) h
    | [_], h => exact absurd (Or.inl (show (-1 : Int) < 0 by decide)) h
    | _ :: _ :: _ :: _, h => exact absurd (Or.inl (show (-1 : Int) < 0 by decide)) h
    | [c0, c1], h =>
      simp only [] at h
      by_cases hg : c0 = 'g'
      · subst hg
        rw [if_neg (by simp)] at h
        have h0 : ('0'.toNat : Int) = 48 := by decide
        rw [h0] at h
        have hc : c1.toNat = 48 ∨ c1.toNat = 49 ∨ c1.toNat = 50 ∨ c1.toNat = 51 := by omega
        rcases hc with hc | hc | hc | hc <;> rw [char_of_toNat c1 _ hc] <;> decide
      · rw [if_pos hg] at h
        exact absurd (Or.inl (by decide)) h
  · intro h
    simp only [List.mem_cons, List.mem_singleton, List.not_mem_nil, or_false] at h
    rcases h with h | h | h | h <;> subst h <;> decide

theorem bankIndex_values :
    bankIndex "g0" = 0 ∧ bankIndex "g1" = 1 ∧ bankIndex "g2" = 2 ∧ bankIndex "g3" = 3 := by
  decide

/-- The iteration on `-gl` when the branch of `-gl` is reached. -/
theorem parseStep_gl (env : Env) (openLog : String → Int) (argv : List String) (i : Nat)
    (s : Globals) (a : String) (h1 : argv.getD 1 "" ≠ "+kssgr")
    (ha : argv.getD i "" = "-gl") (harg : argv[i + 1]? = some a) :
    parseStep env openLog argv i s =
      if bankIndex a < 0 ∨ bankIndex a > 3 then .exit 1 s
      else .next (i + 2) { s with outputState :=
        { s.outputState with glp := some (bankIndex a).toNat } } := by
  unfold parseStep
  simp only [ha, harg]
  repeat (first | rw [if_neg (by decide)] | rw [if_neg h1])
  rfl

/-- The iteration on `-gr` when the branch of `-gr` is reached. -/
theorem parseStep_gr (env : Env) (openLog : String → Int) (argv : List String) (i : Nat)
    (s : Globals) (a : String) (h1 : argv.getD 1 "" ≠ "+kssgr")
    (ha : argv.getD i "" = "-gr") (harg : argv[i + 1]? = some a) :
    parseStep env openLog argv i s =
      if bankIndex a < 0 ∨ bankIndex a > 3 then .exit 1 s
      else .next (i + 2) { s with outputState :=
        { s.outputState with grp := some (bankIndex a).toNat } } := by
  unfold parseStep
  simp only [ha, harg]
  repeat (first | rw [if_neg (by decide)] | rw [if_neg h1])
  rfl

/-- The iteration on `-kgl` when the branch of `-kgl` is reached. -/
theorem parseStep_kgl (env : Env) (openLog : String → Int) (argv : List String) (i : Nat)
    (s : Globals) (a : String) (h1 : argv.getD 1 "" ≠ "+kssgr")
    (ha : argv.getD i "" = "-kgl") (harg : argv[i + 1]? = some a) :
    parseStep env openLog argv i s =
      if bankIndex a < 0 ∨ bankIndex a > 3 then .exit 1 s
      else .next (i + 2) { s with inputState :=
        { s.inputState with glp := some (bankIndex a).toNat } } := by
  unfold parseStep
  simp only [ha, harg]
  repeat (first | rw [if_neg (by decide)] | rw [if_neg h1])
  rfl

/-- The iteration on `-kgr` when the branch of `-kgr` is reached. -/
theorem parseStep_kgr (env : Env) (openLog : String → Int) (argv : List String) (i : Nat)
    (s : Globals) (a : String) (h1 : argv.getD 1 "" ≠ "+kssgr")
    (ha : argv.getD i "" = "-kgr") (harg : argv[i + 1]? = some a) :
    parseStep env openLog argv i s =
      if bankIndex a < 0 ∨ bankIndex a > 3 then .exit 1 s
      else .next (i + 2) { s with inputState :=
        { s.inputState with grp := some (bankIndex a).toNat } } := by
  unfold parseStep
  simp only [ha, harg]
  repeat (first | rw [if_neg (by decide)] | rw [if_neg h1])
  rfl

theorem parseLoop_keepsPointers (env : Env) (openLog : String → Int) (argv : List String) :
    ∀ (fuel i : Nat) (s : Globals),
      s.inputState.pointsToBanks ∧ s.outputState.pointsToBanks →
      ∀ (i1 : Nat) (s1 : Globals), parseLoop env openLog argv fuel i s = .returns i1 s1 →
        s1.inputState.pointsToBanks ∧ s1.outputState.pointsToBanks := by
  intro fuel
  induction fuel with
  | zero =>
    intro i s hv i1 s1 h
    unfold parseLoop at h
    split_ifs at h
    cases h
    exact hv
  | succ fuel ih =>
    intro i s hv i1 s1 h
    unfold parseLoop at h
    split_ifs at h
    · have hk := parseStep_keepsPointers env openLog argv i s hv
      cases hstep : parseStep env openLog argv i s with
      | next i2 s2 =>
        rw [hstep] at hk h
        exact ih i2 s2 hk i1 s1 h
      | stop i2 s2 =>
        rw [hstep] at hk h
        cases h
        exact hk
      | exit status s2 =>
        rw [hstep] at h
        cases h
    · cases h
      exact hv

/-- The branches of `-gl`, `-gr`, `-kgl` and `-kgr`, when they are reached
    (the test `argv[1] == "+kssgr"`, which precedes them, being false) with
    the argument `a`: for `a` one of "g0", "g1", "g2", "g3" the loop goes on
    after the argument with the pointer of the option (`glp` or `grp` of the
    output state, `glp` or `grp` of the input state) set to the bank of that
    number and everything else as before; for every other `a` the program
    ends in `FatalError` with the globals as before.  And when `glp` and
    `grp` of both states designate banks before `parseOptions`, they do when
    it returns. -/
theorem parseStep_bank_pointers (env : Env) (openLog : String → Int) (argv : List String)
    (i : Nat) (s : Globals) (a : String) (h1 : argv.getD 1 "" ≠ "+kssgr")
    (harg : argv[i + 1]? = some a) :
    (a ∈ ["g0", "g1", "g2", "g3"] →
      (bankIndex a).toNat ≤ 3 ∧ a = String.mk ['g', Char.ofNat (48 + (bankIndex a).toNat)] ∧
      (argv.getD i "" = "-gl" →
        parseStep env openLog argv i s = .next (i + 2) { s with outputState :=
          { s.outputState with glp := some (bankIndex a).toNat } }) ∧
      (argv.getD i "" = "-gr" →
        parseStep env openLog argv i s = .next (i + 2) { s with outputState :=
          { s.outputState with grp := some (bankIndex a).toNat } }) ∧
      (argv.getD i "" = "-kgl" →
        parseStep env openLog argv i s = .next (i + 2) { s with inputState :=
          { s.inputState with glp := some (bankIndex a).toNat } }) ∧
      (argv.getD i "" = "-kgr" →
        parseStep env openLog argv i s = .next (i + 2) { s with inputState :=
          { s.inputState with grp := some (bankIndex a).toNat } })) ∧
    (a ∉ ["g0", "g1", "g2", "g3"] → argv.getD i "" ∈ ["-gl", "-gr", "-kgl", "-kgr"] →
      parseStep env openLog argv i s = .exit 1 s ∧
      ∀ fuel, parseLoop env openLog argv (fuel + 1) i s = .exits 1 s) ∧
    (∀ (s0 : Globals) (i1 : Nat) (s1 : Globals),
      s0.inputState.pointsToBanks ∧ s0.outputState.pointsToBanks →
      parseOptions env openLog argv s0 = .returns i1 s1 →
      s1.inputState.pointsToBanks ∧ s1.outputState.pointsToBanks) := by
  refine ⟨?_, ?_, ?_⟩
  · intro hmem
    have hb := (bankIndex_range a).mpr hmem
    refine ⟨bankIndex_toNat_le a hb, ?_, ?_, ?_, ?_, ?_⟩
    · simp only [List.mem_cons, List.mem_singleton, List.not_mem_nil, or_false] at hmem
      rcases hmem with h | h | h | h <;> subst h <;> decide
    · intro ha
      rw [parseStep_gl env openLog argv i s a h1 ha harg, if_neg hb]
    · intro ha
      rw [parseStep_gr env openLog argv i s a h1 ha harg, if_neg hb]
    · intro ha
      rw [parseStep_kgl env openLog argv i s a h1 ha harg, if_neg hb]
    · intro ha
      rw [parseStep_kgr env openLog argv i s a h1 ha harg, if_neg hb]
  · intro hmem hopt
    have hb : bankIndex a < 0 ∨ bankIndex a > 3 := by
      by_contra hcon
      exact hmem ((bankIndex_range a).mp hcon)
    have hstep : parseStep env openLog argv i s = .exit 1 s := by
      simp only [List.mem_cons, List.mem_singleton, List.not_mem_nil, or_false] at hopt
      rcases hopt with ha | ha | ha | ha
      · rw [parseStep_gl env openLog argv i s a h1 ha harg, if_pos hb]
      · rw [parseStep_gr env openLog argv i s a h1 ha harg, if_pos hb]
      · rw [parseStep_kgl env openLog argv i s a h1 ha harg, if_pos hb]
      · rw [parseStep_kgr env openLog argv i s a h1 ha harg, if_pos hb]
    refine ⟨hstep, ?_⟩
    intro fuel
    have hlt : i < argv.length := by
      have := (List.getElem?_eq_some_iff.mp harg).1
      omega
    rw [parseLoop, if_pos hlt, hstep]
  · intro s0 i1 s1 hv hret
    exact parseLoop_keepsPointers env openLog argv argv.length 1 s0 hv i1 s1 hret

theorem parseStep_bank_pointers_witness :
    ["luit", "-gl", "g1"].getD 1 "" ≠ "+kssgr" ∧ ["luit", "-gl", "g1"][1 + 1]? = some "g1" ∧
    parseStep Env.identity (fun _ => 3) ["luit", "-gl", "g1"] 1 Globals.sample
      = .next 3 { Globals.sample with outputState :=
          { Globals.sample.outputState with glp := some 1 } } ∧
    parseOptions Env.identity (fun _ => 3) ["luit", "-gl", "g1"] Globals.sample
      = .returns 3 { Globals.sample with outputState :=
          { Globals.sample.outputState with glp := some 1 } } ∧
    parseOptions Env.identity (fun _ => 3) ["luit", "-kgr", "g4"] Globals.sample
      = .exits 1 Globals.sample :=
  ⟨by decide, rfl,
    ((parseStep_bank_pointers Env.identity (fun _ => 3) ["luit", "-gl", "g1"] 1 Globals.sample
      "g1" (by decide) rfl).1 (by decide)).2.2.1 rfl,
    by decide, by decide⟩

/-- The slip behind C22, the same as for C19 and C20: the branches of
    `-gl`, `-gr`, `-kgl` and `-kgr` come after the test `argv[1] == "+kssgr"`
    in the chain, so when `argv[1]` is "+kssgr" an option `-gl g1` is taken
    for `+kssgr`: the pointer `glp` of the output state is not set, the
    output state is as before, and `parseOptions` returns 3, leaving "g1" as
    the command to run; and `-kgr bogus` does not end the program.  Without
    "+kssgr" before them, `-gl g1` sets the pointer to bank 1 and
    `-kgr bogus` ends the program with status 1. -/
theorem parseOptions_gl_after_kssgr :
    parseOptions Env.identity (fun _ => 3) ["luit", "+kssgr", "-gl", "g1"] Globals.sample
      = .returns 3 { Globals.sample with inputState :=
          { Globals.sample.inputState with
            inputFlags := clearFlag Globals.sample.inputState.inputFlags IF_SSGR } } ∧
    parseOptions Env.identity (fun _ => 3) ["luit", "-gl", "g1"] Globals.sample
      = .returns 3 { Globals.sample with outputState :=
          { Globals.sample.outputState with glp := some 1 } } ∧
    parseOptions Env.identity (fun _ => 3) ["luit", "+kssgr", "-kgr", "bogus"] Globals.sample
      = .returns 3 { Globals.sample with inputState :=
          { Globals.sample.inputState with
            inputFlags := clearFlag Globals.sample.inputState.inputFlags IF_SSGR } } ∧
    parseOptions Env.identity (fun _ => 3) ["luit", "-kgr", "bogus"] Globals.sample
      = .exits 1 Globals.sample := by
  decide

/-! ### The exit status of a usage error -/

/-- An argument in option position that begins with `-` or `+` and is none
    of the strings that `parseOptions` compares with ends the program in
    `help(argv[0], 1)`, that is `ExitProgram(EXIT_FAILURE)`. -/
theorem parseStep_unknown_option (env : Env) (openLog : String → Int) (argv : List String)
    (i : Nat) (s : Globals) (h1 : argv.getD 1 "" ≠ "+kssgr")
    (hhead : (argv.getD i "").toList.head? = some '-' ∨
      (argv.getD i "").toList.head? = some '+')
    (hunk : argv.getD i "" ∉ ["--", "-v", "-V", "-h", "-list", "-fill-fontenc",
      "-show-fontenc", "-show-iconv", "-list-fontenc", "-list-iconv", "+oss", "+ols", "+osl",
      "+ot", "-k7", "+kss", "+kssgr", "-kls", "-g0", "-g1", "-g2", "-g3", "-gl", "-gr",
      "-kg0", "-kg1", "-kg2", "-kg3", "-kgl", "-kgr", "-argv0", "-x", "-c", "-ilog", "-olog",
      "-alias", "-encoding", "-p", "-t"]) :
    parseStep env openLog argv i s = .exit EXIT_FAILURE s := by
  simp only [List.mem_cons, List.mem_singleton, List.not_mem_nil, or_false, not_or] at hunk
  obtain ⟨k1, k2, k3, k4, k5, k6, k7, k8, k9, k10, k11, k12, k13, k14, k15, k16, k17, k18, k19,
    k20, k21, k22, k23, k24, k25, k26, k27, k28, k29, k30, k31, k32, k33, k34, k35, k36, k37,
    k38, k39⟩ := hunk
  have hh : ¬((argv.getD i "").toList.head? ≠ some '-' ∧
      (argv.getD i "").toList.head? ≠ some '+') := by
    rintro ⟨ha, hb⟩
    rcases hhead with h | h
    · exact ha h
    · exact hb h
  unfold parseStep
  simp only []
  rw [if_neg hh]
  repeat rw [if_neg (by assumption)]

/-- An option that takes an argument and is the last element of `argv`
    ends the program in `FatalError`, that is `ExitProgram(1)`. -/
theorem parseStep_missing_argument (env : Env) (openLog : String → Int) (argv : List String)
    (i : Nat) (s : Globals) (h1 : argv.getD 1 "" ≠ "+kssgr")
    (harg : argv[i + 1]? = none)
    (hopt : argv.getD i "" ∈ ["-show-fontenc", "-show-iconv", "-g0", "-g1", "-g2", "-g3",
      "-gl", "-gr", "-kg0", "-kg1", "-kg2", "-kg3", "-kgl", "-kgr", "-argv0", "-ilog", "-olog",
      "-alias", "-encoding"]) :
    parseStep env openLog argv i s = .exit 1 s := by
  simp only [List.mem_cons, List.mem_singleton, List.not_mem_nil, or_false] at hopt
  rcases hopt with ha | ha | ha | ha | ha | ha | ha | ha | ha | ha | ha | ha | ha | ha | ha |
    ha | ha | ha | ha <;>
  · unfold parseStep
    simp only [ha, harg]
    repeat (first | rw [if_neg (by decide)] | rw [if_neg h1])
    try rfl

/-- C21, as the code has it: when the loop of `parseOptions` is at an
    argument in option position (with `argv[1]` other than "+kssgr", so that
    the tests after the test for `+kssgr` are reached) and that argument is
    an invalid flag, or an option whose required argument is missing, the
    program ends with exit status 1: an invalid flag ends in
    `ExitProgram(EXIT_FAILURE)` and a missing argument in `FatalError`,
    which calls `ExitProgram(1)`.  The globals are as before. -/
theorem parseLoop_usage_error_status (env : Env) (openLog : String → Int)
    (argv : List String) (fuel i : Nat) (s : Globals) (hi : i < argv.length)
    (h1 : argv.getD 1 "" ≠ "+kssgr") :
    (((argv.getD i "").toList.head? = some '-' ∨ (argv.getD i "").toList.head? = some '+') →
      argv.getD i "" ∉ ["--", "-v", "-V", "-h", "-list", "-fill-fontenc",
        "-show-fontenc", "-show-iconv", "-list-fontenc", "-list-iconv", "+oss", "+ols",
        "+osl", "+ot", "-k7", "+kss", "+kssgr", "-kls", "-g0", "-g1", "-g2", "-g3", "-gl",
        "-gr", "-kg0", "-kg1", "-kg2", "-kg3", "-kgl", "-kgr", "-argv0", "-x", "-c", "-ilog",
        "-olog", "-alias", "-encoding", "-p", "-t"] →
      parseLoop env openLog argv (fuel + 1) i s = .exits EXIT_FAILURE s) ∧
    (argv.getD i "" ∈ ["-show-fontenc", "-show-iconv", "-g0", "-g1", "-g2", "-g3",
        "-gl", "-gr", "-kg0", "-kg1", "-kg2", "-kg3", "-kgl", "-kgr", "-argv0", "-ilog",
        "-olog", "-alias", "-encoding"] →
      i + 1 ≥ argv.length →
      parseLoop env openLog argv (fuel + 1) i s = .exits 1 s) ∧
    EXIT_FAILURE = 1 := by
  refine ⟨?_, ?_, rfl⟩
  · intro hhead hunk
    rw [parseLoop, if_pos hi, parseStep_unknown_option env openLog argv i s h1 hhead hunk]
  · intro hopt hlast
    have harg : argv[i + 1]? = none := List.getElem?_eq_none (by omega)
    rw [parseLoop, if_pos hi, parseStep_missing_argument env openLog argv i s h1 harg hopt]

theorem parseLoop_usage_error_status_witness :
    1 < ["luit", "-encoding"].length ∧ ["luit", "-encoding"].getD 1 "" ≠ "+kssgr" ∧
    parseOptions Env.identity (fun _ => 3) ["luit", "-encoding"] Globals.sample
      = .exits 1 Globals.sample :=
  ⟨by decide, by decide,
    (parseLoop_usage_error_status Env.identity (fun _ => 3) ["luit", "-encoding"] 1 1
      Globals.sample (by decide) (by decide)).2.1 (by decide) (by decide)⟩

/-- C21 fails as stated: `luit -g0` (the argument of `-g0` is missing) ends
    in `FatalError`, that is with exit status 1, and `luit -bogus` (an
    invalid flag) ends with `EXIT_FAILURE`, which is 1; neither status
    is 2. -/
theorem parseOptions_usage_error_not_2 :
    parseOptions Env.identity (fun _ => 3) ["luit", "-g0"] Globals.sample
      = .exits 1 Globals.sample ∧
    parseOptions Env.identity (fun _ => 3) ["luit", "-bogus"] Globals.sample
      = .exits EXIT_FAILURE Globals.sample ∧
    parseOptions Env.identity (fun _ => 3) ["luit", "-g0"] Globals.sample
      ≠ .exits 2 Globals.sample ∧
    parseOptions Env.identity (fun _ => 3) ["luit", "-bogus"] Globals.sample
      ≠ .exits 2 Globals.sample ∧
    EXIT_FAILURE = 1 ∧ (1 : Int) ≠ 2 := by
  decide

end Luit
